import Mathlib

/-!
Verification of the SmartCredit normalization engine (`normalize_report` in
`main.py`) against its natural-language specification.

The Python function consumes JSON documents, so we first build a shallow
embedding of the JSON value space and of the Python operations the source
uses on such values (`dict.get`, truthiness, `or`, iteration, `float(...)`,
`str(...)`, `json.loads`, `==`, `in`, `str.strip`).  Python `None` is
identified with JSON `null`.  Python exceptions (`AttributeError`,
`TypeError`, `ValueError`, `json.JSONDecodeError`, `IndexError`, `KeyError`)
are modelled by an `Except` monad; the source's `try/except` blocks become
explicit catches.  Machine floats are modelled by `ℚ` (the numeric values the
program manipulates are decimal literals, where float and rational arithmetic
agree; `inf`/`nan` literals and underscore separators accepted by Python's
`float` are not modelled, and `str()` of a non-integral number is rendered
approximately — no claim exercises these corners).
-/

set_option maxRecDepth 100000

namespace SmartCredit

/-- Universe of JSON values (= the Python values `normalize_report` sees:
`None`, `bool`, numbers, `str`, `list`, `dict`). -/
inductive J where
  | null : J
  | bool : Bool → J
  | num : ℚ → J
  | str : String → J
  | arr : List J → J
  | obj : List (String × J) → J

/-- Association list standing for a Python `dict` (insertion ordered). -/
abbrev Obj := List (String × J)

/-- Python exception kinds raised by the operations the source uses. -/
inductive PyErr where
  | attributeError : PyErr
  | typeError : PyErr
  | valueError : PyErr
  | jsonDecodeError : PyErr
  | indexError : PyErr
  | keyError : PyErr
deriving DecidableEq

/-- Python truthiness of a JSON value. -/
def truthy : J → Bool
  | J.null => false
  | J.bool b => b
  | J.num q => decide (q ≠ 0)
  | J.str s => decide (s ≠ "")
  | J.arr l => !l.isEmpty
  | J.obj l => !l.isEmpty

/-- First-binding lookup in a dict (Python dicts hold each key once). -/
def jLookup : Obj → String → Option J
  | [], _ => none
  | (k2, v) :: rest, k => if k2 = k then some v else jLookup rest k

/-- Python `d[k] = v`: replace in place if the key exists, else append. -/
def dictSet : Obj → String → J → Obj
  | [], k, v => [(k, v)]
  | (k2, v2) :: rest, k, v =>
      if k2 = k then (k2, v) :: rest else (k2, v2) :: dictSet rest k v

/-- Python `a or b` on values (returns `a` when truthy, else `b`). -/
def pyOr (a b : J) : J := if truthy a then a else b

/-- Check for the `dict` constructor (`isinstance(v, dict)`). -/
def isObjB : J → Bool
  | J.obj _ => true
  | _ => false

/-- Check for the `list` constructor (`isinstance(v, list)`). -/
def isArrB : J → Bool
  | J.arr _ => true
  | _ => false

mutual

/-- Python `==` on JSON values.  Numbers and booleans compare across kinds
(`1 == True`); dict comparison is modelled order-sensitively (every dict the
source compares is either a constructed literal or comes from `json.loads`,
where insertion order is the document order). -/
def pyEq : J → J → Bool
  | J.null, J.null => true
  | J.bool a, J.bool b => a == b
  | J.num a, J.num b => a == b
  | J.bool a, J.num b => (if a then (1 : ℚ) else 0) == b
  | J.num a, J.bool b => a == (if b then (1 : ℚ) else 0)
  | J.str a, J.str b => a == b
  | J.arr a, J.arr b => pyEqList a b
  | J.obj a, J.obj b => pyEqObjL a b
  | _, _ => false

/-- Elementwise Python `==` on lists. -/
def pyEqList : List J → List J → Bool
  | [], [] => true
  | a :: as, b :: bs => pyEq a b && pyEqList as bs
  | _, _ => false

/-- Bindingwise Python `==` on dict entries. -/
def pyEqObjL : List (String × J) → List (String × J) → Bool
  | [], [] => true
  | (k, v) :: r, (k2, v2) :: r2 => k == k2 && pyEq v v2 && pyEqObjL r r2
  | _, _ => false

end

/-- Decimal digit characters of a positive number, most significant first
(the fuel argument only drives the recursion; callers supply `n + 1`). -/
def natDigitsF : Nat → Nat → List Char
  | 0, _ => []
  | fuel + 1, n =>
      if n = 0 then [] else natDigitsF fuel (n / 10) ++ [Char.ofNat (48 + n % 10)]

/-- Decimal rendering of a natural number. -/
def natRepr (n : Nat) : String := if n = 0 then "0" else String.mk (natDigitsF (n + 1) n)

/-- Decimal rendering of an integer. -/
def intRepr (i : Int) : String :=
  if i < 0 then "-" ++ natRepr i.natAbs else natRepr i.natAbs

/-- Python `str.strip()` (whitespace from both ends). -/
def pyTrim (s : String) : String :=
  String.mk ((s.data.dropWhile Char.isWhitespace).reverse.dropWhile Char.isWhitespace |>.reverse)

/-- Interleaving of a separator between rendered pieces (`sep.join(parts)`). -/
def joinSep (sep : String) : List String → String
  | [] => ""
  | [s] => s
  | s :: rest => s ++ sep ++ joinSep sep rest

mutual

/-- Rendering of a value the way Python `str()` would, used only by
`safe_string` and f-strings.  Containers are rendered approximately (no claim
evaluates `str()` of a container). -/
def pyStr : J → String
  | J.null => "None"
  | J.bool b => if b then "True" else "False"
  | J.num q => if q.den = 1 then intRepr q.num else intRepr q.num ++ "/" ++ natRepr q.den
  | J.str s => s
  | J.arr l => "[" ++ joinSep ", " (pyStrList l) ++ "]"
  | J.obj l => "\x7b" ++ joinSep ", " (pyStrObjL l) ++ "\x7d"

/-- Renderings of the elements of a list. -/
def pyStrList : List J → List String
  | [] => []
  | a :: as => pyStr a :: pyStrList as

/-- Renderings of the bindings of a dict. -/
def pyStrObjL : List (String × J) → List String
  | [] => []
  | (k, v) :: r => (k ++ ": " ++ pyStr v) :: pyStrObjL r

end

/-- Leading decimal digits of a character list, with the rest. -/
def takeDigits : List Char → List Char × List Char
  | [] => ([], [])
  | c :: rest =>
      if c.isDigit then
        let (ds, r) := takeDigits rest
        (c :: ds, r)
      else ([], c :: rest)

/-- Numeric value of a digit list. -/
def digitsToNat : List Char → Nat
  | [] => 0
  | c :: rest => (c.toNat - 48) * 10 ^ rest.length + digitsToNat rest

/-- Exact rational value of a signed decimal with integer part `ip`, fraction
part `fp` and ten-exponent `ex` (built with `mkRat` so the value is in lowest
terms, matching the extensional value of the Python float). -/
def decToRat (sign : Int) (ip fp : List Char) (ex : Int) : ℚ :=
  let e : Int := ex - fp.length
  if 0 ≤ e then mkRat (sign * digitsToNat (ip ++ fp) * 10 ^ e.toNat) 1
  else mkRat (sign * digitsToNat (ip ++ fp)) (10 ^ (-e).toNat)

/-- Mantissa/exponent part of Python `float(str)` after the optional sign:
`digits[.digits][e[sign]digits]`, at least one mantissa digit. -/
def parseFloatMag (sign : Int) (cs : List Char) : Option ℚ :=
  let (ip, r1) := takeDigits cs
  let (fp, r2) :=
    match r1 with
    | c :: rest => if c = '.' then takeDigits rest else ([], r1)
    | [] => ([], r1)
  if ip.isEmpty && fp.isEmpty then none
  else
    match r2 with
    | [] => some (decToRat sign ip fp 0)
    | c :: rest =>
        if c = 'e' ∨ c = 'E' then
          let (esign, r3) :=
            match rest with
            | d :: r4 => if d = '+' then (1, r4) else if d = '-' then (-1, r4) else (1, rest)
            | [] => ((1 : Int), rest)
          let (eds, r5) := takeDigits r3
          if eds.isEmpty ∨ ¬r5.isEmpty then none
          else some (decToRat sign ip fp (esign * (digitsToNat eds : Int)))
        else none

/-- Python `float(s)` on a string: strip whitespace, optional sign, decimal
literal (scientific notation included; `inf`/`nan`/underscores unmodelled). -/
def parseFloat (s : String) : Option ℚ :=
  match (pyTrim s).data with
  | [] => none
  | c :: rest =>
      if c = '+' then parseFloatMag 1 rest
      else if c = '-' then parseFloatMag (-1) rest
      else parseFloatMag 1 (c :: rest)

/-- Source `safe_number` (main.py lines 55-61): `None`/`""` give `None`,
otherwise `float(val)` with `TypeError`/`ValueError` caught as `None`. -/
def safe_number (val : J) : J :=
  match val with
  | J.null => J.null
  | J.str s =>
      if s = "" then J.null
      else
        match parseFloat s with
        | some q => J.num q
        | none => J.null
  | J.num q => J.num q
  | J.bool b => J.num (if b then 1 else 0)
  | _ => J.null

/-- Source `safe_string` (main.py lines 63-66): `None` stays `None`,
otherwise `str(val).strip()`, with empty-after-strip becoming `None`. -/
def safe_string (val : J) : J :=
  match val with
  | J.null => J.null
  | _ =>
      let s := pyTrim (pyStr val)
      if s = "" then J.null else J.str s

/-- Whether the first list leads the second (character prefix test). -/
def leadsWith : List Char → List Char → Bool
  | [], _ => true
  | _ :: _, [] => false
  | a :: as, b :: bs => a == b && leadsWith as bs

/-- Substring search on character lists. -/
def subSearch (needle : List Char) : List Char → Bool
  | [] => leadsWith needle []
  | c :: rest => leadsWith needle (c :: rest) || subSearch needle rest

/-- Python `needle in hay` for strings. -/
def strContainsSub (needle hay : String) : Bool := subSearch needle.data hay.data

/-- Python `needle in hay` for a string needle against a JSON value:
substring on strings, membership on lists, key membership on dicts,
`TypeError` otherwise. -/
def pyContains (needle : String) (hay : J) : Except PyErr Bool :=
  match hay with
  | J.str s => .ok (strContainsSub needle s)
  | J.arr l => .ok (l.any (fun x => pyEq x (J.str needle)))
  | J.obj kvs => .ok (kvs.any (fun kv => kv.1 == needle))
  | _ => .error .typeError

/-- Python `v.get(k, d)`: only dicts have `.get`; anything else raises
`AttributeError`. -/
def pyGetD (v : J) (k : String) (d : J) : Except PyErr J :=
  match v with
  | J.obj kvs => .ok ((jLookup kvs k).getD d)
  | _ => .error .attributeError

/-- Python `v.get(k)` (default `None`). -/
def pyGet (v : J) (k : String) : Except PyErr J := pyGetD v k J.null

/-- Python `for x in v`: lists yield elements, strings yield one-character
strings, dicts yield their keys; other values raise `TypeError`. -/
def pyIter (v : J) : Except PyErr (List J) :=
  match v with
  | J.arr l => .ok l
  | J.str s => .ok (s.data.map (fun c => J.str (String.singleton c)))
  | J.obj kvs => .ok (kvs.map (fun kv => J.str kv.1))
  | _ => .error .typeError

/-- Source idiom `if isinstance(x, dict): x = [x]` followed by `for y in x`. -/
def wrapIter (v : J) : Except PyErr (List J) :=
  match v with
  | J.obj _ => .ok [v]
  | _ => pyIter v

/-- Python `v[0]` as used on located collections. -/
def pyIndex0 (v : J) : Except PyErr J :=
  match v with
  | J.arr (h :: _) => .ok h
  | J.arr [] => .error .indexError
  | J.str s =>
      match s.data with
      | c :: _ => .ok (J.str (String.singleton c))
      | [] => .error .indexError
  | J.obj _ => .error .keyError
  | _ => .error .typeError

/-- Python `" ".join([p for p in parts if p])`: truthy parts must all be
strings (`TypeError` otherwise). -/
def pyJoinTruthy (sep : String) (parts : List J) : Except PyErr String := do
  let kept := parts.filter truthy
  let strs ← kept.mapM (fun p =>
    match p with
    | J.str s => Except.ok s
    | _ => Except.error PyErr.typeError)
  pure (joinSep sep strs)

/-- Characters stripped by Python `strip(', ')`. -/
def isCommaSpace (c : Char) : Bool := c == ',' || c == ' '

/-- Python `s.strip(", ")`. -/
def stripCommaSpace (s : String) : String :=
  String.mk ((s.data.dropWhile isCommaSpace).reverse.dropWhile isCommaSpace |>.reverse)

/-- JSON whitespace skipping. -/
def skipWs : List Char → List Char
  | [] => []
  | c :: rest =>
      if c = ' ' ∨ c = '\t' ∨ c = '\n' ∨ c = '\r' then skipWs rest else c :: rest

/-- Value of a hexadecimal digit. -/
def hexVal (c : Char) : Option Nat :=
  if c.isDigit then some (c.toNat - 48)
  else if 'a' ≤ c ∧ c ≤ 'f' then some (c.toNat - 87)
  else if 'A' ≤ c ∧ c ≤ 'F' then some (c.toNat - 55)
  else none

/-- Body of a JSON string literal (after the opening quote): returns the
decoded characters and the input after the closing quote.  Surrogate pairing
of `\uXXXX` escapes is not modelled (no claim exercises it). -/
def parseStrBody : List Char → Option (List Char × List Char)
  | [] => none
  | c :: rest =>
      if c = Char.ofNat 34 then some ([], rest)
      else if c = Char.ofNat 92 then
        match rest with
        | [] => none
        | 'u' :: h1 :: h2 :: h3 :: h4 :: r2 =>
            match hexVal h1, hexVal h2, hexVal h3, hexVal h4 with
            | some a, some b, some c2, some d =>
                (parseStrBody r2).map
                  (fun p => (Char.ofNat (((a * 16 + b) * 16 + c2) * 16 + d) :: p.1, p.2))
            | _, _, _, _ => none
        | e :: r2 =>
            let esc : Option Char :=
              if e = Char.ofNat 34 then some (Char.ofNat 34)
              else if e = Char.ofNat 92 then some (Char.ofNat 92)
              else if e = '/' then some '/'
              else if e = 'b' then some (Char.ofNat 8)
              else if e = 'f' then some (Char.ofNat 12)
              else if e = 'n' then some '\n'
              else if e = 'r' then some '\r'
              else if e = 't' then some '\t'
              else none
            match esc with
            | some ch => (parseStrBody r2).map (fun p => (ch :: p.1, p.2))
            | none => none
      else (parseStrBody rest).map (fun p => (c :: p.1, p.2))

/-- Magnitude of a JSON number after the optional minus sign:
`int [frac] [exp]` with the strict JSON integer grammar. -/
def parseJsonMag (sign : Int) (cs : List Char) : Option (ℚ × List Char) :=
  let (ip, r1) := takeDigits cs
  if ip.isEmpty then none
  else if ip.length > 1 ∧ ip.headD '0' = '0' then none
  else
    let hadDot : Bool :=
      match r1 with
      | c :: _ => c = '.'
      | [] => false
    let (fp, r2) :=
      match r1 with
      | c :: rest => if c = '.' then takeDigits rest else ([], r1)
      | [] => ([], r1)
    if hadDot ∧ fp.isEmpty then none
    else
      match r2 with
      | c :: rest =>
          if c = 'e' ∨ c = 'E' then
            let (esign, r3) :=
              match rest with
              | d :: r4 => if d = '+' then (1, r4) else if d = '-' then (-1, r4) else (1, rest)
              | [] => ((1 : Int), rest)
            let (eds, r5) := takeDigits r3
            if eds.isEmpty then none
            else some (decToRat sign ip fp (esign * (digitsToNat eds : Int)), r5)
          else some (decToRat sign ip fp 0, r2)
      | [] => some (decToRat sign ip fp 0, r2)

mutual

/-- Fuelled recursive-descent parser for one JSON value (the fuel only bounds
the number of parser steps; `loads` supplies enough for its input).
`Infinity`/`NaN` extensions of Python's parser are not modelled. -/
def parseJF : Nat → List Char → Option (J × List Char)
  | 0, _ => none
  | n + 1, cs =>
      match skipWs cs with
      | [] => none
      | c :: rest =>
          if c = Char.ofNat 34 then
            (parseStrBody rest).map (fun p => (J.str (String.mk p.1), p.2))
          else if c = Char.ofNat 123 then
            match skipWs rest with
            | c2 :: r2 =>
                if c2 = Char.ofNat 125 then some (J.obj [], r2)
                else (parseObjMembersF n (c2 :: r2)).map (fun p => (J.obj p.1, p.2))
            | [] => none
          else if c = '[' then
            match skipWs rest with
            | c2 :: r2 =>
                if c2 = ']' then some (J.arr [], r2)
                else (parseArrElemsF n (c2 :: r2)).map (fun p => (J.arr p.1, p.2))
            | [] => none
          else if c = 't' then
            if leadsWith ['r', 'u', 'e'] rest then some (J.bool true, rest.drop 3) else none
          else if c = 'f' then
            if leadsWith ['a', 'l', 's', 'e'] rest then some (J.bool false, rest.drop 4) else none
          else if c = 'n' then
            if leadsWith ['u', 'l', 'l'] rest then some (J.null, rest.drop 3) else none
          else if c = '-' then
            (parseJsonMag (-1) rest).map (fun p => (J.num p.1, p.2))
          else if c.isDigit then
            (parseJsonMag 1 (c :: rest)).map (fun p => (J.num p.1, p.2))
          else none

/-- Comma-separated JSON array elements up to the closing bracket. -/
def parseArrElemsF : Nat → List Char → Option (List J × List Char)
  | 0, _ => none
  | n + 1, cs => do
      let (v, r) ← parseJF n cs
      match skipWs r with
      | ',' :: r2 => do
          let (vs, r3) ← parseArrElemsF n r2
          pure (v :: vs, r3)
      | ']' :: r2 => pure ([v], r2)
      | _ => none

/-- Comma-separated JSON object members up to the closing brace. -/
def parseObjMembersF : Nat → List Char → Option (List (String × J) × List Char)
  | 0, _ => none
  | n + 1, cs =>
      match skipWs cs with
      | c :: rest =>
          if c = Char.ofNat 34 then do
            let (k, r) ← parseStrBody rest
            match skipWs r with
            | ':' :: r2 => do
                let (v, r3) ← parseJF n r2
                match skipWs r3 with
                | ',' :: r4 => do
                    let (ms, r5) ← parseObjMembersF n r4
                    pure ((String.mk k, v) :: ms, r5)
                | c3 :: r4 =>
                    if c3 = Char.ofNat 125 then pure ([(String.mk k, v)], r4) else none
                | [] => none
            | _ => none
          else none
      | [] => none

end

/-- Python `json.loads(v)`: parses a complete JSON document from a string;
any other argument type raises `TypeError`. -/
def loads (v : J) : Except PyErr J :=
  match v with
  | J.str s =>
      match parseJF (s.length + 16) s.data with
      | some (j, rest) =>
          if (skipWs rest).isEmpty then .ok j else .error .jsonDecodeError
      | none => .error .jsonDecodeError
  | _ => .error .typeError

/-- Gregorian leap-year test. -/
def isLeap (y : Nat) : Bool := y % 4 = 0 && (y % 100 ≠ 0 || y % 400 = 0)

/-- Days in a month of a given year. -/
def daysInMonth (y m : Nat) : Nat :=
  if m = 2 then (if isLeap y then 29 else 28)
  else if m = 4 ∨ m = 6 ∨ m = 9 ∨ m = 11 then 30
  else 31

/-- Month abbreviations used by `strftime("%b ...")` in the C locale. -/
def monthAbbrev (m : Nat) : String :=
  (["Jan", "Feb", "Mar", "Apr", "May", "Jun",
    "Jul", "Aug", "Sep", "Oct", "Nov", "Dec"].getD (m - 1) "")

/-- One-or-two-digit field of `strptime` (`%m`/`%d`): value and rest. -/
def parseTwoDigitField (cs : List Char) : Option (Nat × List Char) :=
  match cs with
  | a :: b :: rest =>
      if a.isDigit ∧ b.isDigit then some ((a.toNat - 48) * 10 + (b.toNat - 48), rest)
      else if a.isDigit then some (a.toNat - 48, b :: rest)
      else none
  | [a] => if a.isDigit then some (a.toNat - 48, []) else none
  | [] => none

/-- What `datetime.strptime(s, "%Y-%m-%d")` accepts: a four-digit year, a
dash, a one-or-two digit month in 1..12, a dash, a one-or-two digit day valid
for that month and year, nothing else; the year must be at least 1. -/
def parseYMD (s : String) : Option (Nat × Nat × Nat) :=
  match s.data with
  | y1 :: y2 :: y3 :: y4 :: '-' :: rest =>
      if y1.isDigit ∧ y2.isDigit ∧ y3.isDigit ∧ y4.isDigit then
        let y := digitsToNat [y1, y2, y3, y4]
        match parseTwoDigitField rest with
        | some (m, r2) =>
            match r2 with
            | '-' :: r3 =>
                match parseTwoDigitField r3 with
                | some (d, r4) =>
                    if r4.isEmpty ∧ 1 ≤ y ∧ 1 ≤ m ∧ m ≤ 12 ∧ 1 ≤ d ∧ d ≤ daysInMonth y m
                    then some (y, m, d) else none
                | none => none
            | _ => none
        | none => none
      else none
  | _ => none

/-- Zero-padded two-digit rendering (`strftime("%d")`). -/
def twoDigits (n : Nat) : String := if n < 10 then "0" ++ natRepr n else natRepr n

/-- Source date-reformat block (main.py lines 479-493): when the value is
truthy and its `str()` contains a dash, try `strptime("%Y-%m-%d")` and
reformat as `"%b %d, %Y"`; every failure leaves the value unchanged (the
block is wrapped in a bare `try/except: pass`). -/
def convDate (d : J) : J :=
  if truthy d && strContainsSub "-" (pyStr d) then
    match d with
    | J.str s =>
        match parseYMD s with
        | some (y, m, dd) =>
            J.str (monthAbbrev m ++ " " ++ twoDigits dd ++ ", " ++ natRepr y)
        | none => d
    | _ => d
  else d

/-- Python `d.get(k)` on an account record the function itself constructed
(such records are always dicts, so the access is total). -/
def acctGet (a : Obj) (k : String) : J := (jLookup a k).getD J.null

/-- Value of `existing_acct.get("institution", \x7b\x7d).get("name")` in the dedup
checks; constructed account records always hold a dict under `"institution"`,
so the inner access is modelled total. -/
def instName (a : Obj) : J :=
  match (jLookup a "institution").getD (J.obj []) with
  | J.obj kvs => (jLookup kvs "name").getD J.null
  | _ => J.null

/-- Duplicate test of the bundle-partition pass (main.py lines 538-544):
every existing record's stored `maskedAccountNumber`, institution name and
`bureau` are compared with the candidate's raw resolved values. -/
def isDuplicate3 (accts : List Obj) (account_number creditor_name bureau_symbol : J) : Bool :=
  accts.any fun e =>
    pyEq (acctGet e "maskedAccountNumber") account_number &&
    pyEq (instName e) creditor_name &&
    pyEq (acctGet e "bureau") bureau_symbol

/-- Duplicate test of the per-bureau-report pass (main.py lines 622-627):
only masked account number and institution name are compared; the record's
bureau is not part of this check. -/
def isDuplicate2 (accts : List Obj) (account_number creditor_name : J) : Bool :=
  accts.any fun e =>
    pyEq (acctGet e "maskedAccountNumber") account_number &&
    pyEq (instName e) creditor_name

/-- Creditor-name fallback chain shared by the partition and per-bureau
passes (main.py lines 452-457 and 574-579).  All lookups hit the same record,
so evaluating them eagerly raises exactly when Python's short-circuit chain
would. -/
def resolveCreditorName (t : J) : Except PyErr J := do
  let a ← pyGet t "creditorName"
  let b ← pyGet t "creditor_name"
  let c ← pyGet t "institutionName"
  let d ← pyGet t "institution_name"
  let e ← pyGet t "lenderName"
  let f ← pyGet t "subscriberName"
  pure (pyOr a (pyOr b (pyOr c (pyOr d (pyOr e f)))))

/-- Account-status fallback shared by the partition and per-bureau passes
(main.py lines 463-464 and 583): the nested `accountCondition` access is only
evaluated when `accountStatus` is falsy, and can itself raise. -/
def resolveAccountStatus (t : J) : Except PyErr J := do
  let s ← pyGet t "accountStatus"
  if truthy s then pure s
  else do
    let ac ← pyGetD t "accountCondition" (J.obj [])
    pyGet ac "description"

/-- Tradeline collection of one partition item (main.py 433-439): a list is
used as is, a truthy non-list becomes a singleton, a falsy one is empty. -/
def tradelinesOf (td : J) : List J :=
  match td with
  | J.arr l => l
  | _ => if truthy td then [td] else []

/-- Value stored in the legacy numeric fields (main.py 413, 414, 415, 418,
526-528, 613-615): `safe_number(x) if x else None`. -/
def legacyNumVal (v : J) : J := if truthy v then safe_number v else J.null

/-- Resolved per-trade fields of the primary trade list (main.py 325-381). -/
structure TradeFields where
  institution_name : J
  account_type : J
  account_status : J
  current_balance : J
  credit_limit : J
  high_credit : J
  open_date : J
  closed_date : J
  account_number : J
  payment_amount : J
  last_reported : J
  member_code : J
  payment_history : J
  times_30_late : J
  times_60_late : J
  times_90_late : J
  account_age : J
  bureau : J

/-- Field resolution for one entry of the primary trade list
(main.py lines 325-381). -/
def resolveTrade (trade : J) : Except PyErr TradeFields := do
  let instRaw ← pyGet trade "institution"
  let institution_name ← pyGet (pyOr instRaw (J.obj [])) "name"
  let atoRaw ← pyGet trade "accountTypeObj"
  let account_type_display ← pyGet trade "accountTypeDisplay"
  let account_type_description ← pyGet (pyOr atoRaw (J.obj [])) "description"
  let atFallback ← pyGet trade "accountType"
  let account_type := pyOr account_type_display (pyOr account_type_description atFallback)
  let mcaRaw ← pyGet trade "memberCodeAccount"
  let ccRaw ← pyGet (pyOr mcaRaw (J.obj [])) "creditorContact"
  let bureau0 ← pyGet (pyOr ccRaw (J.obj [])) "creditorContactSource"
  let bureau1 ←
    if truthy bureau0 then pure bureau0
    else do
      let ccdRaw ← pyGet trade "creditorContact"
      pyGet (pyOr ccdRaw (J.obj [])) "creditorContactSource"
  let bureau ←
    if truthy bureau1 then pure bureau1
    else do
      let b1 ← pyGet trade "bureau"
      let b2 ← pyGet trade "source"
      let b3 ← pyGet trade "reportingBureau"
      pure (pyOr b1 (pyOr b2 b3))
  let as1 ← pyGet trade "accountStatus"
  let as2 ← pyGet trade "currentAccountRatingDisplay"
  let account_status := pyOr as1 as2
  let current_balance ← pyGet trade "currentBalanceAmount"
  let credit_limit ← pyGet trade "creditLimitAmount"
  let high_credit ← pyGet trade "highCreditAmount"
  let od1 ← pyGet trade "openDateFormatted"
  let od2 ← pyGet trade "openDate"
  let open_date := pyOr od1 od2
  let closed_date ← pyGet trade "closedDate"
  let account_number ← pyGet trade "maskedAccountNumber"
  let pa1 ← pyGet trade "termsMonthlyPayment"
  let pa2 ← pyGet trade "scheduledMonthlyPayment"
  let payment_amount := pyOr pa1 pa2
  let last_reported ← pyGet trade "lastReported"
  let member_code ← pyGet trade "memberCode"
  let payment_history ← pyGet trade "paymentHistory"
  let times_30_late ← pyGet trade "times30Late"
  let times_60_late ← pyGet trade "times60Late"
  let times_90_late ← pyGet trade "times90Late"
  let account_age ← pyGet trade "accountAge"
  pure ⟨institution_name, account_type, account_status, current_balance,
        credit_limit, high_credit, open_date, closed_date, account_number,
        payment_amount, last_reported, member_code, payment_history,
        times_30_late, times_60_late, times_90_late, account_age, bureau⟩

/-- Account record built by the primary-trade-list pass (main.py 383-422),
with the source's exact key order and value expressions. -/
def mkTradeAcct (f : TradeFields) : Obj :=
  [("institution", J.obj [("name", safe_string f.institution_name)]),
   ("accountTypeObj",
     if truthy f.account_type then J.obj [("description", safe_string f.account_type)] else J.null),
   ("accountType", safe_string f.account_type),
   ("accountStatus", safe_string f.account_status),
   ("currentBalanceAmount", safe_string f.current_balance),
   ("creditLimitAmount", safe_string f.credit_limit),
   ("currentAccountRatingDisplay", safe_string f.account_status),
   ("openDateFormatted", safe_string f.open_date),
   ("maskedAccountNumber", safe_string f.account_number),
   ("highCreditAmount", safe_string f.high_credit),
   ("termsMonthlyPayment", safe_string f.payment_amount),
   ("paymentHistory", safe_string f.payment_history),
   ("times30Late", safe_number f.times_30_late),
   ("times60Late", safe_number f.times_60_late),
   ("times90Late", safe_number f.times_90_late),
   ("creditorContactSource", safe_string f.bureau),
   ("bureau", safe_string f.bureau),
   ("lastReported", safe_string f.last_reported),
   ("accountAge", safe_string f.account_age),
   ("dateClosed", safe_string f.closed_date),
   ("memberCode", safe_string f.member_code),
   ("account_type", safe_string f.account_type),
   ("status", safe_string f.account_status),
   ("balance", legacyNumVal f.current_balance),
   ("credit_limit", legacyNumVal f.credit_limit),
   ("high_balance", legacyNumVal f.high_credit),
   ("open_date", safe_string f.open_date),
   ("closed_date", safe_string f.closed_date),
   ("payment_amount", legacyNumVal f.payment_amount),
   ("account_number", safe_string f.account_number),
   ("last_reported", safe_string f.last_reported),
   ("account_age", safe_string f.account_age)]

/-- Loop of the primary-trade-list pass (main.py 324-423). -/
def tradesLoop : List J → List Obj → Except PyErr (List Obj)
  | [], accts => .ok accts
  | trade :: rest, accts => do
      let f ← resolveTrade trade
      tradesLoop rest (accts ++ [mkTradeAcct f])

/-- Primary-trade-list pass (main.py 321-423):
`(raw.get("trades") or \x7b\x7d).get("trades", [])`, dict-wrapped, then the loop. -/
def tradesSection (raw : Obj) : Except PyErr (List Obj) := do
  let tRaw := (jLookup raw "trades").getD J.null
  let trades0 ← pyGetD (pyOr tRaw (J.obj [])) "trades" (J.arr [])
  let trades ← wrapIter trades0
  tradesLoop trades []

/-- Resolved fields of one bundle-partition tradeline (main.py 445-493). -/
structure PartFields where
  creditor_name : J
  account_type : J
  account_status : J
  current_balance : J
  credit_limit : J
  high_balance : J
  open_date : J
  close_date : J
  account_number : J
  last_reported : J
  bureau_symbol : J

/-- Field resolution for one tradeline of the bundle partition
(main.py lines 445-493), including the date reformatting. -/
def resolvePartTradeline (partition_item t : J) : Except PyErr PartFields := do
  let source ← pyGetD t "Source" (J.obj [])
  let bureau_info ← pyGetD source "Bureau" (J.obj [])
  let bureau_symbol ← pyGet bureau_info "symbol"
  let _bureau_name ← pyGet bureau_info "description"
  let creditor_name ← resolveCreditorName t
  let an1 ← pyGet t "accountNumber"
  let an2 ← pyGet t "maskedAccountNumber"
  let account_number := pyOr an1 an2
  let at1 ← pyGet t "accountType"
  let at2 ← pyGet t "accountTypeDescription"
  let at3 ← pyGet partition_item "accountTypeDescription"
  let account_type := pyOr at1 (pyOr at2 at3)
  let account_status ← resolveAccountStatus t
  let cb1 ← pyGet t "currentBalance"
  let cb2 ← pyGet t "balanceAmount"
  let current_balance := pyOr cb1 cb2
  let cl1 ← pyGet t "creditLimit"
  let cl2 ← pyGet t "creditLimitAmount"
  let credit_limit := pyOr cl1 cl2
  let hb1 ← pyGet t "highBalance"
  let hb2 ← pyGet t "highCreditAmount"
  let high_balance := pyOr hb1 hb2
  let od1 ← pyGet t "dateOpened"
  let od2 ← pyGet t "openDate"
  let open_date := convDate (pyOr od1 od2)
  let cd1 ← pyGet t "dateClosed"
  let cd2 ← pyGet t "closedDate"
  let close_date := convDate (pyOr cd1 cd2)
  let lr1 ← pyGet t "dateReported"
  let lr2 ← pyGet t "lastReported"
  let last_reported := pyOr lr1 lr2
  pure ⟨creditor_name, account_type, account_status, current_balance,
        credit_limit, high_balance, open_date, close_date, account_number,
        last_reported, bureau_symbol⟩

/-- Account record built by the bundle-partition pass (main.py 496-535). -/
def mkPartitionAcct (f : PartFields) : Obj :=
  [("institution", J.obj [("name", safe_string f.creditor_name)]),
   ("accountTypeObj",
     if truthy f.account_type then J.obj [("description", safe_string f.account_type)] else J.null),
   ("accountType", safe_string f.account_type),
   ("accountStatus", safe_string f.account_status),
   ("currentBalanceAmount", safe_string f.current_balance),
   ("creditLimitAmount", safe_string f.credit_limit),
   ("currentAccountRatingDisplay", safe_string f.account_status),
   ("openDateFormatted", safe_string f.open_date),
   ("maskedAccountNumber", safe_string f.account_number),
   ("highCreditAmount", safe_string f.high_balance),
   ("termsMonthlyPayment", J.null),
   ("paymentHistory", J.null),
   ("times30Late", J.null),
   ("times60Late", J.null),
   ("times90Late", J.null),
   ("creditorContactSource", safe_string f.bureau_symbol),
   ("bureau", safe_string f.bureau_symbol),
   ("lastReported", safe_string f.last_reported),
   ("accountAge", J.null),
   ("dateClosed", safe_string f.close_date),
   ("memberCode", J.null),
   ("account_type", safe_string f.account_type),
   ("status", safe_string f.account_status),
   ("balance", legacyNumVal f.current_balance),
   ("credit_limit", legacyNumVal f.credit_limit),
   ("high_balance", legacyNumVal f.high_balance),
   ("open_date", safe_string f.open_date),
   ("closed_date", safe_string f.close_date),
   ("payment_amount", J.null),
   ("account_number", safe_string f.account_number),
   ("last_reported", safe_string f.last_reported),
   ("account_age", J.null)]

/-- Inner tradeline loop of the bundle-partition pass (main.py 441-547):
non-dict tradelines are skipped; a candidate is appended when it is not a
duplicate and both creditor name and account number are truthy. -/
def partTradelineLoop (partition_item : J) : List J → List Obj → Except PyErr (List Obj)
  | [], accts => .ok accts
  | t :: rest, accts =>
      match t with
      | J.obj _ => do
          let f ← resolvePartTradeline partition_item t
          let dup := isDuplicate3 accts f.account_number f.creditor_name f.bureau_symbol
          let accts2 :=
            if !dup && truthy f.creditor_name && truthy f.account_number
            then accts ++ [mkPartitionAcct f] else accts
          partTradelineLoop partition_item rest accts2
      | _ => partTradelineLoop partition_item rest accts

/-- Outer partition-item loop of the bundle-partition pass (main.py 432-439):
the `Tradeline` entry may be a list, a truthy single value, or absent. -/
def partitionItems : List J → List Obj → Except PyErr (List Obj)
  | [], accts => .ok accts
  | it :: rest, accts => do
      let td ← pyGetD it "Tradeline" (J.obj [])
      let accts2 ← partTradelineLoop it (tradelinesOf td) accts
      partitionItems rest accts2

/-- Bundle-partition pass (main.py 427-547), gated on a truthy `true_link`. -/
def tradeLinePartitionSection (true_link : J) (accts : List Obj) : Except PyErr (List Obj) :=
  if truthy true_link then do
    let tlp0 ← pyGetD true_link "TradeLinePartition" (J.arr [])
    let items ← wrapIter tlp0
    partitionItems items accts
  else .ok accts

/-- Resolved fields of one per-bureau-report tradeline (main.py 573-588). -/
structure BureauFields where
  creditor_name : J
  account_type : J
  account_status : J
  current_balance : J
  credit_limit : J
  high_balance : J
  open_date : J
  close_date : J
  account_number : J

/-- Field resolution for one tradeline of a per-bureau report
(main.py lines 573-588; no date reformatting in this pass). -/
def resolveBureauTradeline (t : J) : Except PyErr BureauFields := do
  let creditor_name ← resolveCreditorName t
  let an1 ← pyGet t "accountNumber"
  let an2 ← pyGet t "maskedAccountNumber"
  let account_number := pyOr an1 an2
  let at1 ← pyGet t "accountType"
  let at2 ← pyGet t "accountTypeDescription"
  let account_type := pyOr at1 at2
  let account_status ← resolveAccountStatus t
  let current_balance ← pyGet t "currentBalance"
  let credit_limit ← pyGet t "creditLimit"
  let high_balance ← pyGet t "highBalance"
  let open_date ← pyGet t "dateOpened"
  let close_date ← pyGet t "dateClosed"
  pure ⟨creditor_name, account_type, account_status, current_balance,
        credit_limit, high_balance, open_date, close_date, account_number⟩

/-- Account record built by the per-bureau-report pass (main.py 591-618);
note the reduced key set compared to the other two passes. -/
def mkBureauAcct (bureau_symbol : String) (f : BureauFields) : Obj :=
  [("institution", J.obj [("name", safe_string f.creditor_name)]),
   ("accountTypeObj",
     if truthy f.account_type then J.obj [("description", safe_string f.account_type)] else J.null),
   ("accountType", safe_string f.account_type),
   ("accountStatus", safe_string f.account_status),
   ("currentBalanceAmount", safe_string f.current_balance),
   ("creditLimitAmount", safe_string f.credit_limit),
   ("currentAccountRatingDisplay", safe_string f.account_status),
   ("openDateFormatted", safe_string f.open_date),
   ("maskedAccountNumber", safe_string f.account_number),
   ("highCreditAmount", safe_string f.high_balance),
   ("creditorContactSource", safe_string (J.str bureau_symbol)),
   ("bureau", safe_string (J.str bureau_symbol)),
   ("dateClosed", safe_string f.close_date),
   ("account_type", safe_string f.account_type),
   ("status", safe_string f.account_status),
   ("balance", legacyNumVal f.current_balance),
   ("credit_limit", legacyNumVal f.credit_limit),
   ("high_balance", legacyNumVal f.high_balance),
   ("open_date", safe_string f.open_date),
   ("closed_date", safe_string f.close_date),
   ("account_number", safe_string f.account_number)]

/-- Lifting of a fallible step into the per-bureau pass, whose enclosing
`try/except` keeps the accounts accumulated before the failure. -/
def orKeep {α : Type} (accts : List Obj) : Except PyErr α → Except (List Obj) α
  | .ok a => .ok a
  | .error _ => .error accts

/-- Tradeline loop of the per-bureau-report pass (main.py 572-630): no
dict-guard and no identity guard; only the two-component duplicate check. -/
def bureauTradelines (bureau_symbol : String) : List J → List Obj → Except (List Obj) (List Obj)
  | [], accts => .ok accts
  | t :: rest, accts => do
      let f ← orKeep accts (resolveBureauTradeline t)
      let dup := isDuplicate2 accts f.account_number f.creditor_name
      let accts2 := if !dup then accts ++ [mkBureauAcct bureau_symbol f] else accts
      bureauTradelines bureau_symbol rest accts2

/-- Bureau symbol derived from the component type marker (main.py 563). -/
def bureauSymbolOf (ct : J) : String :=
  match ct with
  | J.str s =>
      if strContainsSub "TUC" s then "TUC"
      else if strContainsSub "EQF" s then "EQF" else "EXP"
  | _ => "EXP"

/-- Component loop of the per-bureau-report pass (main.py 560-630). -/
def bureauComps : List J → List Obj → Except (List Obj) (List Obj)
  | [], accts => .ok accts
  | comp :: rest, accts => do
      let ct ← orKeep accts (pyGet comp "Type")
      if pyEq ct (J.str "TUCReportV6") || pyEq ct (J.str "EQFReportV6") ||
         pyEq ct (J.str "EXPReportV6") then
        let bureau_symbol := bureauSymbolOf ct
        let report_data ← orKeep accts (pyGetD comp "CreditReportType" (J.obj []))
        let t1 ← orKeep accts (pyGetD report_data "Tradeline" (J.arr []))
        let t2 ← orKeep accts (pyGetD report_data "Trade" (J.arr []))
        let t3 ← orKeep accts (pyGetD report_data "Account" (J.arr []))
        let tls ← orKeep accts (wrapIter (pyOr t1 (pyOr t2 t3)))
        let accts2 ← bureauTradelines bureau_symbol tls accts
        bureauComps rest accts2
      else bureauComps rest accts

/-- Per-bureau-report pass (main.py 549-633): re-parses `rawReport` and walks
the individual bureau components; the whole pass sits in a `try/except` that
keeps whatever accounts were appended before a failure. -/
def bureauReportsSection (raw_report_str : J) (accts : List Obj) : List Obj :=
  if truthy raw_report_str then
    let run : Except (List Obj) (List Obj) := do
      let data ← orKeep accts (loads raw_report_str)
      let bc ← orKeep accts (pyGetD data "BundleComponents" (J.obj []))
      match bc with
      | J.obj kvs2 => do
          let bcl := (jLookup kvs2 "BundleComponent").getD (J.arr [])
          let comps ← orKeep accts (wrapIter bcl)
          bureauComps comps accts
      | _ => .ok accts
    match run with
    | .ok a => a
    | .error a => a
  else accts

/-- Merge-component search inside the `try` of the rawReport parse block
(main.py 100-105): the enclosing `except` catches any failure, so the loop
returns whatever `(true_link, borrower)` had been assigned at that point
(`true_link` is assigned before the `borrower` access can fail). -/
def findMergeTry : List J → J × J → J × J
  | [], s => s
  | c :: rest, s =>
      match c with
      | J.obj kvs =>
          if pyEq ((jLookup kvs "Type").getD J.null) (J.str "MergeCreditReports") then
            let tl1 := (jLookup kvs "TrueLinkCreditReportType").getD (J.obj [])
            match tl1 with
            | J.obj kvs2 => (tl1, (jLookup kvs2 "Borrower").getD (J.obj []))
            | _ => (tl1, s.2)
          else findMergeTry rest s
      | _ => s

/-- Section parsing `rawReport` (main.py 83-107): returns the raw string
value together with the `(true_link, borrower)` pair; every failure inside
the `try` leaves the pair as assigned so far and continues. -/
def rawReportSection (cr_json : J) : J × J × J :=
  let raw_report_str :=
    match cr_json with
    | J.obj kvs => (jLookup kvs "rawReport").getD J.null
    | _ => J.null
  if truthy raw_report_str then
    match loads raw_report_str with
    | .error _ => (raw_report_str, J.null, J.null)
    | .ok data =>
        match data with
        | J.obj kvs =>
            let bc := (jLookup kvs "BundleComponents").getD (J.obj [])
            match bc with
            | J.obj kvs2 =>
                let bcl := (jLookup kvs2 "BundleComponent").getD (J.arr [])
                match wrapIter bcl with
                | .ok comps =>
                    let s := findMergeTry comps (J.null, J.null)
                    (raw_report_str, s.1, s.2)
                | .error _ => (raw_report_str, J.null, J.null)
            | _ => (raw_report_str, J.null, J.null)
        | _ => (raw_report_str, J.null, J.null)
  else (raw_report_str, J.null, J.null)

/-- Merge-component search of the fallback block (main.py 121-125): same
logic as `findMergeTry` but outside any `try`, so failures propagate. -/
def findMergeE : List J → J × J → Except PyErr (J × J)
  | [], s => .ok s
  | c :: rest, s =>
      match c with
      | J.obj kvs =>
          if pyEq ((jLookup kvs "Type").getD J.null) (J.str "MergeCreditReports") then
            let tl1 := (jLookup kvs "TrueLinkCreditReportType").getD (J.obj [])
            match tl1 with
            | J.obj kvs2 => .ok (tl1, (jLookup kvs2 "Borrower").getD (J.obj []))
            | _ => .error .attributeError
          else findMergeE rest s
      | _ => .error .attributeError

/-- Fallback borrower search over the outer document (main.py 113-125),
entered when the parsed payload produced no truthy borrower. -/
def fallbackSearch (kvs : Obj) (s : J × J) : Except PyErr (J × J) :=
  let bc := (jLookup kvs "BundleComponents").getD (J.obj [])
  match bc with
  | J.obj kvs2 => do
      let bcl := (jLookup kvs2 "BundleComponent").getD (J.arr [])
      let comps ← wrapIter bcl
      findMergeE comps s
  | _ => .ok s

/-- First array element whose `NameType.abbreviation` is `"Primary"`
(main.py 136-141). -/
def findPrimaryName : List J → Except PyErr (Option J)
  | [] => .ok none
  | nobj :: rest => do
      let nt ← pyGetD nobj "NameType" (J.obj [])
      let ab ← pyGet nt "abbreviation"
      if pyEq ab (J.str "Primary") then .ok (some nobj) else findPrimaryName rest

/-- Name assembly from a `Name` sub-object with the middle-dependent part
list (main.py 147-152). -/
def nameFromNameData (name_data : J) : Except PyErr J := do
  let first ← pyGetD name_data "first" (J.str "")
  let middle ← pyGetD name_data "middle" (J.str "")
  let last ← pyGetD name_data "last" (J.str "")
  let name_parts := if truthy middle then [first, middle, last] else [first, last]
  let s ← pyJoinTruthy " " name_parts
  pure (J.str (pyTrim s))

/-- Name assembly joining all three parts unconditionally
(main.py 160-166 and 180-186). -/
def nameFromNameData2 (name_data : J) : Except PyErr J := do
  let first ← pyGetD name_data "first" (J.str "")
  let middle ← pyGetD name_data "middle" (J.str "")
  let last ← pyGetD name_data "last" (J.str "")
  let s ← pyJoinTruthy " " [first, middle, last]
  pure (J.str (pyTrim s))

/-- Recovery loop when the resolved name is still a list (main.py 176-186):
the first dict element with a truthy `Name` wins; otherwise the original
value is kept. -/
def nameFromArr : List J → J → Except PyErr J
  | [], orig => .ok orig
  | item :: rest, orig =>
      match item with
      | J.obj kvs => do
          let name_data := (jLookup kvs "Name").getD (J.obj [])
          if truthy name_data then nameFromNameData2 name_data
          else nameFromArr rest orig
      | _ => nameFromArr rest orig

/-- Borrower-name extraction (main.py 127-186). -/
def extractName (borrower : J) : Except PyErr J := do
  let name0 ← pyGet borrower "BorrowerName"
  let names ← pyGetD borrower "Name" (J.arr [])
  let name1 ←
    if truthy name0 then pure name0
    else
      match names with
      | J.arr [] => pure name0
      | J.arr (h :: t) => do
          let primo ← findPrimaryName (h :: t)
          let pj := match primo with | some p => p | none => J.null
          let pj2 := if truthy pj then pj else h
          if truthy pj2 then do
            let name_data ← pyGetD pj2 "Name" (J.obj [])
            nameFromNameData name_data
          else pure name0
      | _ => pure name0
  let name2 ←
    if truthy name1 then pure name1
    else
      match names with
      | J.arr (first_item :: _) =>
          match first_item with
          | J.obj kvs => do
              let name_data := (jLookup kvs "Name").getD (J.obj [])
              if truthy name_data then nameFromNameData2 name_data else pure name1
          | _ => pure name1
      | _ => pure name1
  let name3 ←
    if truthy name2 then pure name2
    else do
      let fn1 ← pyGet borrower "firstName"
      let fn2 ← pyGet borrower "FirstName"
      let first_name := pyOr fn1 fn2
      let ln1 ← pyGet borrower "lastName"
      let ln2 ← pyGet borrower "LastName"
      let last_name := pyOr ln1 ln2
      if truthy first_name && truthy last_name then
        pure (J.str (pyStr first_name ++ " " ++ pyStr last_name))
      else pure name2
  match name3 with
  | J.arr l => nameFromArr l name3
  | _ => pure name3

/-- SSN fallback chain (main.py 189-191); the `SocialPartition` access is
only reached when the earlier candidates are falsy. -/
def extractSsn (borrower : J) : Except PyErr J := do
  let s1 ← pyGet borrower "SocialSecurityNumber"
  if truthy s1 then pure s1
  else do
    let s2 ← pyGet borrower "ssn"
    if truthy s2 then pure s2
    else do
      let spRaw ← pyGet borrower "SocialPartition"
      pyGet (pyOr spRaw (J.obj [])) "Social"

/-- Python `.strip()` on a located value: only strings have `.strip`. -/
def pyStripE (v : J) : Except PyErr String :=
  match v with
  | J.str s => .ok (pyTrim s)
  | _ => .error .attributeError

/-- Address assembly from street/city/state/postal (main.py 225-226). -/
def joinAddr (street city state postal : String) : J :=
  let parts := [street, city, state, postal].filter (fun s => decide (s ≠ ""))
  if parts.isEmpty then J.null else J.str (joinSep ", " parts)

/-- Current-address extraction (main.py 194-226). -/
def extractAddress (borrower : J) : Except PyErr J := do
  let addrRaw ← pyGetD borrower "BorrowerAddress" (J.arr [])
  let addresses := if isObjB addrRaw then J.arr [addrRaw] else addrRaw
  if truthy addresses then do
    let addr_obj ← pyIndex0 addresses
    let credit_addr ← pyGetD addr_obj "CreditAddress" (J.obj [])
    let ups ← pyGet credit_addr "unparsedStreet"
    if truthy ups then do
      let sRaw ← pyGetD credit_addr "unparsedStreet" (J.str "")
      let street ← pyStripE sRaw
      let cRaw ← pyGetD credit_addr "city" (J.str "")
      let city ← pyStripE cRaw
      let stRaw ← pyGetD credit_addr "stateCode" (J.str "")
      let state ← pyStripE stRaw
      let pRaw ← pyGetD credit_addr "postalCode" (J.str "")
      let postal ← pyStripE pRaw
      pure (joinAddr street city state postal)
    else do
      let hn ← pyGetD credit_addr "houseNumber" (J.str "")
      let di ← pyGetD credit_addr "direction" (J.str "")
      let sn ← pyGetD credit_addr "streetName" (J.str "")
      let st ← pyGetD credit_addr "streetType" (J.str "")
      let street ← pyJoinTruthy " " [hn, di, sn, st]
      let cRaw ← pyGetD credit_addr "city" (J.str "")
      let city ← pyStripE cRaw
      let stRaw ← pyGetD credit_addr "stateCode" (J.str "")
      let state ← pyStripE stRaw
      let pRaw ← pyGetD credit_addr "postalCode" (J.str "")
      let postal ← pyStripE pRaw
      pure (joinAddr street city state postal)
  else pure J.null

/-- Birth-date extraction (main.py 229-236). -/
def extractBirthDate (borrower : J) : Except PyErr J := do
  let bdRaw ← pyGetD borrower "Birth" (J.arr [])
  let birth_dates := if isObjB bdRaw then J.arr [bdRaw] else bdRaw
  if truthy birth_dates then do
    let b0 ← pyIndex0 birth_dates
    pyGet b0 "date"
  else pure J.null

/-- One previous-address record (main.py 250-278). -/
def prevAddrEntry (prev_addr : J) : Except PyErr J := do
  let credit_address ← pyGetD prev_addr "CreditAddress" (J.obj [])
  let source ← pyGetD prev_addr "Source" (J.obj [])
  let bureau_info ← pyGetD source "Bureau" (J.obj [])
  let bn1 ← pyGet bureau_info "description"
  let bn2 ← pyGet bureau_info "symbol"
  let bureau_name := pyOr bn1 bn2
  let ups ← pyGet credit_address "unparsedStreet"
  let addr_str ←
    if truthy ups then do
      let a ← pyGetD credit_address "unparsedStreet" (J.str "")
      let b ← pyGetD credit_address "city" (J.str "")
      let c ← pyGetD credit_address "stateCode" (J.str "")
      let d ← pyGetD credit_address "postalCode" (J.str "")
      pure (stripCommaSpace
        (pyStr a ++ ", " ++ pyStr b ++ ", " ++ pyStr c ++ ", " ++ pyStr d))
    else do
      let hn ← pyGet credit_address "houseNumber"
      let di ← pyGet credit_address "direction"
      let sn ← pyGet credit_address "streetName"
      let st ← pyGet credit_address "streetType"
      let street ← pyJoinTruthy " " [hn, di, sn, st]
      let b ← pyGetD credit_address "city" (J.str "")
      let c ← pyGetD credit_address "stateCode" (J.str "")
      let d ← pyGetD credit_address "postalCode" (J.str "")
      pure (stripCommaSpace
        (street ++ ", " ++ pyStr b ++ ", " ++ pyStr c ++ ", " ++ pyStr d))
  let dr ← pyGet prev_addr "dateReported"
  pure (J.obj
    [("address",
       if stripCommaSpace addr_str ≠ "" then safe_string (J.str addr_str) else J.null),
     ("date_reported", safe_string dr),
     ("bureau", safe_string bureau_name)])

/-- Previous-address loop (main.py 250-278). -/
def prevAddrLoop : List J → List J → Except PyErr (List J)
  | [], acc => .ok acc
  | p :: rest, acc => do
      let e ← prevAddrEntry p
      prevAddrLoop rest (acc ++ [e])

/-- Personal-info block for a truthy borrower (main.py 127-278). -/
def personalInfoSection (borrower : J) : Except PyErr J := do
  let name ← extractName borrower
  let ssn ← extractSsn borrower
  let address_str ← extractAddress borrower
  let birth_date ← extractBirthDate borrower
  let paRaw ← pyGetD borrower "PreviousAddress" (J.arr [])
  let prevItems ← wrapIter paRaw
  let prevs ← prevAddrLoop prevItems []
  pure (J.obj
    [("name", safe_string name),
     ("ssn", safe_string ssn),
     ("dateOfBirth", safe_string birth_date),
     ("address", address_str),
     ("previous_addresses", J.arr prevs)])

/-- Bureau key selected by the substring tests of the bundle score pass
(main.py 291-296); `elif` order preserved. -/
def scoreBureauKey (bureau : J) : Except PyErr (Option String) := do
  let b1 ← pyContains "TUC" bureau
  if b1 then pure (some "TransUnion")
  else do
    let b2 ← pyContains "EQF" bureau
    if b2 then pure (some "Equifax")
    else do
      let b3 ← pyContains "EXP" bureau
      if b3 then pure (some "Experian") else pure none

/-- Component loop of the bundle score pass (main.py 286-296). -/
def scoresCompLoop : List J → Obj → Except PyErr Obj
  | [], sc => .ok sc
  | comp :: rest, sc => do
      let bureau ← pyGet comp "Type"
      let csRaw ← pyGet comp "CreditScoreType"
      let cs := pyOr csRaw (J.obj [])
      let r1 ← pyGet cs "riskScore"
      let score ← if truthy r1 then pure r1 else pyGet cs "score"
      if truthy score && truthy bureau then do
        let k ← scoreBureauKey bureau
        match k with
        | some key => scoresCompLoop rest (dictSet sc key score)
        | none => scoresCompLoop rest sc
      else scoresCompLoop rest sc

/-- Bundle score pass (main.py 282-296). -/
def scoresBundlePass (kvs : Obj) (sc : Obj) : Except PyErr Obj := do
  let bcv := (jLookup kvs "BundleComponents").getD J.null
  let comps0 ← pyGetD (pyOr bcv (J.obj [])) "BundleComponent" (J.arr [])
  let comps ← wrapIter comps0
  scoresCompLoop comps sc

/-- Bureau key of one borrower `CreditScore` entry (main.py 310-316):
symbol equality first, then substring match on the description. -/
def creditScoreKey (sym nm : J) : Except PyErr (Option String) := do
  if pyEq sym (J.str "TUC") then pure (some "TransUnion")
  else do
    let c1 ← if truthy nm then pyContains "TransUnion" nm else pure false
    if c1 then pure (some "TransUnion")
    else if pyEq sym (J.str "EQF") then pure (some "Equifax")
    else do
      let c2 ← if truthy nm then pyContains "Equifax" nm else pure false
      if c2 then pure (some "Equifax")
      else if pyEq sym (J.str "EXP") then pure (some "Experian")
      else do
        let c3 ← if truthy nm then pyContains "Experian" nm else pure false
        if c3 then pure (some "Experian") else pure none

/-- Loop over the borrower `CreditScore` array (main.py 303-316); the
enclosing `except` keeps assignments made before a failure and stops. -/
def creditScoreLoop : List J → Obj → Obj
  | [], sc => sc
  | cs :: rest, sc =>
      let step : Except PyErr (Option (String × J)) := do
        let sv ← pyGet cs "riskScore"
        let src ← pyGetD cs "Source" (J.obj [])
        let bi ← pyGetD src "Bureau" (J.obj [])
        let sym ← pyGet bi "symbol"
        let nm ← pyGet bi "description"
        if truthy sv && truthy sym then do
          let k ← creditScoreKey sym nm
          pure (k.map (fun key => (key, sv)))
        else pure none
      match step with
      | .error _ => sc
      | .ok none => creditScoreLoop rest sc
      | .ok (some (key, v)) => creditScoreLoop rest (dictSet sc key v)

/-- Borrower `CreditScore` pass (main.py 298-318), entirely inside a
`try/except`; the array is used only when it is literally a list. -/
def creditScorePass (borrower : J) (sc : Obj) : Obj :=
  match pyGetD borrower "CreditScore" (J.arr []) with
  | .error _ => sc
  | .ok csv =>
      match csv with
      | J.arr l => creditScoreLoop l sc
      | _ => sc

/-- Loop over `search_results` inquiries (main.py 640-646). -/
def inqsSearchLoop : List J → List J → Except PyErr (List J)
  | [], acc => .ok acc
  | iq :: rest, acc => do
      let b ← pyGet iq "bureau"
      let n ← pyGet iq "subscriberName"
      let d ← pyGet iq "inquiryDate"
      let t ← pyGet iq "inquiryType"
      inqsSearchLoop rest
        (acc ++ [J.obj [("bureau", b), ("business_name", n), ("inquiry_date", d), ("type", t)]])

/-- Inquiries from `search_results` (main.py 637-646). -/
def inquiriesSearch (raw : Obj) : Except PyErr (List J) := do
  let sv := (jLookup raw "search_results").getD J.null
  let inqs0 ← pyGetD (pyOr sv (J.obj [])) "inquiries" (J.arr [])
  let inqs ← wrapIter inqs0
  inqsSearchLoop inqs []

/-- Loop over `InquiryPartition` items (main.py 654-669). -/
def inqPartLoop : List J → List J → Except PyErr (List J)
  | [], acc => .ok acc
  | it :: rest, acc => do
      let idata ← pyGetD it "Inquiry" (J.obj [])
      if truthy idata then do
        let bn0 ← pyGet idata "bureau"
        let bureau_name ←
          if truthy bn0 then pure bn0
          else do
            let src ← pyGetD idata "Source" (J.obj [])
            let bi ← pyGetD src "Bureau" (J.obj [])
            let d1 ← pyGet bi "description"
            let d2 ← pyGet bi "abbreviation"
            pure (pyOr d1 d2)
        let n ← pyGet idata "subscriberName"
        let d ← pyGet idata "inquiryDate"
        let t ← pyGet idata "inquiryType"
        inqPartLoop rest
          (acc ++ [J.obj [("bureau", bureau_name), ("business_name", n),
                          ("inquiry_date", d), ("type", t)]])
      else inqPartLoop rest acc

/-- Inquiries from the bundle `InquiryPartition` (main.py 649-669). -/
def inquiryPartitionSection (true_link : J) (acc : List J) : Except PyErr (List J) :=
  if truthy true_link then do
    let ip0 ← pyGetD true_link "InquiryPartition" (J.arr [])
    let items ← wrapIter ip0
    inqPartLoop items acc
  else .ok acc

/-- Loop over the borrower `Inquiry` array (main.py 676-686). -/
def borrowerInqLoop : List J → List J → Except PyErr (List J)
  | [], acc => .ok acc
  | iq :: rest, acc => do
      let src ← pyGetD iq "Source" (J.obj [])
      let bi ← pyGetD src "Bureau" (J.obj [])
      let d1 ← pyGet bi "description"
      let d2 ← pyGet bi "symbol"
      let bureau_name := pyOr d1 d2
      let n1 ← pyGet iq "subscriberName"
      let n2 ← pyGet iq "businessName"
      let dt1 ← pyGet iq "inquiryDate"
      let dt2 ← pyGet iq "dateReported"
      let t1 ← pyGet iq "inquiryType"
      let t2 ← pyGet iq "type"
      borrowerInqLoop rest
        (acc ++ [J.obj [("bureau", bureau_name), ("business_name", pyOr n1 n2),
                        ("inquiry_date", pyOr dt1 dt2), ("type", pyOr t1 t2)]])

/-- Legacy borrower inquiries (main.py 672-686). -/
def borrowerInquiries (borrower : J) (acc : List J) : Except PyErr (List J) :=
  if truthy borrower then do
    let ri0 ← pyGetD borrower "Inquiry" (J.arr [])
    let items ← wrapIter ri0
    borrowerInqLoop items acc
  else .ok acc

/-- Loop over `search_results` public records (main.py 692-698). -/
def pubRecLoop : List J → List J → Except PyErr (List J)
  | [], acc => .ok acc
  | pr :: rest, acc => do
      let t ← pyGet pr "type"
      let d ← pyGet pr "dateFiled"
      let s ← pyGet pr "status"
      let a ← pyGet pr "amount"
      pubRecLoop rest
        (acc ++ [J.obj [("type", t), ("date_filed", d), ("status", s),
                        ("amount", safe_number a)]])

/-- Public records from `search_results` (main.py 689-698). -/
def publicRecordsSection (raw : Obj) : Except PyErr (List J) := do
  let sv := (jLookup raw "search_results").getD J.null
  let prs0 ← pyGetD (pyOr sv (J.obj [])) "publicRecords" (J.arr [])
  let prs ← wrapIter prs0
  pubRecLoop prs []

/-- Loop over the borrower `Employer` array (main.py 706-715). -/
def borrowerEmpLoop : List J → List J → Except PyErr (List J)
  | [], acc => .ok acc
  | emp :: rest, acc => do
      let src ← pyGetD emp "Source" (J.obj [])
      let bi ← pyGetD src "Bureau" (J.obj [])
      let d1 ← pyGet bi "description"
      let d2 ← pyGet bi "symbol"
      let bureau_name := pyOr d1 d2
      let n ← pyGet emp "name"
      let dr1 ← pyGet emp "dateReported"
      let dr2 ← pyGet emp "dateUpdated"
      borrowerEmpLoop rest
        (acc ++ [J.obj [("name", n), ("date_reported", pyOr dr1 dr2),
                        ("bureau", bureau_name)]])

/-- Employers from the borrower block (main.py 702-715). -/
def borrowerEmployers (borrower : J) : Except PyErr (List J) :=
  if truthy borrower then do
    let e0 ← pyGetD borrower "Employer" (J.arr [])
    let items ← wrapIter e0
    borrowerEmpLoop items []
  else .ok []

/-- Loop over the fallback employers (main.py 721-726). -/
def fallbackEmpLoop : List J → List J → Except PyErr (List J)
  | [], acc => .ok acc
  | emp :: rest, acc => do
      let n1 ← pyGet emp "name"
      let n2 ← pyGet emp "employerName"
      let dr1 ← pyGet emp "dateReported"
      let dr2 ← pyGet emp "dateUpdated"
      let b ← pyGet emp "bureau"
      fallbackEmpLoop rest
        (acc ++ [J.obj [("name", pyOr n1 n2), ("date_reported", pyOr dr1 dr2),
                        ("bureau", b)]])

/-- Fallback employers from the outer document (main.py 718-726): the
`cr_json.get("Borrower")` access runs unguarded, so a non-dict
`credit_report_json` raises here. -/
def employersFallback (cr_json : J) (acc : List J) : Except PyErr (List J) := do
  let bRaw ← pyGet cr_json "Borrower"
  let fe0 ← pyGetD (pyOr bRaw (J.obj [])) "Employer" (J.arr [])
  let items ← wrapIter fe0
  fallbackEmpLoop items acc

/-- Canonical report assembled by `normalize_report` (the keys
`personal_info`, `scores`, `accounts`, `inquiries`, `public_records`,
`employers` of the result dict). -/
structure Report where
  personal_info : J
  scores : Obj
  accounts : List Obj
  inquiries : List J
  public_records : List J
  employers : List J

/-- The `cr_json` value of a run (main.py 78: `raw.get("credit_report_json", \x7b\x7d)`). -/
def rawCr (raw : Obj) : J := (jLookup raw "credit_report_json").getD (J.obj [])

/-- The `raw_report_str` value of a run. -/
def rawRrs (raw : Obj) : J := (rawReportSection (rawCr raw)).1

/-- The `(true_link, borrower)` pair a run works with: the parse section's
result, refined by the fallback search (main.py 113-125) when the borrower
found so far is falsy and `cr_json` is a dict. -/
def resolvedTlBr (raw : Obj) : Except PyErr (J × J) :=
  let s0 := rawReportSection (rawCr raw)
  match rawCr raw with
  | J.obj kvs =>
      if truthy s0.2.2 then .ok (s0.2.1, s0.2.2)
      else fallbackSearch kvs (s0.2.1, s0.2.2)
  | _ => .ok (s0.2.1, s0.2.2)

/-- Personal-info step (main.py 110-278): runs only for a dict `cr_json` and
a truthy borrower, otherwise the initial empty dict stands. -/
def pinfoStep (cr_json br : J) : Except PyErr J :=
  match cr_json with
  | J.obj _ => if truthy br then personalInfoSection br else pure (J.obj [])
  | _ => pure (J.obj [])

/-- Scores step (main.py 280-318): bundle pass then, when both the raw
payload string and the borrower are truthy, the borrower CreditScore pass. -/
def scoresStep (cr_json rrs br : J) (scores : Obj) : Except PyErr Obj :=
  match cr_json with
  | J.obj kvs => do
      let s1 ← scoresBundlePass kvs scores
      pure (if truthy rrs && truthy br then creditScorePass br s1 else s1)
  | _ => pure scores

/-- Accounts pipeline (main.py 320-633): the three passes in order. -/
def accountsStep (raw : Obj) (tl : J) : Except PyErr (List Obj) := do
  let a1 ← tradesSection raw
  let a2 ← tradeLinePartitionSection tl a1
  pure (bureauReportsSection (rawRrs raw) a2)

/-- Inquiries pipeline (main.py 635-686): the three sources in order. -/
def inquiriesStep (raw : Obj) (tl br : J) : Except PyErr (List J) := do
  let i1 ← inquiriesSearch raw
  let i2 ← inquiryPartitionSection tl i1
  borrowerInquiries br i2

/-- Employers pipeline (main.py 700-726): borrower source then fallback. -/
def employersStep (cr_json br : J) : Except PyErr (List J) := do
  let e1 ← borrowerEmployers br
  employersFallback cr_json e1

/-- Shallow embedding of `normalize_report(raw, scores)` (main.py 52-728).
The sections run in source order; an uncaught Python exception surfaces as
`Except.error`. -/
def normalize_report (raw : Obj) (scores : Obj) : Except PyErr Report := do
  let tlbr ← resolvedTlBr raw
  let personal_info ← pinfoStep (rawCr raw) tlbr.2
  let sc1 ← scoresStep (rawCr raw) (rawRrs raw) tlbr.2 scores
  let a3 ← accountsStep raw tlbr.1
  let i3 ← inquiriesStep raw tlbr.1 tlbr.2
  let prs ← publicRecordsSection raw
  let e2 ← employersStep (rawCr raw) tlbr.2
  pure ⟨personal_info, sc1, a3, i3, prs, e2⟩

/-! ### Specification-side predicates

The predicates below restate, over the embedding's own definitions, the
notions the claims quantify with: the dedup key of an account record, the
“fixed point of `safe_string`” condition under which the code's raw-versus-
stored comparisons coincide with key equality, and shape conditions under
which the function cannot raise. -/

/-- Python equality of the stored full dedup keys of two records, in the
direction the source compares them (earlier entry against later). -/
def keyEqB (a b : Obj) : Bool :=
  pyEq (acctGet a "maskedAccountNumber") (acctGet b "maskedAccountNumber") &&
  pyEq (instName a) (instName b) &&
  pyEq (acctGet a "bureau") (acctGet b "bureau")

/-- Python equality of the two-component (number, institution) sub-keys. -/
def pairEqB (a b : Obj) : Bool :=
  pyEq (acctGet a "maskedAccountNumber") (acctGet b "maskedAccountNumber") &&
  pyEq (instName a) (instName b)

/-- No two entries of the list agree on the full dedup key. -/
def keysDistinctB : List Obj → Bool
  | [] => true
  | a :: rest => rest.all (fun b => !keyEqB a b) && keysDistinctB rest

/-- No two entries of the list agree on the two-component sub-key. -/
def pairsDistinctB : List Obj → Bool
  | [] => true
  | a :: rest => rest.all (fun b => !pairEqB a b) && pairsDistinctB rest

/-- Whether a record's stored key equals the given (number, name, bureau)
triple — syntactically the body of `isDuplicate3`. -/
def matchKeyB (n i b : J) (a : Obj) : Bool :=
  pyEq (acctGet a "maskedAccountNumber") n && pyEq (instName a) i &&
  pyEq (acctGet a "bureau") b

/-- Whether a value is a fixed point of `safe_string` (null, or a trimmed
nonempty string): exactly when the raw-versus-stored dedup comparison
behaves as key equality. -/
def fixedJ (v : J) : Bool := pyEq (safe_string v) v

/-- Fixedness of the key fields of one bundle-partition candidate. -/
def fixedPartCand (pitem t : J) : Bool :=
  match resolvePartTradeline pitem t with
  | .ok f => fixedJ f.account_number && fixedJ f.creditor_name && fixedJ f.bureau_symbol
  | .error _ => true

/-- Fixedness over one partition item's tradelines. -/
def fixedPartItemK (it : J) : Bool :=
  match it with
  | J.obj kvs =>
      (tradelinesOf ((jLookup kvs "Tradeline").getD (J.obj []))).all
        (fun t => fixedPartCand it t)
  | _ => true

/-- Fixedness of every key field the bundle-partition pass resolves. -/
def fixedPass2 (tl : J) : Bool :=
  if truthy tl then
    match tl with
    | J.obj kvs =>
        match wrapIter ((jLookup kvs "TradeLinePartition").getD (J.arr [])) with
        | .ok items => items.all fixedPartItemK
        | .error _ => true
    | _ => true
  else true

/-- Fixedness of the key fields of one per-bureau candidate. -/
def fixedBureauTradeline (t : J) : Bool :=
  match resolveBureauTradeline t with
  | .ok f => fixedJ f.account_number && fixedJ f.creditor_name
  | .error _ => true

/-- Fixedness over one per-bureau component's tradelines. -/
def fixedBureauComp (c : J) : Bool :=
  match c with
  | J.obj kvs =>
      let ct := (jLookup kvs "Type").getD J.null
      if pyEq ct (J.str "TUCReportV6") || pyEq ct (J.str "EQFReportV6") ||
         pyEq ct (J.str "EXPReportV6") then
        match (jLookup kvs "CreditReportType").getD (J.obj []) with
        | J.obj rd =>
            let t1 := (jLookup rd "Tradeline").getD (J.arr [])
            let t2 := (jLookup rd "Trade").getD (J.arr [])
            let t3 := (jLookup rd "Account").getD (J.arr [])
            match wrapIter (pyOr t1 (pyOr t2 t3)) with
            | .ok tls => tls.all fixedBureauTradeline
            | .error _ => true
        | _ => true
      else true
  | _ => true

/-- Fixedness of every key field the per-bureau pass resolves. -/
def fixedPass3 (rrs : J) : Bool :=
  if truthy rrs then
    match loads rrs with
    | .ok data =>
        match data with
        | J.obj kvs =>
            match (jLookup kvs "BundleComponents").getD (J.obj []) with
            | J.obj b2 =>
                match wrapIter ((jLookup b2 "BundleComponent").getD (J.arr [])) with
                | .ok comps => comps.all fixedBureauComp
                | .error _ => true
            | _ => true
        | _ => true
    | .error _ => true
  else true

/-- Fixedness of every key field either bundle-derived pass resolves on a
given input. -/
def FixedBundleKeys (raw : Obj) : Bool :=
  (match resolvedTlBr raw with
   | .ok tlbr => fixedPass2 tlbr.1
   | .error _ => true) && fixedPass3 (rawRrs raw)

/-- Collapse of the per-bureau pass's state-carrying result. -/
def resOf (e : Except (List Obj) (List Obj)) : List Obj :=
  match e with
  | .ok a => a
  | .error a => a

/-- Agreement of two optional field values under Python equality. -/
def optSame (x y : Option J) : Bool :=
  match x, y with
  | none, none => true
  | some a, some b => pyEq a b
  | _, _ => false

/-- The snake-case mirror property of one account record: each snake-case
field that the source fills by copying carries the same value as its
original-name counterpart, and absent counterparts are absent together. -/
def mirrorOkB (a : Obj) : Bool :=
  optSame (jLookup a "account_number") (jLookup a "maskedAccountNumber") &&
  optSame (jLookup a "status") (jLookup a "accountStatus") &&
  optSame (jLookup a "account_type") (jLookup a "accountType") &&
  optSame (jLookup a "open_date") (jLookup a "openDateFormatted") &&
  optSame (jLookup a "closed_date") (jLookup a "dateClosed") &&
  optSame (jLookup a "last_reported") (jLookup a "lastReported") &&
  optSame (jLookup a "account_age") (jLookup a "accountAge") &&
  optSame (jLookup a "currentAccountRatingDisplay") (jLookup a "accountStatus")

/-- Mirror property over a whole account list. -/
def MirrorAll (l : List Obj) : Prop := ∀ a ∈ l, mirrorOkB a = true

/-- Soundness statement of the bundle-partition pass: every output record
either was already accumulated or is a constructed partition record whose
resolved creditor name and account number were truthy. -/
def Pass2Sound (accts res : List Obj) : Prop :=
  ∀ a ∈ res, a ∈ accts ∨
    ∃ pitem t f, resolvePartTradeline pitem t = Except.ok f ∧
      a = mkPartitionAcct f ∧ truthy f.creditor_name = true ∧
      truthy f.account_number = true

/-! ### Shape conditions under which `normalize_report` cannot raise -/

/-- Value is falsy or a dict (safe under `(x or \x7b\x7d).get(...)`). -/
def objIfTruthy (v : J) : Bool := !truthy v || isObjB v

/-- Value is a string or falsy (safe as a truthy-filtered `join` part or as
the subject of a containment test). -/
def strIfTruthy (v : J) : Bool :=
  match v with
  | J.str _ => true
  | _ => !truthy v

/-- Key absent, or present with a string value (safe under `.get(k, "").strip()`). -/
def strIfPresent (kvs : Obj) (k : String) : Bool :=
  match jLookup kvs k with
  | none => true
  | some (J.str _) => true
  | some _ => false

/-- Located value (default `""`) is a string or falsy. -/
def strIfTruthyKey (kvs : Obj) (k : String) : Bool :=
  strIfTruthy ((jLookup kvs k).getD (J.str ""))

/-- Dict, or list of dicts (safe to iterate and `.get` on each element). -/
def listOrObjAllObj (v : J) : Bool :=
  match v with
  | J.obj _ => true
  | J.arr l => l.all isObjB
  | _ => false

/-- Same, with a per-element condition. -/
def wfArrOrObjAll (p : J → Bool) (v : J) : Bool :=
  match v with
  | J.obj _ => p v
  | J.arr l => l.all p
  | _ => false

/-- The record's `Source`/`Bureau` chain is made of dicts. -/
def srcBureauOk (t : J) : Bool :=
  match t with
  | J.obj kvs =>
      match (jLookup kvs "Source").getD (J.obj []) with
      | J.obj s2 => isObjB ((jLookup s2 "Bureau").getD (J.obj []))
      | _ => false
  | _ => false

/-- Well-formed `Name` sub-object: a dict whose truthy name parts are strings. -/
def wfNameData (nd : J) : Bool :=
  match nd with
  | J.obj kvs =>
      strIfTruthyKey kvs "first" && strIfTruthyKey kvs "middle" && strIfTruthyKey kvs "last"
  | _ => false

/-- Well-formed element of the borrower `Name` array. -/
def wfNameItem (n : J) : Bool :=
  match n with
  | J.obj kvs =>
      isObjB ((jLookup kvs "NameType").getD (J.obj [])) &&
      wfNameData ((jLookup kvs "Name").getD (J.obj []))
  | _ => false

/-- Well-formed borrower name sources. -/
def wfBorrowerNames (kvs : Obj) : Bool :=
  (match (jLookup kvs "BorrowerName").getD J.null with
   | J.arr l => l.all (fun item =>
       match item with
       | J.obj ikvs =>
           let nd := (jLookup ikvs "Name").getD (J.obj [])
           !truthy nd || wfNameData nd
       | _ => true)
   | _ => true) &&
  (match (jLookup kvs "Name").getD (J.arr []) with
   | J.arr l => l.all wfNameItem
   | _ => true)

/-- Well-formed `CreditAddress` block. -/
def wfCreditAddr (ca : J) : Bool :=
  match ca with
  | J.obj kvs =>
      strIfTruthy ((jLookup kvs "unparsedStreet").getD J.null) &&
      strIfPresent kvs "city" && strIfPresent kvs "stateCode" &&
      strIfPresent kvs "postalCode" &&
      strIfTruthyKey kvs "houseNumber" && strIfTruthyKey kvs "direction" &&
      strIfTruthyKey kvs "streetName" && strIfTruthyKey kvs "streetType"
  | _ => false

/-- Well-formed first element of the located address collection. -/
def wfAddrObj (a : J) : Bool :=
  match a with
  | J.obj kvs => wfCreditAddr ((jLookup kvs "CreditAddress").getD (J.obj []))
  | _ => false

/-- Well-formed `BorrowerAddress` value (only its first element is read). -/
def wfAddrList (v : J) : Bool :=
  match v with
  | J.obj _ => wfAddrObj v
  | J.arr [] => true
  | J.arr (h :: _) => wfAddrObj h
  | _ => !truthy v

/-- Well-formed `Birth` value (only its first element is read). -/
def wfBirthList (v : J) : Bool :=
  match v with
  | J.obj _ => true
  | J.arr [] => true
  | J.arr (h :: _) => isObjB h
  | _ => !truthy v

/-- Well-formed previous-address entry. -/
def wfPrevAddr (p : J) : Bool :=
  srcBureauOk p &&
  (match p with
   | J.obj kvs =>
       match (jLookup kvs "CreditAddress").getD (J.obj []) with
       | J.obj ca =>
           strIfTruthyKey ca "houseNumber" && strIfTruthyKey ca "direction" &&
           strIfTruthyKey ca "streetName" && strIfTruthyKey ca "streetType"
       | _ => false
   | _ => false)

/-- Shape condition on the borrower block under which the personal-info,
legacy-inquiry and employer sections cannot raise. -/
def wfBorrower (b : J) : Bool :=
  if truthy b then
    match b with
    | J.obj kvs =>
        wfBorrowerNames kvs &&
        objIfTruthy ((jLookup kvs "SocialPartition").getD J.null) &&
        wfAddrList ((jLookup kvs "BorrowerAddress").getD (J.arr [])) &&
        wfBirthList ((jLookup kvs "Birth").getD (J.arr [])) &&
        wfArrOrObjAll wfPrevAddr ((jLookup kvs "PreviousAddress").getD (J.arr [])) &&
        wfArrOrObjAll srcBureauOk ((jLookup kvs "Inquiry").getD (J.arr [])) &&
        wfArrOrObjAll srcBureauOk ((jLookup kvs "Employer").getD (J.arr []))
    | _ => false
  else true

/-- Well-formed partition tradeline (dict ones must have dict `Source`,
`Bureau` and `accountCondition` blocks; non-dicts are skipped anyway). -/
def wfPartTradeline (t : J) : Bool :=
  match t with
  | J.obj kvs =>
      srcBureauOk t && isObjB ((jLookup kvs "accountCondition").getD (J.obj []))
  | _ => true

/-- Well-formed partition item. -/
def wfPartItem (it : J) : Bool :=
  match it with
  | J.obj kvs =>
      (tradelinesOf ((jLookup kvs "Tradeline").getD (J.obj []))).all wfPartTradeline
  | _ => false

/-- Well-formed `InquiryPartition` item. -/
def wfInqItem (it : J) : Bool :=
  match it with
  | J.obj kvs =>
      let idata := (jLookup kvs "Inquiry").getD (J.obj [])
      !truthy idata ||
      (match idata with
       | J.obj i2 =>
           truthy ((jLookup i2 "bureau").getD J.null) ||
           (match (jLookup i2 "Source").getD (J.obj []) with
            | J.obj s2 => isObjB ((jLookup s2 "Bureau").getD (J.obj []))
            | _ => false)
       | _ => false)
  | _ => false

/-- Shape condition on the resolved `true_link` under which the partition
passes cannot raise. -/
def wfTrueLink (tl : J) : Bool :=
  if truthy tl then
    match tl with
    | J.obj kvs =>
        wfArrOrObjAll wfPartItem ((jLookup kvs "TradeLinePartition").getD (J.arr [])) &&
        wfArrOrObjAll wfInqItem ((jLookup kvs "InquiryPartition").getD (J.arr []))
    | _ => false
  else true

/-- Well-formed score component (the `Type` containment test and the
`CreditScoreType` access must be safe). -/
def wfScoreComp (c : J) : Bool :=
  match c with
  | J.obj kvs =>
      strIfTruthy ((jLookup kvs "Type").getD J.null) &&
      objIfTruthy ((jLookup kvs "CreditScoreType").getD J.null)
  | _ => false

/-- Well-formed merge component (a dict `TrueLinkCreditReportType` when the
type marker matches, since the fallback search runs outside any `try`). -/
def wfMergeComp (c : J) : Bool :=
  match c with
  | J.obj kvs =>
      if pyEq ((jLookup kvs "Type").getD J.null) (J.str "MergeCreditReports") then
        isObjB ((jLookup kvs "TrueLinkCreditReportType").getD (J.obj []))
      else true
  | _ => false

/-- Well-formed bundle-component collection of the outer document. -/
def wfComps (v : J) : Bool :=
  match v with
  | J.obj _ => wfScoreComp v && wfMergeComp v
  | J.arr l => l.all (fun c => wfScoreComp c && wfMergeComp c)
  | _ => false

/-- Well-formed `BundleComponents` area of the outer document. -/
def wfBundleArea (kvs : Obj) : Bool :=
  let bcv := (jLookup kvs "BundleComponents").getD J.null
  objIfTruthy bcv &&
  (match bcv with
   | J.obj b2 => wfComps ((jLookup b2 "BundleComponent").getD (J.arr []))
   | _ => true)

/-- Well-formed trade record of the primary list. -/
def wfTrade (t : J) : Bool :=
  match t with
  | J.obj kvs =>
      objIfTruthy ((jLookup kvs "institution").getD J.null) &&
      objIfTruthy ((jLookup kvs "accountTypeObj").getD J.null) &&
      (match (jLookup kvs "memberCodeAccount").getD J.null with
       | J.obj m2 => objIfTruthy ((jLookup m2 "creditorContact").getD J.null)
       | v => !truthy v) &&
      objIfTruthy ((jLookup kvs "creditorContact").getD J.null)
  | _ => false

/-- Well-formed `trades` endpoint. -/
def wfTradesEndpoint (raw : Obj) : Bool :=
  let tv := (jLookup raw "trades").getD J.null
  objIfTruthy tv &&
  (match tv with
   | J.obj kvs => wfArrOrObjAll wfTrade ((jLookup kvs "trades").getD (J.arr []))
   | _ => true)

/-- Well-formed `search_results` endpoint. -/
def wfSearchInq (raw : Obj) : Bool :=
  let sv := (jLookup raw "search_results").getD J.null
  objIfTruthy sv &&
  (match sv with
   | J.obj kvs =>
       listOrObjAllObj ((jLookup kvs "inquiries").getD (J.arr [])) &&
       listOrObjAllObj ((jLookup kvs "publicRecords").getD (J.arr []))
   | _ => true)

/-- Well-formed fallback-employer area of the outer document. -/
def wfEmployersFallback (cr : J) : Bool :=
  match cr with
  | J.obj kvs =>
      let bv := (jLookup kvs "Borrower").getD J.null
      objIfTruthy bv &&
      (match bv with
       | J.obj b2 => listOrObjAllObj ((jLookup b2 "Employer").getD (J.arr []))
       | _ => true)
  | _ => false

/-- Shape conditions under which `normalize_report` returns a report: the
`credit_report_json` value is a dict (or absent), the documented collection
positions hold dicts or lists of dicts, truthy values in `(x or
\x7b\x7d).get` positions are dicts, values fed to `strip`/`join`/`in` are
strings, and the borrower and `true_link` blocks the run resolves (from the
parsed payload or the outer fallback) satisfy the same conditions. -/
def Wf (raw : Obj) : Bool :=
  match rawCr raw with
  | J.obj kvs =>
      wfBundleArea kvs && wfTradesEndpoint raw && wfSearchInq raw &&
      wfEmployersFallback (J.obj kvs) &&
      (match resolvedTlBr raw with
       | .ok tlbr => wfTrueLink tlbr.1 && wfBorrower tlbr.2
       | .error _ => false)
  | _ => false

/-! ### Concrete inputs used by the claim theorems -/

/-- Report extracted from a successful run (dummy report otherwise). -/
def runRep (raw scores : Obj) : Report :=
  match normalize_report raw scores with
  | .ok r => r
  | .error _ => ⟨J.null, [], [], [], [], []⟩

/-- Input for the `C4` witness: well-shaped endpoints, no raw payload, the
borrower found by the outer fallback search. -/
def c4wraw : Obj :=
  [("credit_report_json", J.obj
     [("BundleComponents", J.obj
        [("BundleComponent", J.arr
           [J.obj [("Type", J.str "MergeCreditReports"),
                   ("TrueLinkCreditReportType", J.obj
                      [("Borrower", J.obj
                         [("BorrowerName", J.str "JANE ROE"),
                          ("Employer", J.arr [J.obj
                            [("name", J.str "Acme"),
                             ("Source", J.obj
                               [("Bureau", J.obj [("symbol", J.str "TUC")])])]])])])]])]),
      ("Borrower", J.obj
        [("Employer", J.arr [J.obj [("employerName", J.str "Acme")]])])]),
   ("trades", J.obj [("trades", J.arr
     [J.obj [("institution", J.obj [("name", J.str "Chase Bank")]),
             ("maskedAccountNumber", J.str "438854X"),
             ("bureau", J.str "TUC"),
             ("currentBalanceAmount", J.str "887")]])]),
   ("search_results", J.obj [("inquiries", J.arr
     [J.obj [("bureau", J.str "TUC"), ("subscriberName", J.str "Chase"),
             ("inquiryDate", J.str "2021-01-01"),
             ("inquiryType", J.str "Hard")]])])]

/-- Bundle component carrying a typed score. -/
def scoreComp (ty : String) (v : J) : J :=
  J.obj [("Type", J.str ty), ("CreditScoreType", J.obj [("riskScore", v)])]

/-- Document whose only content is a bundle-component list. -/
def scoreOnlyRaw (comps : List J) : Obj :=
  [("credit_report_json",
    J.obj [("BundleComponents", J.obj [("BundleComponent", J.arr comps)])])]

/-- Score override supplying a TransUnion display value. -/
def ovTU : Obj := [("TransUnion", J.str "640")]

/-- A primary-trade-list record with the given balance. -/
def chaseTrade (bal : String) : J := J.obj
  [("institution", J.obj [("name", J.str "Chase Bank")]),
   ("maskedAccountNumber", J.str "438854X"),
   ("bureau", J.str "TUC"),
   ("currentBalanceAmount", J.str bal)]

/-- Input document with only a trades list. -/
def tradesRaw (ts : List J) : Obj := [("trades", J.obj [("trades", J.arr ts)])]

/-- Input with two primary trades sharing the full dedup key. -/
def c2raw : Obj := tradesRaw [chaseTrade "887", chaseTrade "900"]

/-- Payload with an Equifax per-bureau report whose tradeline matches the
Chase trade on number and name (but not bureau). -/
def rrC3 : String :=
  "\x7b\"BundleComponents\":\x7b\"BundleComponent\":[\x7b\"Type\":\"EQFReportV6\",\"CreditReportType\":\x7b\"Tradeline\":[\x7b\"creditorName\":\"Chase Bank\",\"accountNumber\":\"438854X\"\x7d]\x7d\x7d]\x7d\x7d"

/-- Input combining the Chase trade with the Equifax report above. -/
def c3raw : Obj :=
  ("credit_report_json", J.obj [("rawReport", J.str rrC3)]) :: tradesRaw [chaseTrade "887"]

/-- Input whose `credit_report_json` is a number instead of a dict. -/
def c4raw : Obj := [("credit_report_json", J.num 5)]

/-- Payload with a TransUnion per-bureau report containing a record with
neither creditor name nor account number. -/
def rrC5 : String :=
  "\x7b\"BundleComponents\":\x7b\"BundleComponent\":[\x7b\"Type\":\"TUCReportV6\",\"CreditReportType\":\x7b\"Tradeline\":[\x7b\x7d]\x7d\x7d]\x7d\x7d"

/-- Input carrying only that payload. -/
def c5raw : Obj := [("credit_report_json", J.obj [("rawReport", J.str rrC5)])]

/-- Payload whose partition tradeline matches the Chase trade post-trim but
carries whitespace around the account number. -/
def rrC6 : String :=
  "\x7b\"BundleComponents\":\x7b\"BundleComponent\":[\x7b\"Type\":\"MergeCreditReports\",\"TrueLinkCreditReportType\":\x7b\"TradeLinePartition\":[\x7b\"Tradeline\":\x7b\"creditorName\":\"Chase Bank\",\"accountNumber\":\" 438854X \",\"Source\":\x7b\"Bureau\":\x7b\"symbol\":\"TUC\"\x7d\x7d\x7d\x7d]\x7d\x7d]\x7d\x7d"

/-- Input combining the Chase trade with that partition payload. -/
def c6raw : Obj :=
  ("credit_report_json", J.obj [("rawReport", J.str rrC6)]) :: tradesRaw [chaseTrade "887"]

/-- Trade whose balance amount is the JSON number zero. -/
def c7raw : Obj := tradesRaw [J.obj [("currentBalanceAmount", J.num 0)]]

/-- Payload with a TransUnion per-bureau report containing one named record. -/
def rrC8 : String :=
  "\x7b\"BundleComponents\":\x7b\"BundleComponent\":[\x7b\"Type\":\"TUCReportV6\",\"CreditReportType\":\x7b\"Tradeline\":[\x7b\"creditorName\":\"Cap One\",\"accountNumber\":\"517805X\"\x7d]\x7d\x7d]\x7d\x7d"

/-- Input carrying only that payload. -/
def c8raw : Obj := [("credit_report_json", J.obj [("rawReport", J.str rrC8)])]

/-- Outer-document bindings with an unparseable payload and a fallback
borrower. -/
def c9kvs : Obj :=
  [("rawReport", J.str "not json"),
   ("BundleComponents", J.obj [("BundleComponent", J.arr
     [J.obj [("Type", J.str "MergeCreditReports"),
             ("TrueLinkCreditReportType",
              J.obj [("Borrower", J.obj [("BorrowerName", J.str "JANE ROE")])])]])])]

/-- Input whose nested payload fails to parse while the outer document
carries the borrower. -/
def c9raw : Obj := [("credit_report_json", J.obj c9kvs)]

/-- One borrower name record in the structured array format. -/
def primaryNameObj : J :=
  J.obj [("NameType", J.obj [("abbreviation", J.str "Primary")]),
         ("Name", J.obj [("first", J.str "JOHN"), ("last", J.str "DOE")])]

/-- Document whose borrower holds the given value under `Name`. -/
def nameRaw (nameVal : J) : Obj :=
  [("credit_report_json", J.obj
    [("BundleComponents", J.obj [("BundleComponent", J.arr
      [J.obj [("Type", J.str "MergeCreditReports"),
              ("TrueLinkCreditReportType",
               J.obj [("Borrower", J.obj [("Name", nameVal)])])]])])])]

/-- The `name` field of a report's personal info. -/
def pinfoName (r : Report) : J :=
  match r.personal_info with
  | J.obj kvs => (jLookup kvs "name").getD J.null
  | _ => J.null

/-- Context placing a value at the `trades` list position. -/
def ctxTrades (v : J) : Obj := [("trades", J.obj [("trades", v)])]

/-- Context placing a value at the bundle-component list position. -/
def ctxComps (v : J) : Obj :=
  [("credit_report_json", J.obj [("BundleComponents", J.obj [("BundleComponent", v)])])]

/-- Context placing a value at the tradeline-partition position. -/
def ctxPartition (v : J) : Obj :=
  [("credit_report_json", J.obj
    [("BundleComponents", J.obj [("BundleComponent", J.arr
      [J.obj [("Type", J.str "MergeCreditReports"),
              ("TrueLinkCreditReportType",
               J.obj [("Borrower", J.obj [("BorrowerName", J.str "JANE ROE")]),
                      ("TradeLinePartition", v)])]])])])]

/-- Context placing a value at the borrower-address position. -/
def ctxAddr (v : J) : Obj :=
  [("credit_report_json", J.obj
    [("BundleComponents", J.obj [("BundleComponent", J.arr
      [J.obj [("Type", J.str "MergeCreditReports"),
              ("TrueLinkCreditReportType",
               J.obj [("Borrower", J.obj [("BorrowerAddress", v)])])]])])])]

/-- Context placing a value at the `search_results` inquiries position. -/
def ctxInqs (v : J) : Obj := [("search_results", J.obj [("inquiries", v)])]

/-- Context placing a value at the `search_results` public-records position. -/
def ctxPubs (v : J) : Obj := [("search_results", J.obj [("publicRecords", v)])]

/-- Context placing a value at the borrower-employer position. -/
def ctxEmp (v : J) : Obj :=
  [("credit_report_json", J.obj
    [("BundleComponents", J.obj [("BundleComponent", J.arr
      [J.obj [("Type", J.str "MergeCreditReports"),
              ("TrueLinkCreditReportType",
               J.obj [("Borrower", J.obj [("Employer", v)])])]])])])]

/-- Payload combining a merged report (with a partition record) and a
per-bureau report, used by witnesses that exercise all three passes. -/
def rrRich : String :=
  "\x7b\"BundleComponents\":\x7b\"BundleComponent\":[\x7b\"Type\":\"MergeCreditReports\",\"TrueLinkCreditReportType\":\x7b\"Borrower\":\x7b\"BorrowerName\":\"JANE ROE\"\x7d,\"TradeLinePartition\":[\x7b\"Tradeline\":\x7b\"creditorName\":\"Cap One\",\"accountNumber\":\"517805X\",\"currentBalance\":\"375\",\"Source\":\x7b\"Bureau\":\x7b\"symbol\":\"EQF\"\x7d\x7d\x7d\x7d]\x7d\x7d,\x7b\"Type\":\"TUCReportV6\",\"CreditReportType\":\x7b\"Tradeline\":[\x7b\"creditorName\":\"Discover\",\"accountNumber\":\"601100X\"\x7d]\x7d\x7d]\x7d\x7d"

/-- Rich input exercising trades, partition and per-bureau passes. -/
def richRaw : Obj :=
  ("credit_report_json", J.obj [("rawReport", J.str rrRich)]) :: tradesRaw [chaseTrade "887"]

/-- A second rich input (same payload, different trade balance), kept
separate so distinct claims use distinct witness inputs. -/
def richRaw2 : Obj :=
  ("credit_report_json", J.obj [("rawReport", J.str rrRich)]) :: tradesRaw [chaseTrade "900"]

/-- Partition-bearing `true_link` used by the pass-2 soundness witness. -/
def c5wtl : J :=
  J.obj [("TradeLinePartition", J.arr
    [J.obj [("Tradeline", J.obj
      [("creditorName", J.str "Cap One"), ("accountNumber", J.str "517805X"),
       ("Source", J.obj [("Bureau", J.obj [("symbol", J.str "EQF")])])])],
     J.obj [("Tradeline", J.obj [("accountNumber", J.str "999")])]])]

/-- Payload with one TransUnion bureau report carrying two distinct
tradelines, used by the pass-3 distinctness witness. -/
def c3wrrs : String :=
  "\x7b\"BundleComponents\":\x7b\"BundleComponent\":[\x7b\"Type\":\"TUCReportV6\",\"CreditReportType\":\x7b\"Tradeline\":[\x7b\"creditorName\":\"Chase Bank\",\"accountNumber\":\"438854X\"\x7d,\x7b\"creditorName\":\"Cap One\",\"accountNumber\":\"517805X\"\x7d]\x7d\x7d]\x7d\x7d"

/-- Distinctness of the primary-trade-list pass's own output, stated as a
decidable side condition (the source applies no dedup in that pass, so this
does not hold for every input). -/
def tradesDistinct (raw : Obj) : Bool :=
  match tradesSection raw with
  | .ok a1 => keysDistinctB a1
  | .error _ => true

/-- Full-key pairwise distinctness of the canonical report's account
sequence (vacuously true on a raising run). -/
def reportKeysDistinct (raw scores : Obj) : Bool :=
  match normalize_report raw scores with
  | .ok r => keysDistinctB r.accounts
  | .error _ => true

/-- Payload combining a merge partition (Equifax Cap One tradeline) with a
TransUnion bureau report (Chase tradeline), used by the dedup-invariant
witness. -/
def c2wrrs : String :=
  "\x7b\"BundleComponents\":\x7b\"BundleComponent\":[\x7b\"Type\":\"MergeCreditReports\",\"TrueLinkCreditReportType\":\x7b\"TradeLinePartition\":[\x7b\"Tradeline\":\x7b\"creditorName\":\"Cap One\",\"accountNumber\":\"517805X\",\"Source\":\x7b\"Bureau\":\x7b\"symbol\":\"EQF\"\x7d\x7d\x7d\x7d]\x7d\x7d,\x7b\"Type\":\"TUCReportV6\",\"CreditReportType\":\x7b\"Tradeline\":[\x7b\"creditorName\":\"Chase Bank\",\"accountNumber\":\"438854X\"\x7d]\x7d\x7d]\x7d\x7d"

/-- Input with one Chase trade plus that payload. -/
def c2wraw : Obj :=
  ("credit_report_json", J.obj [("rawReport", J.str c2wrrs)]) :: tradesRaw [chaseTrade "887"]

/-- Null-or-string shape: the shape of every stored key field the three
passes write, and the shape required of a dedup-key component. -/
def nsB : J → Bool
  | J.null => true
  | J.str _ => true
  | _ => false

/-- The three stored key fields of a record are null-or-string shaped
(true of every record the three passes construct). -/
def keyShapedB (a : Obj) : Bool :=
  nsB (acctGet a "maskedAccountNumber") && nsB (instName a) &&
  nsB (acctGet a "bureau")

/-- Whether the primary-trade-list pass contributes a record carrying the
given full dedup key (vacuously true on a raising run). -/
def tradesHasKey (raw : Obj) (n i b : J) : Bool :=
  match tradesSection raw with
  | .ok a1 => a1.any (matchKeyB n i b)
  | .error _ => true

/-- Trades precedence at a key: the canonical report's account records
carrying the key are exactly the primary-trade-list pass's records carrying
it (same entries, same field values, same multiplicity and order). -/
def PrecedenceAt (raw scores : Obj) (n i b : J) : Prop :=
  ∀ r a1, normalize_report raw scores = .ok r → tradesSection raw = .ok a1 →
    r.accounts.filter (matchKeyB n i b) = a1.filter (matchKeyB n i b)

/-- Payload whose merge partition repeats the Chase trade's full key, used
by the trades-precedence witness. -/
def c6wrrs : String :=
  "\x7b\"BundleComponents\":\x7b\"BundleComponent\":[\x7b\"Type\":\"MergeCreditReports\",\"TrueLinkCreditReportType\":\x7b\"TradeLinePartition\":[\x7b\"Tradeline\":\x7b\"creditorName\":\"Chase Bank\",\"accountNumber\":\"438854X\",\"Source\":\x7b\"Bureau\":\x7b\"symbol\":\"TUC\"\x7d\x7d\x7d\x7d]\x7d\x7d]\x7d\x7d"

/-- Input with one Chase trade plus that payload. -/
def c6wraw : Obj :=
  ("credit_report_json", J.obj [("rawReport", J.str c6wrrs)]) :: tradesRaw [chaseTrade "887"]

/-! ### Helper lemmas -/

theorem jLookup_dictSet_self (d : Obj) (k : String) (v : J) :
    jLookup (dictSet d k v) k = some v := by
  induction d with
  | nil => simp [dictSet, jLookup]
  | cons h rest ih =>
      obtain ⟨k2, v2⟩ := h
      by_cases hk : k2 = k
      · simp [dictSet, hk, jLookup]
      · simp [dictSet, hk, jLookup, ih]

theorem safe_string_shape (v : J) :
    safe_string v = J.null ∨ ∃ s, safe_string v = J.str s := by
  cases v with
  | null => exact Or.inl rfl
  | bool b => simp only [safe_string]; split; exacts [Or.inl rfl, Or.inr ⟨_, rfl⟩]
  | num q => simp only [safe_string]; split; exacts [Or.inl rfl, Or.inr ⟨_, rfl⟩]
  | str s => simp only [safe_string]; split; exacts [Or.inl rfl, Or.inr ⟨_, rfl⟩]
  | arr l => simp only [safe_string]; split; exacts [Or.inl rfl, Or.inr ⟨_, rfl⟩]
  | obj l => simp only [safe_string]; split; exacts [Or.inl rfl, Or.inr ⟨_, rfl⟩]

theorem fixedJ_eq {v : J} (h : fixedJ v = true) : safe_string v = v := by
  unfold fixedJ at h
  rcases safe_string_shape v with hs | ⟨s, hs⟩ <;> rw [hs] at h ⊢
  · cases v with
    | null => rfl
    | bool b => simp [pyEq] at h
    | num q => simp [pyEq] at h
    | str t => simp [pyEq] at h
    | arr l => simp [pyEq] at h
    | obj l => simp [pyEq] at h
  · cases v with
    | null => simp [pyEq] at h
    | bool b => simp [pyEq] at h
    | num q => simp [pyEq] at h
    | str t => simp [pyEq] at h; exact congrArg J.str h
    | arr l => simp [pyEq] at h
    | obj l => simp [pyEq] at h

theorem fixedJ_shape {v : J} (h : fixedJ v = true) :
    v = J.null ∨ ∃ s, v = J.str s := by
  have := fixedJ_eq h
  rcases safe_string_shape v with h2 | ⟨s, h2⟩
  · exact Or.inl (this ▸ h2)
  · exact Or.inr ⟨s, this ▸ h2⟩

theorem pyEq_ns_iff {a b : J}
    (ha : a = J.null ∨ ∃ s, a = J.str s)
    (hb : b = J.null ∨ ∃ s, b = J.str s) :
    pyEq a b = true ↔ a = b := by
  rcases ha with rfl | ⟨s, rfl⟩ <;> rcases hb with rfl | ⟨t, rfl⟩ <;>
    simp [pyEq]

theorem pyEq_safe_refl (v : J) : pyEq (safe_string v) (safe_string v) = true := by
  rcases safe_string_shape v with h | ⟨s, h⟩ <;> rw [h] <;> simp [pyEq]

theorem except_bind_ok {α β : Type} (a : α) (f : α → Except PyErr β) :
    (Except.ok a >>= f) = f a := rfl

theorem normalize_report_inv {raw scores : Obj} {r : Report}
    (h : normalize_report raw scores = .ok r) :
    ∃ tlbr pinfo sc a3 i3 prs e2,
      resolvedTlBr raw = .ok tlbr ∧
      pinfoStep (rawCr raw) tlbr.2 = .ok pinfo ∧
      scoresStep (rawCr raw) (rawRrs raw) tlbr.2 scores = .ok sc ∧
      accountsStep raw tlbr.1 = .ok a3 ∧
      inquiriesStep raw tlbr.1 tlbr.2 = .ok i3 ∧
      publicRecordsSection raw = .ok prs ∧
      employersStep (rawCr raw) tlbr.2 = .ok e2 ∧
      r = ⟨pinfo, sc, a3, i3, prs, e2⟩ := by
  unfold normalize_report at h
  cases h1 : resolvedTlBr raw with
  | error e => rw [h1] at h; exact absurd h (by simp [Bind.bind, Except.bind])
  | ok tlbr =>
  rw [h1, except_bind_ok] at h
  cases h2 : pinfoStep (rawCr raw) tlbr.2 with
  | error e => rw [h2] at h; exact absurd h (by simp [Bind.bind, Except.bind])
  | ok pinfo =>
  rw [h2, except_bind_ok] at h
  cases h3 : scoresStep (rawCr raw) (rawRrs raw) tlbr.2 scores with
  | error e => rw [h3] at h; exact absurd h (by simp [Bind.bind, Except.bind])
  | ok sc =>
  rw [h3, except_bind_ok] at h
  cases h4 : accountsStep raw tlbr.1 with
  | error e => rw [h4] at h; exact absurd h (by simp [Bind.bind, Except.bind])
  | ok a3 =>
  rw [h4, except_bind_ok] at h
  cases h5 : inquiriesStep raw tlbr.1 tlbr.2 with
  | error e => rw [h5] at h; exact absurd h (by simp [Bind.bind, Except.bind])
  | ok i3 =>
  rw [h5, except_bind_ok] at h
  cases h6 : publicRecordsSection raw with
  | error e => rw [h6] at h; exact absurd h (by simp [Bind.bind, Except.bind])
  | ok prs =>
  rw [h6, except_bind_ok] at h
  cases h7 : employersStep (rawCr raw) tlbr.2 with
  | error e => rw [h7] at h; exact absurd h (by simp [Bind.bind, Except.bind])
  | ok e2 =>
  rw [h7, except_bind_ok] at h
  simp only [pure, Except.pure, Except.ok.injEq] at h
  exact ⟨tlbr, pinfo, sc, a3, i3, prs, e2, rfl, h2, h3, h4, h5, rfl, h7, h.symm⟩

theorem tradesLoop_sound :
    ∀ ts accts res, tradesLoop ts accts = .ok res →
      ∀ a ∈ res, a ∈ accts ∨ ∃ f, a = mkTradeAcct f := by
  intro ts
  induction ts with
  | nil =>
      intro accts res h a ha
      simp only [tradesLoop, pure, Except.pure, Except.ok.injEq] at h
      exact Or.inl (h ▸ ha)
  | cons t rest ih =>
      intro accts res h a ha
      simp only [tradesLoop] at h
      cases hr : resolveTrade t with
      | error e => rw [hr] at h; exact absurd h (by simp [Bind.bind, Except.bind])
      | ok f =>
          rw [hr, except_bind_ok] at h
          rcases ih _ _ h a ha with hmem | hex
          · rcases List.mem_append.mp hmem with h1 | h1
            · exact Or.inl h1
            · exact Or.inr ⟨f, (List.mem_singleton.mp h1)⟩
          · exact Or.inr hex

theorem partTradelineLoop_sound :
    ∀ pitem ts accts res, partTradelineLoop pitem ts accts = .ok res →
      ∀ a ∈ res, a ∈ accts ∨
        ∃ t f, resolvePartTradeline pitem t = .ok f ∧ a = mkPartitionAcct f ∧
          truthy f.creditor_name = true ∧ truthy f.account_number = true := by
  intro pitem ts
  induction ts with
  | nil =>
      intro accts res h a ha
      simp only [partTradelineLoop, pure, Except.pure, Except.ok.injEq] at h
      exact Or.inl (h ▸ ha)
  | cons t rest ih =>
      intro accts res h a ha
      cases t with
      | obj kvs =>
          simp only [partTradelineLoop] at h
          cases hr : resolvePartTradeline pitem (J.obj kvs) with
          | error e => rw [hr] at h; exact absurd h (by simp [Bind.bind, Except.bind])
          | ok f =>
              rw [hr, except_bind_ok] at h
              by_cases hc : (!isDuplicate3 accts f.account_number f.creditor_name f.bureau_symbol &&
                  truthy f.creditor_name && truthy f.account_number) = true
              · rw [if_pos hc] at h
                rcases ih _ _ h a ha with hmem | hex
                · rcases List.mem_append.mp hmem with h1 | h1
                  · exact Or.inl h1
                  · refine Or.inr ⟨J.obj kvs, f, hr, List.mem_singleton.mp h1, ?_, ?_⟩
                    · have := (Bool.and_eq_true _ _).mp hc
                      exact ((Bool.and_eq_true _ _).mp this.1).2
                    · exact ((Bool.and_eq_true _ _).mp hc).2
                · exact Or.inr hex
              · rw [if_neg hc] at h
                rcases ih _ _ h a ha with hmem | hex
                · exact Or.inl hmem
                · exact Or.inr hex
      | null => exact (ih _ _ h a ha).imp id id
      | bool b => exact (ih _ _ h a ha).imp id id
      | num q => exact (ih _ _ h a ha).imp id id
      | str s => exact (ih _ _ h a ha).imp id id
      | arr l => exact (ih _ _ h a ha).imp id id

theorem partitionItems_sound :
    ∀ items accts res, partitionItems items accts = .ok res →
      ∀ a ∈ res, a ∈ accts ∨
        ∃ pitem t f, resolvePartTradeline pitem t = .ok f ∧ a = mkPartitionAcct f ∧
          truthy f.creditor_name = true ∧ truthy f.account_number = true := by
  intro items
  induction items with
  | nil =>
      intro accts res h a ha
      simp only [partitionItems, pure, Except.pure, Except.ok.injEq] at h
      exact Or.inl (h ▸ ha)
  | cons it rest ih =>
      intro accts res h a ha
      simp only [partitionItems] at h
      cases hg : pyGetD it "Tradeline" (J.obj []) with
      | error e => rw [hg] at h; exact absurd h (by simp [Bind.bind, Except.bind])
      | ok td =>
          rw [hg, except_bind_ok] at h
          cases hl : partTradelineLoop it (tradelinesOf td) accts with
          | error e => rw [hl] at h; exact absurd h (by simp [Bind.bind, Except.bind])
          | ok mid =>
              rw [hl, except_bind_ok] at h
              rcases ih _ _ h a ha with hmem | hex
              · rcases partTradelineLoop_sound it (tradelinesOf td) accts mid hl a hmem with
                  h1 | ⟨t, f, h1⟩
                · exact Or.inl h1
                · exact Or.inr ⟨it, t, f, h1⟩
              · exact Or.inr hex

theorem tradeLinePartitionSection_sound {tl : J} {accts res : List Obj}
    (h : tradeLinePartitionSection tl accts = .ok res) : Pass2Sound accts res := by
  intro a ha
  unfold tradeLinePartitionSection at h
  by_cases ht : truthy tl = true
  · rw [if_pos ht] at h
    cases hg : pyGetD tl "TradeLinePartition" (J.arr []) with
    | error e => rw [hg] at h; exact absurd h (by simp [Bind.bind, Except.bind])
    | ok tlp0 =>
        rw [hg, except_bind_ok] at h
        cases hw : wrapIter tlp0 with
        | error e => rw [hw] at h; exact absurd h (by simp [Bind.bind, Except.bind])
        | ok items =>
            rw [hw, except_bind_ok] at h
            rcases partitionItems_sound items accts res h a ha with h1 | ⟨p, t, f, h1⟩
            · exact Or.inl h1
            · exact Or.inr ⟨p, t, f, h1⟩
  · rw [if_neg ht] at h
    simp only [pure, Except.pure, Except.ok.injEq] at h
    exact Or.inl (h ▸ ha)

theorem bureauTradelines_sound :
    ∀ bs ts accts, ∀ a ∈ resOf (bureauTradelines bs ts accts),
      a ∈ accts ∨ ∃ f, a = mkBureauAcct bs f := by
  intro bs ts
  induction ts with
  | nil => intro accts a ha; exact Or.inl ha
  | cons t rest ih =>
      intro accts a ha
      simp only [bureauTradelines] at ha
      cases hr : resolveBureauTradeline t with
      | error e => rw [hr] at ha; exact Or.inl ha
      | ok f =>
          rw [hr] at ha
          simp only [orKeep, Bind.bind, Except.bind] at ha
          by_cases hc : isDuplicate2 accts f.account_number f.creditor_name = true
          · simp only [hc, Bool.not_true, Bool.false_eq_true, if_false] at ha
            exact (ih _ a ha).imp id id
          · simp only [Bool.not_eq_true] at hc
            simp only [hc, Bool.not_false, if_true] at ha
            rcases ih _ a ha with hmem | hex
            · rcases List.mem_append.mp hmem with h1 | h1
              · exact Or.inl h1
              · exact Or.inr ⟨f, List.mem_singleton.mp h1⟩
            · exact Or.inr hex

theorem bureauComps_sound :
    ∀ comps accts, ∀ a ∈ resOf (bureauComps comps accts),
      a ∈ accts ∨ ∃ bs f, a = mkBureauAcct bs f := by
  intro comps
  induction comps with
  | nil => intro accts a ha; exact Or.inl ha
  | cons comp rest ih =>
      intro accts a ha
      simp only [bureauComps] at ha
      cases hg : pyGet comp "Type" with
      | error e => rw [hg] at ha; exact Or.inl ha
      | ok ct =>
          rw [hg] at ha
          simp only [orKeep, Bind.bind, Except.bind] at ha
          by_cases hty : (pyEq ct (J.str "TUCReportV6") || pyEq ct (J.str "EQFReportV6") ||
              pyEq ct (J.str "EXPReportV6")) = true
          · rw [if_pos hty] at ha
            cases h1 : pyGetD comp "CreditReportType" (J.obj []) with
            | error e => rw [h1] at ha; exact Or.inl ha
            | ok rd =>
            rw [h1] at ha
            simp only [orKeep, Bind.bind, Except.bind] at ha
            cases h2 : pyGetD rd "Tradeline" (J.arr []) with
            | error e => rw [h2] at ha; exact Or.inl ha
            | ok t1 =>
            rw [h2] at ha
            simp only [orKeep, Bind.bind, Except.bind] at ha
            cases h3 : pyGetD rd "Trade" (J.arr []) with
            | error e => rw [h3] at ha; exact Or.inl ha
            | ok t2 =>
            rw [h3] at ha
            simp only [orKeep, Bind.bind, Except.bind] at ha
            cases h4 : pyGetD rd "Account" (J.arr []) with
            | error e => rw [h4] at ha; exact Or.inl ha
            | ok t3 =>
            rw [h4] at ha
            simp only [orKeep, Bind.bind, Except.bind] at ha
            cases h5 : wrapIter (pyOr t1 (pyOr t2 t3)) with
            | error e => rw [h5] at ha; exact Or.inl ha
            | ok tls =>
            rw [h5] at ha
            simp only [orKeep, Bind.bind, Except.bind] at ha
            cases h6 : bureauTradelines (bureauSymbolOf ct) tls accts with
            | error a2 =>
                rw [h6] at ha
                have := bureauTradelines_sound _ tls accts a (by rw [h6]; exact ha)
                exact this.imp id (fun ⟨f, hf⟩ => ⟨_, f, hf⟩)
            | ok a2 =>
                rw [h6] at ha
                rcases ih a2 a ha with hmem | hex
                · have := bureauTradelines_sound _ tls accts a (by rw [h6]; exact hmem)
                  exact this.imp id (fun ⟨f, hf⟩ => ⟨_, f, hf⟩)
                · exact Or.inr hex
          · rw [if_neg hty] at ha
            exact ih accts a ha

theorem bureauReportsSection_sound {rrs : J} {accts : List Obj} :
    ∀ a ∈ bureauReportsSection rrs accts,
      a ∈ accts ∨ ∃ bs f, a = mkBureauAcct bs f := by
  intro a ha
  unfold bureauReportsSection at ha
  by_cases ht : truthy rrs = true
  · rw [if_pos ht] at ha
    cases hl : loads rrs with
    | error e => simp only [hl, orKeep, Bind.bind, Except.bind] at ha; exact Or.inl ha
    | ok data =>
        simp only [hl, orKeep, Bind.bind, Except.bind] at ha
        cases hg : pyGetD data "BundleComponents" (J.obj []) with
        | error e => simp only [hg, orKeep, Bind.bind, Except.bind] at ha; exact Or.inl ha
        | ok bc =>
            simp only [hg, orKeep, Bind.bind, Except.bind] at ha
            cases bc with
            | obj kvs2 =>
                cases hw : wrapIter ((jLookup kvs2 "BundleComponent").getD (J.arr [])) with
                | error e =>
                    simp only [hw, orKeep, Bind.bind, Except.bind] at ha
                    exact Or.inl ha
                | ok comps =>
                    simp only [hw, orKeep, Bind.bind, Except.bind] at ha
                    have := bureauComps_sound comps accts a
                    cases h6 : bureauComps comps accts with
                    | ok a2 => rw [h6] at ha; exact this (by rw [h6]; exact ha)
                    | error a2 => rw [h6] at ha; exact this (by rw [h6]; exact ha)
            | null => exact Or.inl ha
            | bool b => exact Or.inl ha
            | num q => exact Or.inl ha
            | str s => exact Or.inl ha
            | arr l => exact Or.inl ha
  · rw [if_neg ht] at ha
    exact Or.inl ha

theorem accountsStep_sound {raw : Obj} {tl : J} {res : List Obj}
    (h : accountsStep raw tl = .ok res) :
    ∀ a ∈ res, (∃ f, a = mkTradeAcct f) ∨ (∃ f, a = mkPartitionAcct f) ∨
      ∃ bs f, a = mkBureauAcct bs f := by
  intro a ha
  unfold accountsStep at h
  cases h1 : tradesSection raw with
  | error e => rw [h1] at h; exact absurd h (by simp [Bind.bind, Except.bind])
  | ok a1 =>
      rw [h1, except_bind_ok] at h
      cases h2 : tradeLinePartitionSection tl a1 with
      | error e => rw [h2] at h; exact absurd h (by simp [Bind.bind, Except.bind])
      | ok a2 =>
          rw [h2, except_bind_ok] at h
          simp only [pure, Except.pure, Except.ok.injEq] at h
          rcases bureauReportsSection_sound a (h ▸ ha) with hm2 | ⟨bs, f, hf⟩
          · rcases tradeLinePartitionSection_sound h2 a hm2 with hm1 | ⟨_, _, f, _, hf, _⟩
            · simp only [tradesSection] at h1
              cases hg1 : pyGetD (pyOr ((jLookup raw "trades").getD J.null) (J.obj []))
                  "trades" (J.arr []) with
              | error e => rw [hg1] at h1; exact absurd h1 (by simp [Bind.bind, Except.bind])
              | ok t0 =>
                  rw [hg1, except_bind_ok] at h1
                  cases hw : wrapIter t0 with
                  | error e => rw [hw] at h1; exact absurd h1 (by simp [Bind.bind, Except.bind])
                  | ok ts =>
                      rw [hw, except_bind_ok] at h1
                      rcases tradesLoop_sound ts [] a1 h1 a hm1 with h0 | hex
                      · exact absurd h0 (List.not_mem_nil a)
                      · exact Or.inl hex
            · exact Or.inr (Or.inl ⟨f, hf⟩)
          · exact Or.inr (Or.inr ⟨bs, f, hf⟩)

/-! ### Counterexample theorems -/

/-- Claim C1, counterexample: with both a structured TransUnion bundle score
(`"700"`) and a `scoreOverride` entry (`"640"`) supplied, the canonical
report's TransUnion score is the bundle value, not the override — the
override initializes the map and the structured pass then overwrites it. -/
theorem c1_cex :
    (normalize_report (scoreOnlyRaw [scoreComp "TUCVantageScoreV6" (J.str "700")]) ovTU).toOption.map
        (fun r => jLookup r.scores "TransUnion") = some (some (J.str "700")) ∧
      ("700" : String) ≠ "640" :=
  ⟨rfl, by decide⟩

/-- Claim C2, counterexample: two primary trades sharing the full dedup key
(masked number, institution name, bureau) both appear in the output — the
trades pass performs no dedup — so two distinct entries (balances 887 and
900) share the full key. -/
theorem c2_cex :
    (normalize_report c2raw []).toOption.map (fun r => r.accounts.map (fun a =>
        (acctGet a "maskedAccountNumber", instName a, acctGet a "bureau",
         acctGet a "balance"))) =
      some [(J.str "438854X", J.str "Chase Bank", J.str "TUC", J.num 887),
            (J.str "438854X", J.str "Chase Bank", J.str "TUC", J.num 900)] ∧
      (887 : ℚ) ≠ 900 :=
  ⟨rfl, by decide⟩

/-- Claim C3, counterexample: an Equifax per-bureau candidate matching the
stored TransUnion trade on number and name only — so matching no existing
entry on all three key components — is nonetheless dropped: the output keeps
one TUC entry, and on the accumulated sequence the two-component check fires
while the three-component check does not. -/
theorem c3_cex :
    (normalize_report c3raw []).toOption.map (fun r => r.accounts.map (fun a =>
        (acctGet a "maskedAccountNumber", instName a, acctGet a "bureau"))) =
      some [(J.str "438854X", J.str "Chase Bank", J.str "TUC")] ∧
    (tradesSection c3raw).toOption.map (fun a1 =>
        (isDuplicate2 a1 (J.str "438854X") (J.str "Chase Bank"),
         isDuplicate3 a1 (J.str "438854X") (J.str "Chase Bank") (J.str "EQF"))) =
      some (true, false) :=
  ⟨rfl, rfl⟩

/-- Claim C4, counterexample: a JSON-shaped input whose
`credit_report_json` is a number makes `normalize_report` raise
`AttributeError` (at the unguarded fallback-employer access), so the
function does not return a canonical report on every JSON-shaped input. -/
theorem c4_cex : normalize_report c4raw [] = Except.error PyErr.attributeError := rfl

/-- Claim C5, counterexample: a per-bureau-report record with neither
creditor name nor account number is not excluded — the pass appends an
account entry with null institution name and null account number. -/
theorem c5_cex :
    (normalize_report c5raw []).toOption.map (fun r => r.accounts.map (fun a =>
        (instName a, acctGet a "account_number", acctGet a "bureau"))) =
      some [(J.null, J.null, J.str "TUC")] := rfl

/-- Claim C6, counterexample: a bundle-partition record whose post-trim
dedup key equals the primary trade's key (the raw account number carries
surrounding spaces) is appended anyway — the dedup compares the raw
candidate against the stored trimmed value — leaving two entries for the
key instead of exactly one. -/
theorem c6_cex :
    (normalize_report c6raw []).toOption.map (fun r => r.accounts.map (fun a =>
        (acctGet a "maskedAccountNumber", instName a, acctGet a "bureau"))) =
      some [(J.str "438854X", J.str "Chase Bank", J.str "TUC"),
            (J.str "438854X", J.str "Chase Bank", J.str "TUC")] := rfl

/-- Claim C7, counterexample: a trade whose balance amount is the JSON
number zero — which coerces to zero, not a failure — still gets a null
legacy balance, because the truthiness guard `if current_balance` treats
numeric zero as absent. -/
theorem c7_cex :
    (normalize_report c7raw []).toOption.map (fun r => r.accounts.map (fun a =>
        (acctGet a "balance", acctGet a "currentBalanceAmount"))) =
      some [(J.null, J.str "0")] ∧
    safe_number (J.num 0) = J.num 0 :=
  ⟨rfl, rfl⟩

/-- Claim C8, counterexample: a per-bureau-pass record carries only 21 keys
and lacks `lastReported`, `last_reported`, `times30Late` and
`paymentHistory` entirely, while a trades-pass record carries the full
32-key set — so not every output record carries the full field set. -/
theorem c8_cex :
    (normalize_report c8raw []).toOption.map (fun r => r.accounts.map (fun a =>
        (jLookup a "lastReported", jLookup a "last_reported",
         jLookup a "times30Late", jLookup a "paymentHistory", a.length))) =
      some [(none, none, none, none, 21)] ∧
    (normalize_report (tradesRaw [chaseTrade "887"]) []).toOption.map
        (fun r => r.accounts.map (fun a => ((jLookup a "lastReported").isSome, a.length))) =
      some [(true, 32)] :=
  ⟨rfl, rfl⟩

/-- Claim C10, counterexample: the borrower `Name` field supplied as a bare
object is ignored (the extractor requires a list), while the same object
in a one-element array yields the name — so the two shapes do not produce
the same canonical report. -/
theorem c10_cex :
    pinfoName (runRep (nameRaw primaryNameObj) []) = J.null ∧
    pinfoName (runRep (nameRaw (J.arr [primaryNameObj])) []) = J.str "JOHN DOE" ∧
    J.null ≠ J.str "JOHN DOE" :=
  ⟨rfl, rfl, fun h => nomatch h⟩

/-! ### Amended claim theorems -/

/-- Claim C5, amended: the bundle-partition pass silently excludes records
missing a creditor name or an account number — every record it emits either
was already accumulated or is a constructed partition record whose resolved
creditor name and account number were truthy.  (The per-bureau pass lacks
this guard; see the counterexample.) -/
theorem c5_amended (tl : J) (accts res : List Obj)
    (h : tradeLinePartitionSection tl accts = .ok res) : Pass2Sound accts res :=
  tradeLinePartitionSection_sound h

/-- Witness for `c5_amended` at a concrete partition holding one complete
record and one record with no creditor name. -/
theorem c5_amended_witness :
    tradeLinePartitionSection c5wtl [] =
      Except.ok ((tradeLinePartitionSection c5wtl []).toOption.getD []) ∧
    Pass2Sound [] ((tradeLinePartitionSection c5wtl []).toOption.getD []) :=
  ⟨rfl, c5_amended c5wtl [] _ rfl⟩

/-- Claim C7, amended: a legacy numeric field equals the float value of the
source amount whenever the amount is truthy and parses (a string `"0"`
yields `0.0`), and equals null when the amount is null, an empty or
unparseable string, or the falsy number zero; the four legacy fields of a
trades record all carry this value of their source amount. -/
theorem c7_amended (v : J) :
    (∀ s q, v = J.str s → parseFloat s = some q → legacyNumVal v = J.num q) ∧
    (v = J.null → legacyNumVal v = J.null) ∧
    (∀ s, v = J.str s → parseFloat s = none → legacyNumVal v = J.null) ∧
    (v = J.num 0 → legacyNumVal v = J.null) ∧
    (∀ q : ℚ, q ≠ 0 → v = J.num q → legacyNumVal v = J.num q) ∧
    (∀ f : TradeFields,
      acctGet (mkTradeAcct f) "balance" = legacyNumVal f.current_balance ∧
      acctGet (mkTradeAcct f) "credit_limit" = legacyNumVal f.credit_limit ∧
      acctGet (mkTradeAcct f) "high_balance" = legacyNumVal f.high_credit ∧
      acctGet (mkTradeAcct f) "payment_amount" = legacyNumVal f.payment_amount) := by
  refine ⟨?_, ?_, ?_, ?_, ?_, fun f => ⟨rfl, rfl, rfl, rfl⟩⟩
  · rintro s q rfl hp
    have hs : s ≠ "" := by
      rintro rfl
      exact absurd hp (by simp [parseFloat, pyTrim])
    simp [legacyNumVal, truthy, hs, safe_number, hp]
  · rintro rfl; rfl
  · rintro s rfl hp
    by_cases hs : s = ""
    · subst hs; rfl
    · simp [legacyNumVal, truthy, hs, safe_number, hp]
  · rintro rfl; rfl
  · rintro q hq rfl
    simp [legacyNumVal, truthy, hq, safe_number]

/-- Witness for `c7_amended`: the string `"0"` parses and yields `0.0`,
while the JSON number zero yields null. -/
theorem c7_amended_witness :
    parseFloat "0" = some 0 ∧ legacyNumVal (J.str "0") = J.num 0 ∧
    legacyNumVal (J.num 0) = J.null :=
  ⟨rfl, (c7_amended (J.str "0")).1 "0" 0 rfl rfl,
   (c7_amended (J.num 0)).2.2.2.1 rfl⟩

theorem mirrorOk_mkTradeAcct (f : TradeFields) : mirrorOkB (mkTradeAcct f) = true := by
  show (optSame (some (safe_string f.account_number)) (some (safe_string f.account_number)) &&
        optSame (some (safe_string f.account_status)) (some (safe_string f.account_status)) &&
        optSame (some (safe_string f.account_type)) (some (safe_string f.account_type)) &&
        optSame (some (safe_string f.open_date)) (some (safe_string f.open_date)) &&
        optSame (some (safe_string f.closed_date)) (some (safe_string f.closed_date)) &&
        optSame (some (safe_string f.last_reported)) (some (safe_string f.last_reported)) &&
        optSame (some (safe_string f.account_age)) (some (safe_string f.account_age)) &&
        optSame (some (safe_string f.account_status)) (some (safe_string f.account_status))) = true
  simp [optSame, pyEq_safe_refl]

theorem mirrorOk_mkPartitionAcct (f : PartFields) : mirrorOkB (mkPartitionAcct f) = true := by
  show (optSame (some (safe_string f.account_number)) (some (safe_string f.account_number)) &&
        optSame (some (safe_string f.account_status)) (some (safe_string f.account_status)) &&
        optSame (some (safe_string f.account_type)) (some (safe_string f.account_type)) &&
        optSame (some (safe_string f.open_date)) (some (safe_string f.open_date)) &&
        optSame (some (safe_string f.close_date)) (some (safe_string f.close_date)) &&
        optSame (some (safe_string f.last_reported)) (some (safe_string f.last_reported)) &&
        optSame (some J.null) (some J.null) &&
        optSame (some (safe_string f.account_status)) (some (safe_string f.account_status))) = true
  simp [optSame, pyEq_safe_refl, pyEq]

theorem mirrorOk_mkBureauAcct (bs : String) (f : BureauFields) :
    mirrorOkB (mkBureauAcct bs f) = true := by
  show (optSame (some (safe_string f.account_number)) (some (safe_string f.account_number)) &&
        optSame (some (safe_string f.account_status)) (some (safe_string f.account_status)) &&
        optSame (some (safe_string f.account_type)) (some (safe_string f.account_type)) &&
        optSame (some (safe_string f.open_date)) (some (safe_string f.open_date)) &&
        optSame (some (safe_string f.close_date)) (some (safe_string f.close_date)) &&
        optSame none none &&
        optSame none none &&
        optSame (some (safe_string f.account_status)) (some (safe_string f.account_status))) = true
  simp [optSame, pyEq_safe_refl]

/-- Claim C8, amended: every output account record satisfies the snake-case
mirror property for the copied field pairs (absent counterparts absent
together, e.g. in per-bureau records), and the trades and partition passes
emit the same full key set. -/
theorem c8_amended (raw scores : Obj) (r : Report)
    (h : normalize_report raw scores = .ok r) :
    MirrorAll r.accounts ∧
    ∀ (f : TradeFields) (g : PartFields),
      (mkTradeAcct f).map Prod.fst = (mkPartitionAcct g).map Prod.fst := by
  refine ⟨?_, fun f g => rfl⟩
  intro a ha
  obtain ⟨tlbr, pinfo, sc, a3, i3, prs, e2, _, _, _, h4, _, _, _, hr⟩ :=
    normalize_report_inv h
  rw [hr] at ha
  rcases accountsStep_sound h4 a ha with ⟨f, rfl⟩ | ⟨f, rfl⟩ | ⟨bs, f, rfl⟩
  · exact mirrorOk_mkTradeAcct f
  · exact mirrorOk_mkPartitionAcct f
  · exact mirrorOk_mkBureauAcct bs f

/-- Witness for `c8_amended` at an input exercising all three passes. -/
theorem c8_amended_witness :
    normalize_report richRaw [] = Except.ok (runRep richRaw []) ∧
    MirrorAll (runRep richRaw []).accounts :=
  ⟨rfl, (c8_amended richRaw [] (runRep richRaw []) rfl).1⟩

theorem except_pure_bind {α β : Type} (a : α) (f : α → Except PyErr β) :
    ((pure a : Except PyErr α) >>= f) = f a := rfl

/-- Claim C1, amended: the structured bundle score overwrites the override —
for every override mapping and every truthy structured TransUnion score `v`,
a document whose bundle carries only that score component yields `v` as the
TransUnion entry of the canonical scores, whatever the override said. -/
theorem c1_amended (ov : Obj) (v : J) (hv : truthy v = true) :
    (normalize_report (scoreOnlyRaw [scoreComp "TUCVantageScoreV6" v]) ov).toOption.map
        (fun r => jLookup r.scores "TransUnion") = some (some v) := by
  have hloop : scoresCompLoop [scoreComp "TUCVantageScoreV6" v] ov =
      Except.ok (dictSet ov "TransUnion" v) := by
    unfold scoresCompLoop
    simp only [show pyGet (scoreComp "TUCVantageScoreV6" v) "Type" =
          Except.ok (J.str "TUCVantageScoreV6") from rfl,
        show pyGet (scoreComp "TUCVantageScoreV6" v) "CreditScoreType" =
          Except.ok (J.obj [("riskScore", v)]) from rfl,
        except_bind_ok, except_pure_bind,
        show pyOr (J.obj [("riskScore", v)]) (J.obj []) = J.obj [("riskScore", v)] from rfl,
        show pyGet (J.obj [("riskScore", v)]) "riskScore" = Except.ok v from rfl,
        hv, show truthy (J.str "TUCVantageScoreV6") = true from rfl,
        Bool.and_self, if_true, Bool.true_and, Bool.and_true,
        show scoreBureauKey (J.str "TUCVantageScoreV6") =
          Except.ok (some "TransUnion") from rfl]
    rfl
  have hbp : scoresBundlePass
      [("BundleComponents", J.obj [("BundleComponent",
         J.arr [scoreComp "TUCVantageScoreV6" v])])] ov =
      Except.ok (dictSet ov "TransUnion" v) := by
    unfold scoresBundlePass
    simp only [show pyGetD (pyOr ((jLookup
          [("BundleComponents", J.obj [("BundleComponent",
             J.arr [scoreComp "TUCVantageScoreV6" v])])] "BundleComponents").getD J.null)
          (J.obj [])) "BundleComponent" (J.arr []) =
        Except.ok (J.arr [scoreComp "TUCVantageScoreV6" v]) from rfl,
        show wrapIter (J.arr [scoreComp "TUCVantageScoreV6" v]) =
          Except.ok [scoreComp "TUCVantageScoreV6" v] from rfl,
        except_bind_ok]
    exact hloop
  have hss : scoresStep (rawCr (scoreOnlyRaw [scoreComp "TUCVantageScoreV6" v]))
      (rawRrs (scoreOnlyRaw [scoreComp "TUCVantageScoreV6" v])) J.null ov =
      Except.ok (dictSet ov "TransUnion" v) := by
    show (do
      let s1 ← scoresBundlePass
        [("BundleComponents", J.obj [("BundleComponent",
           J.arr [scoreComp "TUCVantageScoreV6" v])])] ov
      pure (if truthy (rawRrs (scoreOnlyRaw [scoreComp "TUCVantageScoreV6" v])) &&
              truthy J.null then
              creditScorePass J.null s1 else s1)) =
      Except.ok (dictSet ov "TransUnion" v)
    rw [hbp, except_bind_ok]
    rfl
  have hmain : normalize_report (scoreOnlyRaw [scoreComp "TUCVantageScoreV6" v]) ov =
      Except.ok ⟨J.obj [], dictSet ov "TransUnion" v, [], [], [], []⟩ := by
    unfold normalize_report
    simp only [show resolvedTlBr (scoreOnlyRaw [scoreComp "TUCVantageScoreV6" v]) =
          Except.ok (J.null, J.null) from rfl,
        except_bind_ok,
        show pinfoStep (rawCr (scoreOnlyRaw [scoreComp "TUCVantageScoreV6" v]))
          J.null = Except.ok (J.obj []) from rfl,
        hss,
        show accountsStep (scoreOnlyRaw [scoreComp "TUCVantageScoreV6" v])
          J.null = Except.ok [] from rfl,
        show inquiriesStep (scoreOnlyRaw [scoreComp "TUCVantageScoreV6" v])
          J.null J.null = Except.ok [] from rfl,
        show publicRecordsSection (scoreOnlyRaw [scoreComp "TUCVantageScoreV6" v]) =
          Except.ok [] from rfl,
        show employersStep (rawCr (scoreOnlyRaw [scoreComp "TUCVantageScoreV6" v]))
          J.null = Except.ok [] from rfl]
    rfl
  rw [hmain]
  simp [Except.toOption, jLookup_dictSet_self]

/-- Witness for `c1_amended`: override `"640"`, bundle score `"700"`. -/
theorem c1_amended_witness :
    truthy (J.str "700") = true ∧
    (normalize_report (scoreOnlyRaw [scoreComp "TUCVantageScoreV6" (J.str "700")]) ovTU).toOption.map
        (fun r => jLookup r.scores "TransUnion") = some (some (J.str "700")) :=
  ⟨rfl, c1_amended ovTU (J.str "700") rfl⟩

theorem pyGetD_ok {v : J} {k : String} {d x : J} (h : pyGetD v k d = .ok x) :
    ∃ kvs, v = J.obj kvs ∧ x = (jLookup kvs k).getD d := by
  cases v with
  | obj kvs =>
      refine ⟨kvs, rfl, ?_⟩
      simpa [pyGetD] using h.symm
  | null => simp [pyGetD] at h
  | bool b => simp [pyGetD] at h
  | num q => simp [pyGetD] at h
  | str s => simp [pyGetD] at h
  | arr l => simp [pyGetD] at h

theorem pairsDistinctB_append (accts : List Obj) (x : Obj) :
    pairsDistinctB (accts ++ [x]) =
      (pairsDistinctB accts && accts.all (fun a => !pairEqB a x)) := by
  induction accts with
  | nil => simp [pairsDistinctB]
  | cons h rest ih =>
      simp [pairsDistinctB, ih, List.all_append, Bool.and_assoc, Bool.and_comm,
        Bool.and_left_comm]

theorem keysDistinctB_append (accts : List Obj) (x : Obj) :
    keysDistinctB (accts ++ [x]) =
      (keysDistinctB accts && accts.all (fun a => !keyEqB a x)) := by
  induction accts with
  | nil => simp [keysDistinctB]
  | cons h rest ih =>
      simp [keysDistinctB, ih, List.all_append, Bool.and_assoc, Bool.and_comm,
        Bool.and_left_comm]

theorem isDuplicate2_false_pairEq {accts : List Obj} {f : BureauFields} (bs : String)
    (hfa : fixedJ f.account_number = true) (hfc : fixedJ f.creditor_name = true)
    (hdup : isDuplicate2 accts f.account_number f.creditor_name = false) :
    accts.all (fun a => !pairEqB a (mkBureauAcct bs f)) = true := by
  rw [List.all_eq_true]
  intro a ha
  unfold isDuplicate2 at hdup
  rw [List.any_eq_false] at hdup
  have h1 := hdup a ha
  show (!(pyEq (acctGet a "maskedAccountNumber") (safe_string f.account_number) &&
         pyEq (instName a) (safe_string f.creditor_name))) = true
  rw [fixedJ_eq hfa, fixedJ_eq hfc, Bool.not_eq_true']
  exact Bool.eq_false_iff.mpr h1

theorem isDuplicate2_false_keyEq {accts : List Obj} {f : BureauFields} (bs : String)
    (hfa : fixedJ f.account_number = true) (hfc : fixedJ f.creditor_name = true)
    (hdup : isDuplicate2 accts f.account_number f.creditor_name = false) :
    accts.all (fun a => !keyEqB a (mkBureauAcct bs f)) = true := by
  rw [List.all_eq_true]
  intro a ha
  have h2 := (List.all_eq_true.mp (isDuplicate2_false_pairEq bs hfa hfc hdup)) a ha
  show (!(pyEq (acctGet a "maskedAccountNumber") (safe_string f.account_number) &&
          pyEq (instName a) (safe_string f.creditor_name) &&
          pyEq (acctGet a "bureau") (safe_string (J.str bs)))) = true
  have h3 : (pyEq (acctGet a "maskedAccountNumber") (safe_string f.account_number) &&
       pyEq (instName a) (safe_string f.creditor_name)) = false := by
    rw [Bool.not_eq_true'] at h2
    exact h2
  cases hx : pyEq (acctGet a "maskedAccountNumber") (safe_string f.account_number) <;>
    cases hy : pyEq (instName a) (safe_string f.creditor_name) <;>
      simp_all

theorem bureauTradelines_pairs (bs : String) :
    ∀ ts accts, (∀ t ∈ ts, fixedBureauTradeline t = true) →
      pairsDistinctB accts = true →
      pairsDistinctB (resOf (bureauTradelines bs ts accts)) = true := by
  intro ts
  induction ts with
  | nil => intro accts _ hd; exact hd
  | cons t rest ih =>
      intro accts hfix hd
      simp only [bureauTradelines]
      cases hr : resolveBureauTradeline t with
      | error e => simp only [orKeep, Bind.bind, Except.bind, resOf]; exact hd
      | ok f =>
          simp only [orKeep, Bind.bind, Except.bind]
          have hf := hfix t (List.mem_cons_self t rest)
          rw [fixedBureauTradeline, hr] at hf
          have hrest := fun t' ht' => hfix t' (List.mem_cons_of_mem _ ht')
          by_cases hdup : isDuplicate2 accts f.account_number f.creditor_name = true
          · simp only [hdup, Bool.not_true, Bool.false_eq_true, if_false]
            exact ih accts hrest hd
          · rw [Bool.not_eq_true] at hdup
            simp only [hdup, Bool.not_false, if_true]
            refine ih _ hrest ?_
            rw [pairsDistinctB_append, Bool.and_eq_true]
            exact ⟨hd, isDuplicate2_false_pairEq bs
              ((Bool.and_eq_true _ _).mp hf).1 ((Bool.and_eq_true _ _).mp hf).2 hdup⟩

theorem bureauTradelines_keys (bs : String) :
    ∀ ts accts, (∀ t ∈ ts, fixedBureauTradeline t = true) →
      keysDistinctB accts = true →
      keysDistinctB (resOf (bureauTradelines bs ts accts)) = true := by
  intro ts
  induction ts with
  | nil => intro accts _ hd; exact hd
  | cons t rest ih =>
      intro accts hfix hd
      simp only [bureauTradelines]
      cases hr : resolveBureauTradeline t with
      | error e => simp only [orKeep, Bind.bind, Except.bind, resOf]; exact hd
      | ok f =>
          simp only [orKeep, Bind.bind, Except.bind]
          have hf := hfix t (List.mem_cons_self t rest)
          rw [fixedBureauTradeline, hr] at hf
          have hrest := fun t' ht' => hfix t' (List.mem_cons_of_mem _ ht')
          by_cases hdup : isDuplicate2 accts f.account_number f.creditor_name = true
          · simp only [hdup, Bool.not_true, Bool.false_eq_true, if_false]
            exact ih accts hrest hd
          · rw [Bool.not_eq_true] at hdup
            simp only [hdup, Bool.not_false, if_true]
            refine ih _ hrest ?_
            rw [keysDistinctB_append, Bool.and_eq_true]
            exact ⟨hd, isDuplicate2_false_keyEq bs
              ((Bool.and_eq_true _ _).mp hf).1 ((Bool.and_eq_true _ _).mp hf).2 hdup⟩

theorem fixedBureauComp_tls {kvs rdk : List (String × J)} {tls : List J}
    (hty : (pyEq ((jLookup kvs "Type").getD J.null) (J.str "TUCReportV6") ||
            pyEq ((jLookup kvs "Type").getD J.null) (J.str "EQFReportV6") ||
            pyEq ((jLookup kvs "Type").getD J.null) (J.str "EXPReportV6")) = true)
    (hrd : (jLookup kvs "CreditReportType").getD (J.obj []) = J.obj rdk)
    (hw : wrapIter (pyOr ((jLookup rdk "Tradeline").getD (J.arr []))
            (pyOr ((jLookup rdk "Trade").getD (J.arr []))
                  ((jLookup rdk "Account").getD (J.arr [])))) = .ok tls)
    (hc : fixedBureauComp (J.obj kvs) = true) :
    ∀ t ∈ tls, fixedBureauTradeline t = true := by
  rw [← List.all_eq_true]
  simp only [fixedBureauComp, hrd, hty, if_true, hw] at hc
  exact hc

theorem fixedPass3_all {rrs data : J} {kvs b2 : List (String × J)} {comps : List J}
    (ht : truthy rrs = true) (hl : loads rrs = .ok data) (hd : data = J.obj kvs)
    (hbc : (jLookup kvs "BundleComponents").getD (J.obj []) = J.obj b2)
    (hw : wrapIter ((jLookup b2 "BundleComponent").getD (J.arr [])) = .ok comps)
    (hfix : fixedPass3 rrs = true) :
    ∀ c ∈ comps, fixedBureauComp c = true := by
  rw [← List.all_eq_true]
  unfold fixedPass3 at hfix
  rw [if_pos ht, hl, hd] at hfix
  simp only [hbc, hw] at hfix
  exact hfix

theorem bureauComps_pres (P : List Obj → Bool)
    (hP : ∀ bs ts accts, (∀ t ∈ ts, fixedBureauTradeline t = true) → P accts = true →
          P (resOf (bureauTradelines bs ts accts)) = true) :
    ∀ comps accts, (∀ c ∈ comps, fixedBureauComp c = true) → P accts = true →
      P (resOf (bureauComps comps accts)) = true := by
  intro comps
  induction comps with
  | nil => intro accts _ hp; exact hp
  | cons comp rest ih =>
      intro accts hfix hp
      have hrest := fun c hc => hfix c (List.mem_cons_of_mem _ hc)
      have hcomp := hfix comp (List.mem_cons_self comp rest)
      simp only [bureauComps]
      cases hg : pyGet comp "Type" with
      | error e => exact hp
      | ok ct =>
          simp only [orKeep, Bind.bind, Except.bind]
          obtain ⟨kvs, hkv, hct⟩ := pyGetD_ok hg
          by_cases hty : (pyEq ct (J.str "TUCReportV6") || pyEq ct (J.str "EQFReportV6") ||
              pyEq ct (J.str "EXPReportV6")) = true
          · rw [if_pos hty]
            cases h1 : pyGetD comp "CreditReportType" (J.obj []) with
            | error e => exact hp
            | ok rd =>
            simp only [orKeep, Bind.bind, Except.bind]
            obtain ⟨kvs1, hkv1, hrd⟩ := pyGetD_ok h1
            have hkk : kvs1 = kvs := by
              have := hkv.symm.trans hkv1
              injection this with h; exact h.symm
            cases h2 : pyGetD rd "Tradeline" (J.arr []) with
            | error e => exact hp
            | ok t1 =>
            simp only [orKeep, Bind.bind, Except.bind]
            obtain ⟨rdk, hrdk, ht1⟩ := pyGetD_ok h2
            cases h3 : pyGetD rd "Trade" (J.arr []) with
            | error e => exact hp
            | ok t2 =>
            simp only [orKeep, Bind.bind, Except.bind]
            obtain ⟨rdk2, hrdk2, ht2⟩ := pyGetD_ok h3
            have hk2 : rdk2 = rdk := by
              have := hrdk.symm.trans hrdk2
              injection this with h; exact h.symm
            cases h4 : pyGetD rd "Account" (J.arr []) with
            | error e => exact hp
            | ok t3 =>
            simp only [orKeep, Bind.bind, Except.bind]
            obtain ⟨rdk3, hrdk3, ht3⟩ := pyGetD_ok h4
            have hk3 : rdk3 = rdk := by
              have := hrdk.symm.trans hrdk3
              injection this with h; exact h.symm
            cases h5 : wrapIter (pyOr t1 (pyOr t2 t3)) with
            | error e => exact hp
            | ok tls =>
            simp only [orKeep, Bind.bind, Except.bind]
            have htls : ∀ t ∈ tls, fixedBureauTradeline t = true := by
              refine @fixedBureauComp_tls kvs rdk tls ?_ ?_ ?_ ?_
              · rw [← hct]; exact hty
              · rw [hkk] at hrd
                rw [← hrd]; exact hrdk
              · rw [hk2] at ht2
                rw [hk3] at ht3
                rw [← ht1, ← ht2, ← ht3]; exact h5
              · rw [hkv] at hcomp; exact hcomp
            cases h6 : bureauTradelines (bureauSymbolOf ct) tls accts with
            | error a2 =>
                have := hP (bureauSymbolOf ct) tls accts htls hp
                rw [h6] at this
                exact this
            | ok a2 =>
                have := hP (bureauSymbolOf ct) tls accts htls hp
                rw [h6] at this
                exact ih a2 hrest this
          · rw [if_neg hty]
            exact ih accts hrest hp

theorem bureauReportsSection_pres (P : List Obj → Bool)
    (hP : ∀ bs ts accts, (∀ t ∈ ts, fixedBureauTradeline t = true) → P accts = true →
          P (resOf (bureauTradelines bs ts accts)) = true)
    {rrs : J} {accts : List Obj}
    (hfix : fixedPass3 rrs = true) (hp : P accts = true) :
    P (bureauReportsSection rrs accts) = true := by
  unfold bureauReportsSection
  by_cases ht : truthy rrs = true
  · rw [if_pos ht]
    cases hl : loads rrs with
    | error e => exact hp
    | ok data =>
        simp only [orKeep, Bind.bind, Except.bind]
        cases hd : data with
        | obj kvs =>
            simp only [pyGetD, orKeep, Bind.bind, Except.bind]
            cases hbc : (jLookup kvs "BundleComponents").getD (J.obj []) with
            | obj b2 =>
                cases hw : wrapIter ((jLookup b2 "BundleComponent").getD (J.arr [])) with
                | error e =>
                    simp only [hw, orKeep, Bind.bind, Except.bind]
                    exact hp
                | ok comps =>
                    simp only [hw, orKeep, Bind.bind, Except.bind]
                    have hres := bureauComps_pres P hP comps accts
                      (fixedPass3_all ht hl hd hbc hw hfix) hp
                    cases h6 : bureauComps comps accts with
                    | ok a2 => rw [h6] at hres; exact hres
                    | error a2 => rw [h6] at hres; exact hres
            | null => exact hp
            | bool b => exact hp
            | num q => exact hp
            | str s => exact hp
            | arr l => exact hp
        | null => exact hp
        | bool b => exact hp
        | num q => exact hp
        | str s => exact hp
        | arr l => exact hp
  · rw [if_neg ht]
    exact hp

/-- C3 (amended): the per-bureau-report pass compares only the two key
components masked account number and institution name (never the bureau
symbol), so whenever every key field it resolves is a fixed point of
`safe_string`, the pass preserves pairwise distinctness of the
two-component sub-key over the accumulated account sequence. -/
theorem c3_amended (rrs : J) (accts : List Obj)
    (h1 : fixedPass3 rrs = true) (h2 : pairsDistinctB accts = true) :
    pairsDistinctB (bureauReportsSection rrs accts) = true :=
  bureauReportsSection_pres pairsDistinctB bureauTradelines_pairs h1 h2

/-- Witness for `c3_amended`: a TransUnion report with two distinct
tradelines, starting from the empty account sequence. -/
theorem c3_amended_witness :
    fixedPass3 (J.str c3wrrs) = true ∧ pairsDistinctB ([] : List Obj) = true ∧
    pairsDistinctB (bureauReportsSection (J.str c3wrrs) []) = true :=
  ⟨rfl, rfl, c3_amended (J.str c3wrrs) [] rfl rfl⟩

theorem isDuplicate3_false_keyEq {accts : List Obj} {f : PartFields}
    (hfa : fixedJ f.account_number = true) (hfc : fixedJ f.creditor_name = true)
    (hfb : fixedJ f.bureau_symbol = true)
    (hdup : isDuplicate3 accts f.account_number f.creditor_name f.bureau_symbol = false) :
    accts.all (fun a => !keyEqB a (mkPartitionAcct f)) = true := by
  rw [List.all_eq_true]
  intro a ha
  unfold isDuplicate3 at hdup
  rw [List.any_eq_false] at hdup
  have h1 := hdup a ha
  show (!(pyEq (acctGet a "maskedAccountNumber") (safe_string f.account_number) &&
          pyEq (instName a) (safe_string f.creditor_name) &&
          pyEq (acctGet a "bureau") (safe_string f.bureau_symbol))) = true
  rw [fixedJ_eq hfa, fixedJ_eq hfc, fixedJ_eq hfb, Bool.not_eq_true']
  exact Bool.eq_false_iff.mpr h1

theorem fixedPass2_all {tl : J} {kvs : List (String × J)} {items : List J}
    (ht : truthy tl = true) (htl : tl = J.obj kvs)
    (hw : wrapIter ((jLookup kvs "TradeLinePartition").getD (J.arr [])) = .ok items)
    (hfix : fixedPass2 tl = true) :
    ∀ it ∈ items, fixedPartItemK it = true := by
  rw [← List.all_eq_true]
  unfold fixedPass2 at hfix
  rw [if_pos ht, htl] at hfix
  simp only [hw] at hfix
  exact hfix

theorem fixedPartItemK_all {it : J} {kvs : List (String × J)} {td : J}
    (hit : it = J.obj kvs)
    (htd : (jLookup kvs "Tradeline").getD (J.obj []) = td)
    (hfix : fixedPartItemK it = true) :
    ∀ t ∈ tradelinesOf td, fixedPartCand it t = true := by
  rw [← List.all_eq_true]
  unfold fixedPartItemK at hfix
  rw [hit] at hfix ⊢
  simp only [htd] at hfix
  exact hfix

theorem partTradelineLoop_keys (pitem : J) :
    ∀ ts accts res, partTradelineLoop pitem ts accts = .ok res →
      (∀ t ∈ ts, fixedPartCand pitem t = true) →
      keysDistinctB accts = true → keysDistinctB res = true := by
  intro ts
  induction ts with
  | nil =>
      intro accts res h _ hd
      simp only [partTradelineLoop, pure, Except.pure, Except.ok.injEq] at h
      exact h ▸ hd
  | cons t rest ih =>
      intro accts res h hfix hd
      have hrest := fun t' ht' => hfix t' (List.mem_cons_of_mem _ ht')
      cases t with
      | obj kvs =>
          simp only [partTradelineLoop] at h
          cases hr : resolvePartTradeline pitem (J.obj kvs) with
          | error e => rw [hr] at h; exact absurd h (by simp [Bind.bind, Except.bind])
          | ok f =>
              rw [hr, except_bind_ok] at h
              have hf := hfix _ (List.mem_cons_self _ _)
              rw [fixedPartCand, hr] at hf
              by_cases hc : (!isDuplicate3 accts f.account_number f.creditor_name
                    f.bureau_symbol &&
                  truthy f.creditor_name && truthy f.account_number) = true
              · rw [if_pos hc] at h
                refine ih _ _ h hrest ?_
                rw [keysDistinctB_append, Bool.and_eq_true]
                have hdup : isDuplicate3 accts f.account_number f.creditor_name
                    f.bureau_symbol = false := by
                  have hb := ((Bool.and_eq_true _ _).mp ((Bool.and_eq_true _ _).mp hc).1).1
                  rw [Bool.not_eq_true'] at hb
                  exact hb
                have hfa := ((Bool.and_eq_true _ _).mp ((Bool.and_eq_true _ _).mp hf).1).1
                have hfc := ((Bool.and_eq_true _ _).mp ((Bool.and_eq_true _ _).mp hf).1).2
                have hfb := ((Bool.and_eq_true _ _).mp hf).2
                exact ⟨hd, isDuplicate3_false_keyEq hfa hfc hfb hdup⟩
              · rw [if_neg hc] at h
                exact ih _ _ h hrest hd
      | null => exact ih _ _ h hrest hd
      | bool b => exact ih _ _ h hrest hd
      | num q => exact ih _ _ h hrest hd
      | str s => exact ih _ _ h hrest hd
      | arr l => exact ih _ _ h hrest hd

theorem partitionItems_keys :
    ∀ items accts res, partitionItems items accts = .ok res →
      (∀ it ∈ items, fixedPartItemK it = true) →
      keysDistinctB accts = true → keysDistinctB res = true := by
  intro items
  induction items with
  | nil =>
      intro accts res h _ hd
      simp only [partitionItems, pure, Except.pure, Except.ok.injEq] at h
      exact h ▸ hd
  | cons it rest ih =>
      intro accts res h hfix hd
      have hrest := fun it' h' => hfix it' (List.mem_cons_of_mem _ h')
      simp only [partitionItems] at h
      cases hg : pyGetD it "Tradeline" (J.obj []) with
      | error e => rw [hg] at h; exact absurd h (by simp [Bind.bind, Except.bind])
      | ok td =>
          rw [hg, except_bind_ok] at h
          obtain ⟨kvs, hkv, htd⟩ := pyGetD_ok hg
          cases hl : partTradelineLoop it (tradelinesOf td) accts with
          | error e => rw [hl] at h; exact absurd h (by simp [Bind.bind, Except.bind])
          | ok mid =>
              rw [hl, except_bind_ok] at h
              refine ih _ _ h hrest ?_
              exact partTradelineLoop_keys it _ _ _ hl
                (fixedPartItemK_all hkv htd.symm (hfix it (List.mem_cons_self _ _))) hd

theorem tradeLinePartitionSection_keys {tl : J} {accts res : List Obj}
    (h : tradeLinePartitionSection tl accts = .ok res)
    (hfix : fixedPass2 tl = true) (hd : keysDistinctB accts = true) :
    keysDistinctB res = true := by
  unfold tradeLinePartitionSection at h
  by_cases ht : truthy tl = true
  · rw [if_pos ht] at h
    cases hg : pyGetD tl "TradeLinePartition" (J.arr []) with
    | error e => rw [hg] at h; exact absurd h (by simp [Bind.bind, Except.bind])
    | ok tlp0 =>
        rw [hg, except_bind_ok] at h
        obtain ⟨kvs, hkv, htlp⟩ := pyGetD_ok hg
        cases hw : wrapIter tlp0 with
        | error e => rw [hw] at h; exact absurd h (by simp [Bind.bind, Except.bind])
        | ok items =>
            rw [hw, except_bind_ok] at h
            refine partitionItems_keys items accts res h ?_ hd
            refine fixedPass2_all ht hkv ?_ hfix
            rw [← htlp]
            exact hw
  · rw [if_neg ht] at h
    simp only [pure, Except.pure, Except.ok.injEq] at h
    exact h ▸ hd

/-- C2 (amended): the dedup invariant holds conditionally — when every key
field the two bundle passes resolve is a fixed point of `safe_string` and
the primary trade list itself contributes no two records sharing the full
(maskedAccountNumber, institution name, bureau) key, no two distinct output
account entries share the full key. -/
theorem c2_amended (raw scores : Obj)
    (hfk : FixedBundleKeys raw = true) (hd1 : tradesDistinct raw = true) :
    reportKeysDistinct raw scores = true := by
  unfold reportKeysDistinct
  cases hn : normalize_report raw scores with
  | error e => rfl
  | ok r =>
      obtain ⟨tlbr, pinfo, sc, a3, i3, prs, e2, h1, h2, h3, h4, h5, h6, h7, hr⟩ :=
        normalize_report_inv hn
      unfold FixedBundleKeys at hfk
      rw [h1] at hfk
      have hp2 : fixedPass2 tlbr.1 = true := ((Bool.and_eq_true _ _).mp hfk).1
      have hp3 : fixedPass3 (rawRrs raw) = true := ((Bool.and_eq_true _ _).mp hfk).2
      unfold accountsStep at h4
      cases hta : tradesSection raw with
      | error e => rw [hta] at h4; exact absurd h4 (by simp [Bind.bind, Except.bind])
      | ok a1 =>
          rw [hta, except_bind_ok] at h4
          have hda1 : keysDistinctB a1 = true := by
            unfold tradesDistinct at hd1
            rw [hta] at hd1
            exact hd1
          cases htp : tradeLinePartitionSection tlbr.1 a1 with
          | error e => rw [htp] at h4; exact absurd h4 (by simp [Bind.bind, Except.bind])
          | ok a2 =>
              rw [htp, except_bind_ok] at h4
              simp only [pure, Except.pure, Except.ok.injEq] at h4
              have hda2 := tradeLinePartitionSection_keys htp hp2 hda1
              have hda3 := bureauReportsSection_pres keysDistinctB
                bureauTradelines_keys hp3 hda2
              rw [h4] at hda3
              rw [hr]
              exact hda3

/-- Witness for `c2_amended`: one Chase trade, a Cap One partition candidate
and a Chase bureau tradeline; all key fields trimmed, trades output
distinct. -/
theorem c2_amended_witness :
    FixedBundleKeys c2wraw = true ∧ tradesDistinct c2wraw = true ∧
    reportKeysDistinct c2wraw [] = true :=
  ⟨rfl, rfl, c2_amended c2wraw [] rfl rfl⟩

theorem nsB_shape {v : J} (h : nsB v = true) : v = J.null ∨ ∃ s, v = J.str s := by
  cases v with
  | null => exact Or.inl rfl
  | str s => exact Or.inr ⟨s, rfl⟩
  | bool b => simp [nsB] at h
  | num q => simp [nsB] at h
  | arr l => simp [nsB] at h
  | obj l => simp [nsB] at h

theorem nsB_safe_string (v : J) : nsB (safe_string v) = true := by
  rcases safe_string_shape v with h | ⟨s, h⟩ <;> rw [h] <;> rfl

theorem pyEq_ns_refl {v : J} (h : v = J.null ∨ ∃ s, v = J.str s) : pyEq v v = true :=
  (pyEq_ns_iff h h).mpr rfl

theorem keyShaped_mkTrade (f : TradeFields) : keyShapedB (mkTradeAcct f) = true := by
  show (nsB (safe_string f.account_number) && nsB (safe_string f.institution_name) &&
        nsB (safe_string f.bureau)) = true
  simp [nsB_safe_string]

theorem keyShaped_mkPartition (f : PartFields) : keyShapedB (mkPartitionAcct f) = true := by
  show (nsB (safe_string f.account_number) && nsB (safe_string f.creditor_name) &&
        nsB (safe_string f.bureau_symbol)) = true
  simp [nsB_safe_string]

theorem keyShaped_mkBureau (bs : String) (f : BureauFields) :
    keyShapedB (mkBureauAcct bs f) = true := by
  show (nsB (safe_string f.account_number) && nsB (safe_string f.creditor_name) &&
        nsB (safe_string (J.str bs))) = true
  simp [nsB_safe_string]

theorem matchKey_forces_dup3 {n i b : J}
    (hn : nsB n = true) (hi : nsB i = true) (hb : nsB b = true)
    {accts : List Obj} {f : PartFields}
    (hsh : ∀ a ∈ accts, keyShapedB a = true)
    (hany : accts.any (matchKeyB n i b) = true)
    (hfa : fixedJ f.account_number = true) (hfc : fixedJ f.creditor_name = true)
    (hfb : fixedJ f.bureau_symbol = true)
    (hmk : matchKeyB n i b (mkPartitionAcct f) = true) :
    isDuplicate3 accts f.account_number f.creditor_name f.bureau_symbol = true := by
  obtain ⟨e, he, hme⟩ := List.any_eq_true.mp hany
  have hmk2 : (pyEq (safe_string f.account_number) n &&
      pyEq (safe_string f.creditor_name) i &&
      pyEq (safe_string f.bureau_symbol) b) = true := hmk
  rw [fixedJ_eq hfa, fixedJ_eq hfc, fixedJ_eq hfb] at hmk2
  have e1 : f.account_number = n :=
    (pyEq_ns_iff (fixedJ_shape hfa) (nsB_shape hn)).mp
      ((Bool.and_eq_true _ _).mp ((Bool.and_eq_true _ _).mp hmk2).1).1
  have e2 : f.creditor_name = i :=
    (pyEq_ns_iff (fixedJ_shape hfc) (nsB_shape hi)).mp
      ((Bool.and_eq_true _ _).mp ((Bool.and_eq_true _ _).mp hmk2).1).2
  have e3 : f.bureau_symbol = b :=
    (pyEq_ns_iff (fixedJ_shape hfb) (nsB_shape hb)).mp
      ((Bool.and_eq_true _ _).mp hmk2).2
  have hshe : (nsB (acctGet e "maskedAccountNumber") && nsB (instName e) &&
      nsB (acctGet e "bureau")) = true := hsh e he
  unfold matchKeyB at hme
  have d1 : acctGet e "maskedAccountNumber" = n :=
    (pyEq_ns_iff
      (nsB_shape ((Bool.and_eq_true _ _).mp ((Bool.and_eq_true _ _).mp hshe).1).1)
      (nsB_shape hn)).mp
      ((Bool.and_eq_true _ _).mp ((Bool.and_eq_true _ _).mp hme).1).1
  have d2 : instName e = i :=
    (pyEq_ns_iff
      (nsB_shape ((Bool.and_eq_true _ _).mp ((Bool.and_eq_true _ _).mp hshe).1).2)
      (nsB_shape hi)).mp
      ((Bool.and_eq_true _ _).mp ((Bool.and_eq_true _ _).mp hme).1).2
  have d3 : acctGet e "bureau" = b :=
    (pyEq_ns_iff (nsB_shape ((Bool.and_eq_true _ _).mp hshe).2) (nsB_shape hb)).mp
      ((Bool.and_eq_true _ _).mp hme).2
  unfold isDuplicate3
  rw [List.any_eq_true]
  refine ⟨e, he, ?_⟩
  show (pyEq (acctGet e "maskedAccountNumber") f.account_number &&
        pyEq (instName e) f.creditor_name &&
        pyEq (acctGet e "bureau") f.bureau_symbol) = true
  rw [d1, d2, d3, e1, e2, e3]
  exact (Bool.and_eq_true _ _).mpr
    ⟨(Bool.and_eq_true _ _).mpr
      ⟨pyEq_ns_refl (nsB_shape hn), pyEq_ns_refl (nsB_shape hi)⟩,
     pyEq_ns_refl (nsB_shape hb)⟩

theorem matchKey_forces_dup2 {n i : J} (b : J)
    (hn : nsB n = true) (hi : nsB i = true)
    {accts : List Obj} {f : BureauFields} (bs : String)
    (hsh : ∀ a ∈ accts, keyShapedB a = true)
    (hany : accts.any (matchKeyB n i b) = true)
    (hfa : fixedJ f.account_number = true) (hfc : fixedJ f.creditor_name = true)
    (hmk : matchKeyB n i b (mkBureauAcct bs f) = true) :
    isDuplicate2 accts f.account_number f.creditor_name = true := by
  obtain ⟨e, he, hme⟩ := List.any_eq_true.mp hany
  have hmk2 : (pyEq (safe_string f.account_number) n &&
      pyEq (safe_string f.creditor_name) i &&
      pyEq (safe_string (J.str bs)) b) = true := hmk
  rw [fixedJ_eq hfa, fixedJ_eq hfc] at hmk2
  have e1 : f.account_number = n :=
    (pyEq_ns_iff (fixedJ_shape hfa) (nsB_shape hn)).mp
      ((Bool.and_eq_true _ _).mp ((Bool.and_eq_true _ _).mp hmk2).1).1
  have e2 : f.creditor_name = i :=
    (pyEq_ns_iff (fixedJ_shape hfc) (nsB_shape hi)).mp
      ((Bool.and_eq_true _ _).mp ((Bool.and_eq_true _ _).mp hmk2).1).2
  have hshe : (nsB (acctGet e "maskedAccountNumber") && nsB (instName e) &&
      nsB (acctGet e "bureau")) = true := hsh e he
  unfold matchKeyB at hme
  have d1 : acctGet e "maskedAccountNumber" = n :=
    (pyEq_ns_iff
      (nsB_shape ((Bool.and_eq_true _ _).mp ((Bool.and_eq_true _ _).mp hshe).1).1)
      (nsB_shape hn)).mp
      ((Bool.and_eq_true _ _).mp ((Bool.and_eq_true _ _).mp hme).1).1
  have d2 : instName e = i :=
    (pyEq_ns_iff
      (nsB_shape ((Bool.and_eq_true _ _).mp ((Bool.and_eq_true _ _).mp hshe).1).2)
      (nsB_shape hi)).mp
      ((Bool.and_eq_true _ _).mp ((Bool.and_eq_true _ _).mp hme).1).2
  unfold isDuplicate2
  rw [List.any_eq_true]
  refine ⟨e, he, ?_⟩
  show (pyEq (acctGet e "maskedAccountNumber") f.account_number &&
        pyEq (instName e) f.creditor_name) = true
  rw [d1, d2, e1, e2]
  exact (Bool.and_eq_true _ _).mpr
    ⟨pyEq_ns_refl (nsB_shape hn), pyEq_ns_refl (nsB_shape hi)⟩

theorem partTradelineLoop_filter {n i b : J}
    (hn : nsB n = true) (hi : nsB i = true) (hb : nsB b = true) (pitem : J) :
    ∀ ts accts res, partTradelineLoop pitem ts accts = .ok res →
      (∀ t ∈ ts, fixedPartCand pitem t = true) →
      (∀ a ∈ accts, keyShapedB a = true) →
      accts.any (matchKeyB n i b) = true →
      res.filter (matchKeyB n i b) = accts.filter (matchKeyB n i b) ∧
      (∀ a ∈ res, keyShapedB a = true) ∧ res.any (matchKeyB n i b) = true := by
  intro ts
  induction ts with
  | nil =>
      intro accts res h _ hsh hany
      simp only [partTradelineLoop, pure, Except.pure, Except.ok.injEq] at h
      subst h
      exact ⟨rfl, hsh, hany⟩
  | cons t rest ih =>
      intro accts res h hfix hsh hany
      have hrest := fun t' ht' => hfix t' (List.mem_cons_of_mem _ ht')
      cases t with
      | obj kvs =>
          simp only [partTradelineLoop] at h
          cases hr : resolvePartTradeline pitem (J.obj kvs) with
          | error e => rw [hr] at h; exact absurd h (by simp [Bind.bind, Except.bind])
          | ok f =>
              rw [hr, except_bind_ok] at h
              have hf := hfix _ (List.mem_cons_self _ _)
              rw [fixedPartCand, hr] at hf
              have hfa := ((Bool.and_eq_true _ _).mp ((Bool.and_eq_true _ _).mp hf).1).1
              have hfc := ((Bool.and_eq_true _ _).mp ((Bool.and_eq_true _ _).mp hf).1).2
              have hfb := ((Bool.and_eq_true _ _).mp hf).2
              by_cases hc : (!isDuplicate3 accts f.account_number f.creditor_name
                    f.bureau_symbol &&
                  truthy f.creditor_name && truthy f.account_number) = true
              · rw [if_pos hc] at h
                have hdup : isDuplicate3 accts f.account_number f.creditor_name
                    f.bureau_symbol = false := by
                  have hb2 := ((Bool.and_eq_true _ _).mp ((Bool.and_eq_true _ _).mp hc).1).1
                  rw [Bool.not_eq_true'] at hb2
                  exact hb2
                have hfalse : matchKeyB n i b (mkPartitionAcct f) = false := by
                  cases hcm : matchKeyB n i b (mkPartitionAcct f)
                  · rfl
                  · have h2 := matchKey_forces_dup3 hn hi hb hsh hany hfa hfc hfb hcm
                    rw [hdup] at h2
                    exact absurd h2 (by decide)
                obtain ⟨hfe, hsh2, hany2⟩ := ih _ _ h hrest
                  (fun a ha => by
                    rcases List.mem_append.mp ha with h1 | h1
                    · exact hsh a h1
                    · rw [List.mem_singleton.mp h1]; exact keyShaped_mkPartition f)
                  (by simp [List.any_append, hany])
                refine ⟨?_, hsh2, hany2⟩
                rw [hfe, List.filter_append]
                simp [List.filter_cons, hfalse]
              · rw [if_neg hc] at h
                exact ih _ _ h hrest hsh hany
      | null => exact ih _ _ h hrest hsh hany
      | bool b2 => exact ih _ _ h hrest hsh hany
      | num q => exact ih _ _ h hrest hsh hany
      | str s => exact ih _ _ h hrest hsh hany
      | arr l => exact ih _ _ h hrest hsh hany

theorem partitionItems_filter {n i b : J}
    (hn : nsB n = true) (hi : nsB i = true) (hb : nsB b = true) :
    ∀ items accts res, partitionItems items accts = .ok res →
      (∀ it ∈ items, fixedPartItemK it = true) →
      (∀ a ∈ accts, keyShapedB a = true) →
      accts.any (matchKeyB n i b) = true →
      res.filter (matchKeyB n i b) = accts.filter (matchKeyB n i b) ∧
      (∀ a ∈ res, keyShapedB a = true) ∧ res.any (matchKeyB n i b) = true := by
  intro items
  induction items with
  | nil =>
      intro accts res h _ hsh hany
      simp only [partitionItems, pure, Except.pure, Except.ok.injEq] at h
      subst h
      exact ⟨rfl, hsh, hany⟩
  | cons it rest ih =>
      intro accts res h hfix hsh hany
      have hrest := fun it' h' => hfix it' (List.mem_cons_of_mem _ h')
      simp only [partitionItems] at h
      cases hg : pyGetD it "Tradeline" (J.obj []) with
      | error e => rw [hg] at h; exact absurd h (by simp [Bind.bind, Except.bind])
      | ok td =>
          rw [hg, except_bind_ok] at h
          obtain ⟨kvs, hkv, htd⟩ := pyGetD_ok hg
          cases hl : partTradelineLoop it (tradelinesOf td) accts with
          | error e => rw [hl] at h; exact absurd h (by simp [Bind.bind, Except.bind])
          | ok mid =>
              rw [hl, except_bind_ok] at h
              obtain ⟨hfe1, hsh1, hany1⟩ := partTradelineLoop_filter hn hi hb it
                (tradelinesOf td) accts mid hl
                (fixedPartItemK_all hkv htd.symm (hfix it (List.mem_cons_self _ _)))
                hsh hany
              obtain ⟨hfe2, hsh2, hany2⟩ := ih _ _ h hrest hsh1 hany1
              exact ⟨hfe2.trans hfe1, hsh2, hany2⟩

theorem tradeLinePartitionSection_filter {n i b : J} {tl : J} {accts res : List Obj}
    (hn : nsB n = true) (hi : nsB i = true) (hb : nsB b = true)
    (h : tradeLinePartitionSection tl accts = .ok res)
    (hfix : fixedPass2 tl = true)
    (hsh : ∀ a ∈ accts, keyShapedB a = true)
    (hany : accts.any (matchKeyB n i b) = true) :
    res.filter (matchKeyB n i b) = accts.filter (matchKeyB n i b) ∧
    (∀ a ∈ res, keyShapedB a = true) ∧ res.any (matchKeyB n i b) = true := by
  unfold tradeLinePartitionSection at h
  by_cases ht : truthy tl = true
  · rw [if_pos ht] at h
    cases hg : pyGetD tl "TradeLinePartition" (J.arr []) with
    | error e => rw [hg] at h; exact absurd h (by simp [Bind.bind, Except.bind])
    | ok tlp0 =>
        rw [hg, except_bind_ok] at h
        obtain ⟨kvs, hkv, htlp⟩ := pyGetD_ok hg
        cases hw : wrapIter tlp0 with
        | error e => rw [hw] at h; exact absurd h (by simp [Bind.bind, Except.bind])
        | ok items =>
            rw [hw, except_bind_ok] at h
            refine partitionItems_filter hn hi hb items accts res h ?_ hsh hany
            refine fixedPass2_all ht hkv ?_ hfix
            rw [← htlp]
            exact hw
  · rw [if_neg ht] at h
    simp only [pure, Except.pure, Except.ok.injEq] at h
    subst h
    exact ⟨rfl, hsh, hany⟩

theorem bureauTradelines_filter {n i b : J}
    (hn : nsB n = true) (hi : nsB i = true) (bs : String) :
    ∀ ts accts, (∀ t ∈ ts, fixedBureauTradeline t = true) →
      (∀ a ∈ accts, keyShapedB a = true) →
      accts.any (matchKeyB n i b) = true →
      (resOf (bureauTradelines bs ts accts)).filter (matchKeyB n i b) =
          accts.filter (matchKeyB n i b) ∧
      (∀ a ∈ resOf (bureauTradelines bs ts accts), keyShapedB a = true) ∧
      (resOf (bureauTradelines bs ts accts)).any (matchKeyB n i b) = true := by
  intro ts
  induction ts with
  | nil => intro accts _ hsh hany; exact ⟨rfl, hsh, hany⟩
  | cons t rest ih =>
      intro accts hfix hsh hany
      simp only [bureauTradelines]
      cases hr : resolveBureauTradeline t with
      | error e => exact ⟨rfl, hsh, hany⟩
      | ok f =>
          simp only [orKeep, Bind.bind, Except.bind]
          have hf := hfix t (List.mem_cons_self t rest)
          rw [fixedBureauTradeline, hr] at hf
          have hfa := ((Bool.and_eq_true _ _).mp hf).1
          have hfc := ((Bool.and_eq_true _ _).mp hf).2
          have hrest := fun t' ht' => hfix t' (List.mem_cons_of_mem _ ht')
          by_cases hdup : isDuplicate2 accts f.account_number f.creditor_name = true
          · simp only [hdup, Bool.not_true, Bool.false_eq_true, if_false]
            exact ih accts hrest hsh hany
          · rw [Bool.not_eq_true] at hdup
            simp only [hdup, Bool.not_false, if_true]
            have hfalse : matchKeyB n i b (mkBureauAcct bs f) = false := by
              cases hcm : matchKeyB n i b (mkBureauAcct bs f)
              · rfl
              · have h2 := matchKey_forces_dup2 b hn hi bs hsh hany hfa hfc hcm
                rw [hdup] at h2
                exact absurd h2 (by decide)
            obtain ⟨hfe, hsh2, hany2⟩ := ih (accts ++ [mkBureauAcct bs f]) hrest
              (fun a ha => by
                rcases List.mem_append.mp ha with h1 | h1
                · exact hsh a h1
                · rw [List.mem_singleton.mp h1]; exact keyShaped_mkBureau bs f)
              (by simp [List.any_append, hany])
            refine ⟨?_, hsh2, hany2⟩
            rw [hfe, List.filter_append]
            simp [List.filter_cons, hfalse]

theorem bureauComps_presP (P : List Obj → Prop)
    (hP : ∀ bs ts accts, (∀ t ∈ ts, fixedBureauTradeline t = true) → P accts →
          P (resOf (bureauTradelines bs ts accts))) :
    ∀ comps accts, (∀ c ∈ comps, fixedBureauComp c = true) → P accts →
      P (resOf (bureauComps comps accts)) := by
  intro comps
  induction comps with
  | nil => intro accts _ hp; exact hp
  | cons comp rest ih =>
      intro accts hfix hp
      have hrest := fun c hc => hfix c (List.mem_cons_of_mem _ hc)
      have hcomp := hfix comp (List.mem_cons_self comp rest)
      simp only [bureauComps]
      cases hg : pyGet comp "Type" with
      | error e => exact hp
      | ok ct =>
          simp only [orKeep, Bind.bind, Except.bind]
          obtain ⟨kvs, hkv, hct⟩ := pyGetD_ok hg
          by_cases hty : (pyEq ct (J.str "TUCReportV6") || pyEq ct (J.str "EQFReportV6") ||
              pyEq ct (J.str "EXPReportV6")) = true
          · rw [if_pos hty]
            cases h1 : pyGetD comp "CreditReportType" (J.obj []) with
            | error e => exact hp
            | ok rd =>
            simp only [orKeep, Bind.bind, Except.bind]
            obtain ⟨kvs1, hkv1, hrd⟩ := pyGetD_ok h1
            have hkk : kvs1 = kvs := by
              have := hkv.symm.trans hkv1
              injection this with h; exact h.symm
            cases h2 : pyGetD rd "Tradeline" (J.arr []) with
            | error e => exact hp
            | ok t1 =>
            simp only [orKeep, Bind.bind, Except.bind]
            obtain ⟨rdk, hrdk, ht1⟩ := pyGetD_ok h2
            cases h3 : pyGetD rd "Trade" (J.arr []) with
            | error e => exact hp
            | ok t2 =>
            simp only [orKeep, Bind.bind, Except.bind]
            obtain ⟨rdk2, hrdk2, ht2⟩ := pyGetD_ok h3
            have hk2 : rdk2 = rdk := by
              have := hrdk.symm.trans hrdk2
              injection this with h; exact h.symm
            cases h4 : pyGetD rd "Account" (J.arr []) with
            | error e => exact hp
            | ok t3 =>
            simp only [orKeep, Bind.bind, Except.bind]
            obtain ⟨rdk3, hrdk3, ht3⟩ := pyGetD_ok h4
            have hk3 : rdk3 = rdk := by
              have := hrdk.symm.trans hrdk3
              injection this with h; exact h.symm
            cases h5 : wrapIter (pyOr t1 (pyOr t2 t3)) with
            | error e => exact hp
            | ok tls =>
            simp only [orKeep, Bind.bind, Except.bind]
            have htls : ∀ t ∈ tls, fixedBureauTradeline t = true := by
              refine @fixedBureauComp_tls kvs rdk tls ?_ ?_ ?_ ?_
              · rw [← hct]; exact hty
              · rw [hkk] at hrd
                rw [← hrd]; exact hrdk
              · rw [hk2] at ht2
                rw [hk3] at ht3
                rw [← ht1, ← ht2, ← ht3]; exact h5
              · rw [hkv] at hcomp; exact hcomp
            cases h6 : bureauTradelines (bureauSymbolOf ct) tls accts with
            | error a2 =>
                have := hP (bureauSymbolOf ct) tls accts htls hp
                rw [h6] at this
                exact this
            | ok a2 =>
                have := hP (bureauSymbolOf ct) tls accts htls hp
                rw [h6] at this
                exact ih a2 hrest this
          · rw [if_neg hty]
            exact ih accts hrest hp

theorem bureauReportsSection_presP (P : List Obj → Prop)
    (hP : ∀ bs ts accts, (∀ t ∈ ts, fixedBureauTradeline t = true) → P accts →
          P (resOf (bureauTradelines bs ts accts)))
    {rrs : J} {accts : List Obj}
    (hfix : fixedPass3 rrs = true) (hp : P accts) :
    P (bureauReportsSection rrs accts) := by
  unfold bureauReportsSection
  by_cases ht : truthy rrs = true
  · rw [if_pos ht]
    cases hl : loads rrs with
    | error e => exact hp
    | ok data =>
        simp only [orKeep, Bind.bind, Except.bind]
        cases hd : data with
        | obj kvs =>
            simp only [pyGetD, orKeep, Bind.bind, Except.bind]
            cases hbc : (jLookup kvs "BundleComponents").getD (J.obj []) with
            | obj b2 =>
                cases hw : wrapIter ((jLookup b2 "BundleComponent").getD (J.arr [])) with
                | error e =>
                    simp only [hw, orKeep, Bind.bind, Except.bind]
                    exact hp
                | ok comps =>
                    simp only [hw, orKeep, Bind.bind, Except.bind]
                    have hres := bureauComps_presP P hP comps accts
                      (fixedPass3_all ht hl hd hbc hw hfix) hp
                    cases h6 : bureauComps comps accts with
                    | ok a2 => rw [h6] at hres; exact hres
                    | error a2 => rw [h6] at hres; exact hres
            | null => exact hp
            | bool b => exact hp
            | num q => exact hp
            | str s => exact hp
            | arr l => exact hp
        | null => exact hp
        | bool b => exact hp
        | num q => exact hp
        | str s => exact hp
        | arr l => exact hp
  · rw [if_neg ht]
    exact hp

theorem tradesSection_shaped {raw : Obj} {a1 : List Obj}
    (h : tradesSection raw = .ok a1) :
    ∀ a ∈ a1, keyShapedB a = true := by
  intro a ha
  simp only [tradesSection] at h
  cases hg : pyGetD (pyOr ((jLookup raw "trades").getD J.null) (J.obj []))
      "trades" (J.arr []) with
  | error e => rw [hg] at h; exact absurd h (by simp [Bind.bind, Except.bind])
  | ok t0 =>
      rw [hg, except_bind_ok] at h
      cases hw : wrapIter t0 with
      | error e => rw [hw] at h; exact absurd h (by simp [Bind.bind, Except.bind])
      | ok trades =>
          rw [hw, except_bind_ok] at h
          rcases tradesLoop_sound trades [] a1 h a ha with hmem | ⟨f, hf⟩
          · exact absurd hmem (List.not_mem_nil a)
          · rw [hf]; exact keyShaped_mkTrade f

/-- C6 (amended): trades precedence holds under exact raw-value key
agreement — when every key field the bundle passes resolve is a fixed point
of `safe_string` and the primary trade list contributes a record carrying
the (null-or-string shaped) key, the canonical report's records with that
key are exactly the primary-trade-list records with it, field values
included. -/
theorem c6_amended (raw scores : Obj) (n i b : J)
    (hn : nsB n = true) (hi : nsB i = true) (hb : nsB b = true)
    (hfk : FixedBundleKeys raw = true) (hkey : tradesHasKey raw n i b = true) :
    PrecedenceAt raw scores n i b := by
  intro r a1 hnr hta
  obtain ⟨tlbr, pinfo, sc, a3, i3, prs, e2, h1, h2, h3, h4, h5, h6, h7, hr⟩ :=
    normalize_report_inv hnr
  unfold FixedBundleKeys at hfk
  rw [h1] at hfk
  have hp2 : fixedPass2 tlbr.1 = true := ((Bool.and_eq_true _ _).mp hfk).1
  have hp3 : fixedPass3 (rawRrs raw) = true := ((Bool.and_eq_true _ _).mp hfk).2
  unfold accountsStep at h4
  rw [hta, except_bind_ok] at h4
  have hsh1 : ∀ a ∈ a1, keyShapedB a = true := tradesSection_shaped hta
  have hany1 : a1.any (matchKeyB n i b) = true := by
    unfold tradesHasKey at hkey
    rw [hta] at hkey
    exact hkey
  cases htp : tradeLinePartitionSection tlbr.1 a1 with
  | error e => rw [htp] at h4; exact absurd h4 (by simp [Bind.bind, Except.bind])
  | ok a2 =>
      rw [htp, except_bind_ok] at h4
      simp only [pure, Except.pure, Except.ok.injEq] at h4
      obtain ⟨hfe2, hsh2, hany2⟩ :=
        tradeLinePartitionSection_filter hn hi hb htp hp2 hsh1 hany1
      have h3res := bureauReportsSection_presP
        (fun l => l.filter (matchKeyB n i b) = a1.filter (matchKeyB n i b) ∧
          (∀ a ∈ l, keyShapedB a = true) ∧ l.any (matchKeyB n i b) = true)
        (fun bs ts accts hfixt hPacc => by
          obtain ⟨hfe, hsha, hanya⟩ := hPacc
          obtain ⟨hfe3, hsh3, hany3⟩ :=
            bureauTradelines_filter hn hi bs ts accts hfixt hsha hanya
          exact ⟨hfe3.trans hfe, hsh3, hany3⟩)
        hp3 ⟨hfe2, hsh2, hany2⟩
      rw [hr]
      show a3.filter (matchKeyB n i b) = a1.filter (matchKeyB n i b)
      rw [← h4]
      exact h3res.1

/-- Witness for `c6_amended`: the Chase trade's full key repeated by a
merge-partition candidate; the canonical report keeps exactly the trades
version. -/
theorem c6_amended_witness :
    nsB (J.str "438854X") = true ∧ nsB (J.str "Chase Bank") = true ∧
    nsB (J.str "TUC") = true ∧ FixedBundleKeys c6wraw = true ∧
    tradesHasKey c6wraw (J.str "438854X") (J.str "Chase Bank") (J.str "TUC") = true ∧
    PrecedenceAt c6wraw [] (J.str "438854X") (J.str "Chase Bank") (J.str "TUC") :=
  ⟨rfl, rfl, rfl, rfl, rfl,
   c6_amended c6wraw [] (J.str "438854X") (J.str "Chase Bank") (J.str "TUC")
     rfl rfl rfl rfl rfl⟩

/-- C9 (confirmed): a `rawReport` payload that fails to parse is recovered
locally — the parse section returns the raw string with null `true_link`
and borrower instead of propagating the failure, the per-bureau re-parse
pass leaves the accumulated accounts untouched, and borrower resolution
proceeds by the fallback search over the outer document's
`BundleComponents`.  (The warning print is a side effect outside the
embedding.) -/
theorem c9_confirmed (kvs raw : Obj) (e : PyErr)
    (hcr : rawCr raw = J.obj kvs)
    (ht : truthy ((jLookup kvs "rawReport").getD J.null) = true)
    (hfail : loads ((jLookup kvs "rawReport").getD J.null) = .error e) :
    rawReportSection (J.obj kvs) =
      ((jLookup kvs "rawReport").getD J.null, J.null, J.null) ∧
    (∀ accts, bureauReportsSection ((jLookup kvs "rawReport").getD J.null) accts
      = accts) ∧
    resolvedTlBr raw = fallbackSearch kvs (J.null, J.null) := by
  have h1 : rawReportSection (J.obj kvs) =
      ((jLookup kvs "rawReport").getD J.null, J.null, J.null) := by
    unfold rawReportSection
    simp only [ht, if_true, hfail]
  refine ⟨h1, ?_, ?_⟩
  · intro accts
    unfold bureauReportsSection
    simp only [ht, if_true, hfail, orKeep, Bind.bind, Except.bind]
  · unfold resolvedTlBr
    rw [hcr]
    simp only [h1]
    rfl

/-- Witness for `c9_confirmed`: the string `"not json"` as payload, with
the borrower in the outer document. -/
theorem c9_confirmed_witness :
    rawCr c9raw = J.obj c9kvs ∧
    truthy ((jLookup c9kvs "rawReport").getD J.null) = true ∧
    loads ((jLookup c9kvs "rawReport").getD J.null) = .error PyErr.jsonDecodeError ∧
    rawReportSection (J.obj c9kvs) =
      ((jLookup c9kvs "rawReport").getD J.null, J.null, J.null) ∧
    bureauReportsSection ((jLookup c9kvs "rawReport").getD J.null) [] = [] ∧
    resolvedTlBr c9raw = fallbackSearch c9kvs (J.null, J.null) := by
  have h := c9_confirmed c9kvs c9raw PyErr.jsonDecodeError rfl rfl rfl
  exact ⟨rfl, rfl, rfl, h.1, h.2.1 [], h.2.2⟩

/-- C10 (amended): shape tolerance holds at the bundle-component list, the
trades list, the tradeline partition, the borrower addresses, the
inquiries, the public records and the employers positions — a bare object
at each of those positions produces the same canonical report as the
one-element array containing it.  (The borrower `Name` position, the
claim's remaining case, is refuted separately: a bare object there is
ignored.) -/
theorem c10_amended :
    (∀ kvs : Obj, normalize_report (ctxComps (J.obj kvs)) [] =
        normalize_report (ctxComps (J.arr [J.obj kvs])) []) ∧
    (∀ kvs : Obj, normalize_report (ctxTrades (J.obj kvs)) [] =
        normalize_report (ctxTrades (J.arr [J.obj kvs])) []) ∧
    (∀ kvs : Obj, normalize_report (ctxPartition (J.obj kvs)) [] =
        normalize_report (ctxPartition (J.arr [J.obj kvs])) []) ∧
    (∀ kvs : Obj, normalize_report (ctxAddr (J.obj kvs)) [] =
        normalize_report (ctxAddr (J.arr [J.obj kvs])) []) ∧
    (∀ kvs : Obj, normalize_report (ctxInqs (J.obj kvs)) [] =
        normalize_report (ctxInqs (J.arr [J.obj kvs])) []) ∧
    (∀ kvs : Obj, normalize_report (ctxPubs (J.obj kvs)) [] =
        normalize_report (ctxPubs (J.arr [J.obj kvs])) []) ∧
    (∀ kvs : Obj, normalize_report (ctxEmp (J.obj kvs)) [] =
        normalize_report (ctxEmp (J.arr [J.obj kvs])) []) :=
  ⟨fun _ => rfl, fun _ => rfl, fun _ => rfl, fun _ => rfl,
   fun _ => rfl, fun _ => rfl, fun _ => rfl⟩

/-! ### Totality machinery: each section returns `.ok` under `Wf` -/

theorem isOk_bind {α β : Type} {e : Except PyErr α} {f : α → Except PyErr β} (x : α)
    (he : e = .ok x) (hf : ∃ y, f x = .ok y) : ∃ y, (e >>= f) = .ok y := by
  obtain ⟨y, hy⟩ := hf
  exact ⟨y, by rw [he, except_bind_ok, hy]⟩

theorem isOk_bind2 {α β : Type} {e : Except PyErr α} {f : α → Except PyErr β}
    (he : ∃ x, e = .ok x) (hf : ∀ x, ∃ y, f x = .ok y) : ∃ y, (e >>= f) = .ok y := by
  obtain ⟨x, hx⟩ := he
  exact isOk_bind x hx (hf x)

theorem ite_ok {c : Prop} [Decidable c] {α : Type} {e1 e2 : Except PyErr α}
    (h1 : ∃ x, e1 = .ok x) (h2 : ∃ x, e2 = .ok x) :
    ∃ x, (if c then e1 else e2) = .ok x := by
  by_cases hc : c
  · rw [if_pos hc]; exact h1
  · rw [if_neg hc]; exact h2

theorem isObjB_obj {v : J} (h : isObjB v = true) : ∃ kvs, v = J.obj kvs := by
  cases v with
  | obj kvs => exact ⟨kvs, rfl⟩
  | null => simp [isObjB] at h
  | bool b => simp [isObjB] at h
  | num q => simp [isObjB] at h
  | str s => simp [isObjB] at h
  | arr l => simp [isObjB] at h

theorem objIfTruthy_pyOr {v : J} (h : objIfTruthy v = true) :
    ∃ kvs, pyOr v (J.obj []) = J.obj kvs := by
  unfold objIfTruthy at h
  by_cases ht : truthy v = true
  · rw [ht] at h
    simp only [Bool.not_true, Bool.false_or] at h
    obtain ⟨kvs, rfl⟩ := isObjB_obj h
    exact ⟨kvs, by rw [pyOr, if_pos ht]⟩
  · rw [Bool.not_eq_true] at ht
    exact ⟨[], by rw [pyOr, ht]; rfl⟩

theorem strIfTruthy_str {v : J} (h : strIfTruthy v = true) (ht : truthy v = true) :
    ∃ s, v = J.str s := by
  cases v with
  | str s => exact ⟨s, rfl⟩
  | null => unfold strIfTruthy at h; rw [ht] at h; simp at h
  | bool b => unfold strIfTruthy at h; rw [ht] at h; simp at h
  | num q => unfold strIfTruthy at h; rw [ht] at h; simp at h
  | arr l => unfold strIfTruthy at h; rw [ht] at h; simp at h
  | obj l => unfold strIfTruthy at h; rw [ht] at h; simp at h

theorem mapM_str_ok : ∀ (l : List J), (∀ x ∈ l, ∃ s, x = J.str s) →
    ∃ ss, l.mapM (fun p => match p with
      | J.str s => Except.ok s
      | _ => Except.error PyErr.typeError) = Except.ok ss := by
  intro l
  induction l with
  | nil => exact fun _ => ⟨[], rfl⟩
  | cons x xs ih =>
      intro h
      obtain ⟨s, rfl⟩ := h x (List.mem_cons_self _ _)
      obtain ⟨ss, hss⟩ := ih (fun y hy => h y (List.mem_cons_of_mem _ hy))
      refine ⟨s :: ss, ?_⟩
      rw [List.mapM_cons, hss]
      rfl

theorem pyJoinTruthy_ok (sep : String) (parts : List J)
    (h : ∀ x ∈ parts, strIfTruthy x = true) :
    ∃ s, pyJoinTruthy sep parts = .ok s := by
  have h2 : ∀ x ∈ parts.filter truthy, ∃ s, x = J.str s := by
    intro x hx
    have hm := List.mem_filter.mp hx
    exact strIfTruthy_str (h x hm.1) hm.2
  obtain ⟨ss, hss⟩ := mapM_str_ok _ h2
  refine ⟨joinSep sep ss, ?_⟩
  show ((parts.filter truthy).mapM (fun p => match p with
      | J.str s => Except.ok s
      | _ => Except.error PyErr.typeError) >>=
    fun strs => pure (joinSep sep strs)) = _
  rw [hss, except_bind_ok]
  rfl

theorem strIfPresent_val {kvs : Obj} {k : String} (h : strIfPresent kvs k = true) :
    ∃ s, (jLookup kvs k).getD (J.str "") = J.str s := by
  unfold strIfPresent at h
  cases hl : jLookup kvs k with
  | none => exact ⟨"", rfl⟩
  | some v =>
      rw [hl] at h
      cases v with
      | str s => exact ⟨s, rfl⟩
      | null => simp at h
      | bool b => simp at h
      | num q => simp at h
      | arr l => simp at h
      | obj l => simp at h

theorem strIfTruthyKey_null {kvs : Obj} {k : String} (h : strIfTruthyKey kvs k = true) :
    strIfTruthy ((jLookup kvs k).getD J.null) = true := by
  unfold strIfTruthyKey at h
  cases hl : jLookup kvs k with
  | none => rfl
  | some v => rw [hl] at h; exact h

theorem wrapIter_all {p : J → Bool} {v : J} (h : wfArrOrObjAll p v = true) :
    ∃ l, wrapIter v = .ok l ∧ ∀ x ∈ l, p x = true := by
  cases v with
  | obj kvs =>
      refine ⟨[J.obj kvs], rfl, ?_⟩
      intro x hx
      rw [List.mem_singleton.mp hx]
      exact h
  | arr l => exact ⟨l, rfl, List.all_eq_true.mp h⟩
  | null => simp [wfArrOrObjAll] at h
  | bool b => simp [wfArrOrObjAll] at h
  | num q => simp [wfArrOrObjAll] at h
  | str s => simp [wfArrOrObjAll] at h

theorem listOrObj_to_wfAll {v : J} (h : listOrObjAllObj v = true) :
    wfArrOrObjAll isObjB v = true := by
  cases v with
  | obj kvs => rfl
  | arr l => exact h
  | null => simp [listOrObjAllObj] at h
  | bool b => simp [listOrObjAllObj] at h
  | num q => simp [listOrObjAllObj] at h
  | str s => simp [listOrObjAllObj] at h

theorem srcBureauOk_obj {v : J} (h : srcBureauOk v = true) : ∃ kvs, v = J.obj kvs := by
  cases v with
  | obj kvs => exact ⟨kvs, rfl⟩
  | null => simp [srcBureauOk] at h
  | bool b => simp [srcBureauOk] at h
  | num q => simp [srcBureauOk] at h
  | str s => simp [srcBureauOk] at h
  | arr l => simp [srcBureauOk] at h

theorem srcBureauOk_dest {kvs : Obj} (h : srcBureauOk (J.obj kvs) = true) :
    ∃ s2 b2, (jLookup kvs "Source").getD (J.obj []) = J.obj s2 ∧
      (jLookup s2 "Bureau").getD (J.obj []) = J.obj b2 := by
  cases hs : (jLookup kvs "Source").getD (J.obj []) with
  | obj s2 =>
      simp only [srcBureauOk, hs] at h
      obtain ⟨b2, hb⟩ := isObjB_obj h
      exact ⟨s2, b2, rfl, hb⟩
  | null => simp [srcBureauOk, hs] at h
  | bool b => simp [srcBureauOk, hs] at h
  | num q => simp [srcBureauOk, hs] at h
  | str s => simp [srcBureauOk, hs] at h
  | arr l => simp [srcBureauOk, hs] at h

theorem pyOrGet_wrap {sv : J} {k : String} {p : J → Bool}
    (h1 : objIfTruthy sv = true)
    (h2 : ∀ kvs, sv = J.obj kvs → truthy sv = true →
        wfArrOrObjAll p ((jLookup kvs k).getD (J.arr [])) = true) :
    ∃ c0 l, pyGetD (pyOr sv (J.obj [])) k (J.arr []) = .ok c0 ∧
      wrapIter c0 = .ok l ∧ ∀ x ∈ l, p x = true := by
  by_cases ht : truthy sv = true
  · have hobj : isObjB sv = true := by
      unfold objIfTruthy at h1
      rw [ht] at h1
      simpa using h1
    obtain ⟨kvs, rfl⟩ := isObjB_obj hobj
    obtain ⟨l, hw, hall⟩ := wrapIter_all (h2 kvs rfl ht)
    refine ⟨(jLookup kvs k).getD (J.arr []), l, ?_, hw, hall⟩
    rw [pyOr, if_pos ht]
    rfl
  · rw [Bool.not_eq_true] at ht
    refine ⟨J.arr [], [], ?_, rfl, fun x hx => absurd hx (List.not_mem_nil x)⟩
    rw [pyOr, if_neg (by simp [ht])]
    rfl

theorem inqsSearchLoop_ok : ∀ l acc, (∀ x ∈ l, isObjB x = true) →
    ∃ r, inqsSearchLoop l acc = .ok r := by
  intro l
  induction l with
  | nil => exact fun acc _ => ⟨acc, rfl⟩
  | cons iq rest ih =>
      intro acc h
      obtain ⟨kvs, rfl⟩ := isObjB_obj (h iq (List.mem_cons_self _ _))
      exact ih _ (fun x hx => h x (List.mem_cons_of_mem _ hx))

theorem pubRecLoop_ok : ∀ l acc, (∀ x ∈ l, isObjB x = true) →
    ∃ r, pubRecLoop l acc = .ok r := by
  intro l
  induction l with
  | nil => exact fun acc _ => ⟨acc, rfl⟩
  | cons pr rest ih =>
      intro acc h
      obtain ⟨kvs, rfl⟩ := isObjB_obj (h pr (List.mem_cons_self _ _))
      exact ih _ (fun x hx => h x (List.mem_cons_of_mem _ hx))

theorem fallbackEmpLoop_ok : ∀ l acc, (∀ x ∈ l, isObjB x = true) →
    ∃ r, fallbackEmpLoop l acc = .ok r := by
  intro l
  induction l with
  | nil => exact fun acc _ => ⟨acc, rfl⟩
  | cons emp rest ih =>
      intro acc h
      obtain ⟨kvs, rfl⟩ := isObjB_obj (h emp (List.mem_cons_self _ _))
      exact ih _ (fun x hx => h x (List.mem_cons_of_mem _ hx))

theorem borrowerInqLoop_ok : ∀ l acc, (∀ x ∈ l, srcBureauOk x = true) →
    ∃ r, borrowerInqLoop l acc = .ok r := by
  intro l
  induction l with
  | nil => exact fun acc _ => ⟨acc, rfl⟩
  | cons iq rest ih =>
      intro acc h
      have hrest := fun x hx => h x (List.mem_cons_of_mem _ hx)
      obtain ⟨kvs, rfl⟩ := srcBureauOk_obj (h iq (List.mem_cons_self _ _))
      obtain ⟨s2, b2, hs, hb⟩ := srcBureauOk_dest (h _ (List.mem_cons_self _ _))
      simp only [borrowerInqLoop, pyGet, pyGetD, Bind.bind, Except.bind, hs, hb]
      exact ih _ hrest

theorem borrowerEmpLoop_ok : ∀ l acc, (∀ x ∈ l, srcBureauOk x = true) →
    ∃ r, borrowerEmpLoop l acc = .ok r := by
  intro l
  induction l with
  | nil => exact fun acc _ => ⟨acc, rfl⟩
  | cons emp rest ih =>
      intro acc h
      have hrest := fun x hx => h x (List.mem_cons_of_mem _ hx)
      obtain ⟨kvs, rfl⟩ := srcBureauOk_obj (h emp (List.mem_cons_self _ _))
      obtain ⟨s2, b2, hs, hb⟩ := srcBureauOk_dest (h _ (List.mem_cons_self _ _))
      simp only [borrowerEmpLoop, pyGet, pyGetD, Bind.bind, Except.bind, hs, hb]
      exact ih _ hrest

theorem inquiriesSearch_ok {raw : Obj} (h : wfSearchInq raw = true) :
    ∃ r, inquiriesSearch raw = .ok r := by
  simp only [wfSearchInq] at h
  have h1 := ((Bool.and_eq_true _ _).mp h).1
  have h2 := ((Bool.and_eq_true _ _).mp h).2
  have h2a : ∀ kvs, (jLookup raw "search_results").getD J.null = J.obj kvs →
      truthy ((jLookup raw "search_results").getD J.null) = true →
      wfArrOrObjAll isObjB ((jLookup kvs "inquiries").getD (J.arr [])) = true := by
    intro kvs hkv _
    rw [hkv] at h2
    have h2b : (listOrObjAllObj ((jLookup kvs "inquiries").getD (J.arr [])) &&
        listOrObjAllObj ((jLookup kvs "publicRecords").getD (J.arr []))) = true := h2
    exact listOrObj_to_wfAll ((Bool.and_eq_true _ _).mp h2b).1
  obtain ⟨c0, l, hc0, hw, hall⟩ := pyOrGet_wrap h1 h2a
  obtain ⟨r, hr⟩ := inqsSearchLoop_ok l [] hall
  refine ⟨r, ?_⟩
  simp only [inquiriesSearch, hc0, hw, hr, Bind.bind, Except.bind]

theorem publicRecordsSection_ok {raw : Obj} (h : wfSearchInq raw = true) :
    ∃ r, publicRecordsSection raw = .ok r := by
  simp only [wfSearchInq] at h
  have h1 := ((Bool.and_eq_true _ _).mp h).1
  have h2 := ((Bool.and_eq_true _ _).mp h).2
  have h2a : ∀ kvs, (jLookup raw "search_results").getD J.null = J.obj kvs →
      truthy ((jLookup raw "search_results").getD J.null) = true →
      wfArrOrObjAll isObjB ((jLookup kvs "publicRecords").getD (J.arr [])) = true := by
    intro kvs hkv _
    rw [hkv] at h2
    have h2b : (listOrObjAllObj ((jLookup kvs "inquiries").getD (J.arr [])) &&
        listOrObjAllObj ((jLookup kvs "publicRecords").getD (J.arr []))) = true := h2
    exact listOrObj_to_wfAll ((Bool.and_eq_true _ _).mp h2b).2
  obtain ⟨c0, l, hc0, hw, hall⟩ := pyOrGet_wrap h1 h2a
  obtain ⟨r, hr⟩ := pubRecLoop_ok l [] hall
  refine ⟨r, ?_⟩
  simp only [publicRecordsSection, hc0, hw, hr, Bind.bind, Except.bind]

theorem borrowerInquiries_ok {b : J} {acc : List J} (h : wfBorrower b = true) :
    ∃ r, borrowerInquiries b acc = .ok r := by
  unfold borrowerInquiries
  by_cases ht : truthy b = true
  · rw [if_pos ht]
    unfold wfBorrower at h
    rw [if_pos ht] at h
    cases b with
    | obj kvs =>
        have hI : wfArrOrObjAll srcBureauOk ((jLookup kvs "Inquiry").getD (J.arr []))
            = true := by
          have h2 : (wfBorrowerNames kvs &&
              objIfTruthy ((jLookup kvs "SocialPartition").getD J.null) &&
              wfAddrList ((jLookup kvs "BorrowerAddress").getD (J.arr [])) &&
              wfBirthList ((jLookup kvs "Birth").getD (J.arr [])) &&
              wfArrOrObjAll wfPrevAddr ((jLookup kvs "PreviousAddress").getD (J.arr [])) &&
              wfArrOrObjAll srcBureauOk ((jLookup kvs "Inquiry").getD (J.arr [])) &&
              wfArrOrObjAll srcBureauOk ((jLookup kvs "Employer").getD (J.arr []))) =
              true := h
          exact ((Bool.and_eq_true _ _).mp ((Bool.and_eq_true _ _).mp h2).1).2
        obtain ⟨l, hw, hall⟩ := wrapIter_all hI
        obtain ⟨r, hr⟩ := borrowerInqLoop_ok l acc hall
        refine ⟨r, ?_⟩
        simp only [pyGetD, Bind.bind, Except.bind, hw, hr]
    | null => simp at h
    | bool b2 => simp at h
    | num q => simp at h
    | str s => simp at h
    | arr l => simp at h
  · rw [if_neg ht]
    exact ⟨acc, rfl⟩

theorem borrowerEmployers_ok {b : J} (h : wfBorrower b = true) :
    ∃ r, borrowerEmployers b = .ok r := by
  unfold borrowerEmployers
  by_cases ht : truthy b = true
  · rw [if_pos ht]
    unfold wfBorrower at h
    rw [if_pos ht] at h
    cases b with
    | obj kvs =>
        have hE : wfArrOrObjAll srcBureauOk ((jLookup kvs "Employer").getD (J.arr []))
            = true := by
          have h2 : (wfBorrowerNames kvs &&
              objIfTruthy ((jLookup kvs "SocialPartition").getD J.null) &&
              wfAddrList ((jLookup kvs "BorrowerAddress").getD (J.arr [])) &&
              wfBirthList ((jLookup kvs "Birth").getD (J.arr [])) &&
              wfArrOrObjAll wfPrevAddr ((jLookup kvs "PreviousAddress").getD (J.arr [])) &&
              wfArrOrObjAll srcBureauOk ((jLookup kvs "Inquiry").getD (J.arr [])) &&
              wfArrOrObjAll srcBureauOk ((jLookup kvs "Employer").getD (J.arr []))) =
              true := h
          exact ((Bool.and_eq_true _ _).mp h2).2
        obtain ⟨l, hw, hall⟩ := wrapIter_all hE
        obtain ⟨r, hr⟩ := borrowerEmpLoop_ok l [] hall
        refine ⟨r, ?_⟩
        simp only [pyGetD, Bind.bind, Except.bind, hw, hr]
    | null => simp at h
    | bool b2 => simp at h
    | num q => simp at h
    | str s => simp at h
    | arr l => simp at h
  · rw [if_neg ht]
    exact ⟨[], rfl⟩

theorem employersFallback_ok {cr : J} {acc : List J} (h : wfEmployersFallback cr = true) :
    ∃ r, employersFallback cr acc = .ok r := by
  cases cr with
  | obj kvs =>
      have h2 : (objIfTruthy ((jLookup kvs "Borrower").getD J.null) &&
          (match (jLookup kvs "Borrower").getD J.null with
           | J.obj b2 => listOrObjAllObj ((jLookup b2 "Employer").getD (J.arr []))
           | _ => true)) = true := h
      have h1 := ((Bool.and_eq_true _ _).mp h2).1
      have h3 := ((Bool.and_eq_true _ _).mp h2).2
      have h2a : ∀ b2, (jLookup kvs "Borrower").getD J.null = J.obj b2 →
          truthy ((jLookup kvs "Borrower").getD J.null) = true →
          wfArrOrObjAll isObjB ((jLookup b2 "Employer").getD (J.arr [])) = true := by
        intro b2 hb _
        rw [hb] at h3
        exact listOrObj_to_wfAll h3
      obtain ⟨c0, l, hc0, hw, hall⟩ := pyOrGet_wrap h1 h2a
      obtain ⟨r, hr⟩ := fallbackEmpLoop_ok l acc hall
      refine ⟨r, ?_⟩
      simp only [employersFallback, Bind.bind, Except.bind,
        show pyGet (J.obj kvs) "Borrower" =
          Except.ok ((jLookup kvs "Borrower").getD J.null) from rfl,
        hc0, hw, hr]
  | null => simp [wfEmployersFallback] at h
  | bool b => simp [wfEmployersFallback] at h
  | num q => simp [wfEmployersFallback] at h
  | str s => simp [wfEmployersFallback] at h
  | arr l => simp [wfEmployersFallback] at h

theorem wfInqItem_obj {v : J} (h : wfInqItem v = true) : ∃ kvs, v = J.obj kvs := by
  cases v with
  | obj kvs => exact ⟨kvs, rfl⟩
  | null => simp [wfInqItem] at h
  | bool b => simp [wfInqItem] at h
  | num q => simp [wfInqItem] at h
  | str s => simp [wfInqItem] at h
  | arr l => simp [wfInqItem] at h

theorem inqPartLoop_ok : ∀ l acc, (∀ x ∈ l, wfInqItem x = true) →
    ∃ r, inqPartLoop l acc = .ok r := by
  intro l
  induction l with
  | nil => exact fun acc _ => ⟨acc, rfl⟩
  | cons it rest ih =>
      intro acc h
      have hrest := fun x hx => h x (List.mem_cons_of_mem _ hx)
      have hit := h it (List.mem_cons_self _ _)
      obtain ⟨kvs, rfl⟩ := wfInqItem_obj hit
      simp only [inqPartLoop, Bind.bind, Except.bind,
        show pyGetD (J.obj kvs) "Inquiry" (J.obj []) =
          Except.ok ((jLookup kvs "Inquiry").getD (J.obj [])) from rfl]
      by_cases hti : truthy ((jLookup kvs "Inquiry").getD (J.obj [])) = true
      · rw [if_pos hti]
        have hW : (match (jLookup kvs "Inquiry").getD (J.obj []) with
            | J.obj i2 =>
                truthy ((jLookup i2 "bureau").getD J.null) ||
                (match (jLookup i2 "Source").getD (J.obj []) with
                 | J.obj s2 => isObjB ((jLookup s2 "Bureau").getD (J.obj []))
                 | _ => false)
            | _ => false) = true := by
          have hit2 : (!truthy ((jLookup kvs "Inquiry").getD (J.obj [])) ||
              (match (jLookup kvs "Inquiry").getD (J.obj []) with
               | J.obj i2 =>
                   truthy ((jLookup i2 "bureau").getD J.null) ||
                   (match (jLookup i2 "Source").getD (J.obj []) with
                    | J.obj s2 => isObjB ((jLookup s2 "Bureau").getD (J.obj []))
                    | _ => false)
               | _ => false)) = true := hit
          rw [hti] at hit2
          simpa using hit2
        cases hid : (jLookup kvs "Inquiry").getD (J.obj []) with
        | obj i2 =>
            simp only [hid] at hW
            simp only [Bind.bind, Except.bind,
              show pyGet (J.obj i2) "bureau" =
                Except.ok ((jLookup i2 "bureau").getD J.null) from rfl]
            by_cases hbn : truthy ((jLookup i2 "bureau").getD J.null) = true
            · rw [if_pos hbn]
              exact ih _ hrest
            · rw [if_neg hbn]
              have hbn2 : truthy ((jLookup i2 "bureau").getD J.null) = false := by
                rwa [Bool.not_eq_true] at hbn
              rw [hbn2] at hW
              simp only [Bool.false_or] at hW
              cases hs2 : (jLookup i2 "Source").getD (J.obj []) with
              | obj s2 =>
                  simp only [hs2] at hW
                  obtain ⟨b2, hb2⟩ := isObjB_obj hW
                  simp only [Bind.bind, Except.bind,
                    show pyGetD (J.obj i2) "Source" (J.obj []) =
                      Except.ok ((jLookup i2 "Source").getD (J.obj [])) from rfl,
                    hs2,
                    show pyGetD (J.obj s2) "Bureau" (J.obj []) =
                      Except.ok ((jLookup s2 "Bureau").getD (J.obj [])) from rfl,
                    hb2]
                  exact ih _ hrest
              | null => simp [hs2] at hW
              | bool b => simp [hs2] at hW
              | num q => simp [hs2] at hW
              | str s => simp [hs2] at hW
              | arr l2 => simp [hs2] at hW
        | null => simp [hid] at hW
        | bool b => simp [hid] at hW
        | num q => simp [hid] at hW
        | str s => simp [hid] at hW
        | arr l2 => simp [hid] at hW
      · rw [if_neg hti]
        exact ih _ hrest

theorem inquiryPartitionSection_ok {tl : J} {acc : List J} (h : wfTrueLink tl = true) :
    ∃ r, inquiryPartitionSection tl acc = .ok r := by
  unfold inquiryPartitionSection
  by_cases ht : truthy tl = true
  · rw [if_pos ht]
    unfold wfTrueLink at h
    rw [if_pos ht] at h
    cases tl with
    | obj kvs =>
        have h2 : (wfArrOrObjAll wfPartItem
              ((jLookup kvs "TradeLinePartition").getD (J.arr [])) &&
            wfArrOrObjAll wfInqItem
              ((jLookup kvs "InquiryPartition").getD (J.arr []))) = true := h
        obtain ⟨items, hw, hall⟩ := wrapIter_all ((Bool.and_eq_true _ _).mp h2).2
        obtain ⟨r, hr⟩ := inqPartLoop_ok items acc hall
        refine ⟨r, ?_⟩
        simp only [Bind.bind, Except.bind,
          show pyGetD (J.obj kvs) "InquiryPartition" (J.arr []) =
            Except.ok ((jLookup kvs "InquiryPartition").getD (J.arr [])) from rfl,
          hw, hr]
    | null => simp at h
    | bool b => simp at h
    | num q => simp at h
    | str s => simp at h
    | arr l => simp at h
  · rw [if_neg ht]
    exact ⟨acc, rfl⟩

theorem pyGetD_eq {kvs : Obj} {k : String} {d v : J}
    (h : (jLookup kvs k).getD d = v) : pyGetD (J.obj kvs) k d = .ok v := by
  rw [← h]; rfl

theorem pyGet_eq {kvs : Obj} {k : String} {v : J}
    (h : (jLookup kvs k).getD J.null = v) : pyGet (J.obj kvs) k = .ok v := by
  rw [← h]; rfl

theorem strIfTruthy_present {kvs : Obj} {k : String}
    (h : strIfTruthy ((jLookup kvs k).getD J.null) = true)
    (ht : truthy ((jLookup kvs k).getD J.null) = true) :
    ∃ s, (jLookup kvs k).getD (J.str "") = J.str s := by
  cases hl : jLookup kvs k with
  | none =>
      rw [hl] at ht
      simp [truthy] at ht
  | some v =>
      rw [hl] at h ht
      obtain ⟨s, hs⟩ := strIfTruthy_str h ht
      exact ⟨s, hs⟩

theorem wfCreditAddr_dest {ca : J} (h : wfCreditAddr ca = true) :
    ∃ kvs, ca = J.obj kvs ∧
      strIfTruthy ((jLookup kvs "unparsedStreet").getD J.null) = true ∧
      strIfPresent kvs "city" = true ∧ strIfPresent kvs "stateCode" = true ∧
      strIfPresent kvs "postalCode" = true ∧ strIfTruthyKey kvs "houseNumber" = true ∧
      strIfTruthyKey kvs "direction" = true ∧ strIfTruthyKey kvs "streetName" = true ∧
      strIfTruthyKey kvs "streetType" = true := by
  cases ca with
  | obj kvs =>
      have h2 : (strIfTruthy ((jLookup kvs "unparsedStreet").getD J.null) &&
          strIfPresent kvs "city" && strIfPresent kvs "stateCode" &&
          strIfPresent kvs "postalCode" &&
          strIfTruthyKey kvs "houseNumber" && strIfTruthyKey kvs "direction" &&
          strIfTruthyKey kvs "streetName" && strIfTruthyKey kvs "streetType") = true := h
      refine ⟨kvs, rfl, ?_, ?_, ?_, ?_, ?_, ?_, ?_, ?_⟩
      · exact ((Bool.and_eq_true _ _).mp ((Bool.and_eq_true _ _).mp ((Bool.and_eq_true _ _).mp
          ((Bool.and_eq_true _ _).mp ((Bool.and_eq_true _ _).mp ((Bool.and_eq_true _ _).mp
          ((Bool.and_eq_true _ _).mp h2).1).1).1).1).1).1).1
      · exact ((Bool.and_eq_true _ _).mp ((Bool.and_eq_true _ _).mp ((Bool.and_eq_true _ _).mp
          ((Bool.and_eq_true _ _).mp ((Bool.and_eq_true _ _).mp ((Bool.and_eq_true _ _).mp
          ((Bool.and_eq_true _ _).mp h2).1).1).1).1).1).1).2
      · exact ((Bool.and_eq_true _ _).mp ((Bool.and_eq_true _ _).mp ((Bool.and_eq_true _ _).mp
          ((Bool.and_eq_true _ _).mp ((Bool.and_eq_true _ _).mp
          ((Bool.and_eq_true _ _).mp h2).1).1).1).1).1).2
      · exact ((Bool.and_eq_true _ _).mp ((Bool.and_eq_true _ _).mp ((Bool.and_eq_true _ _).mp
          ((Bool.and_eq_true _ _).mp ((Bool.and_eq_true _ _).mp h2).1).1).1).1).2
      · exact ((Bool.and_eq_true _ _).mp ((Bool.and_eq_true _ _).mp ((Bool.and_eq_true _ _).mp
          ((Bool.and_eq_true _ _).mp h2).1).1).1).2
      · exact ((Bool.and_eq_true _ _).mp ((Bool.and_eq_true _ _).mp
          ((Bool.and_eq_true _ _).mp h2).1).1).2
      · exact ((Bool.and_eq_true _ _).mp ((Bool.and_eq_true _ _).mp h2).1).2
      · exact ((Bool.and_eq_true _ _).mp h2).2
  | null => simp [wfCreditAddr] at h
  | bool b => simp [wfCreditAddr] at h
  | num q => simp [wfCreditAddr] at h
  | str s => simp [wfCreditAddr] at h
  | arr l => simp [wfCreditAddr] at h

theorem wfPrevAddr_eq (p : J) : wfPrevAddr p =
    (srcBureauOk p && (match p with
      | J.obj kvs =>
          match (jLookup kvs "CreditAddress").getD (J.obj []) with
          | J.obj ca =>
              strIfTruthyKey ca "houseNumber" && strIfTruthyKey ca "direction" &&
              strIfTruthyKey ca "streetName" && strIfTruthyKey ca "streetType"
          | _ => false
      | _ => false)) := rfl

theorem wfPrevAddr_dest {p : J} (h : wfPrevAddr p = true) :
    ∃ kvs s2 b2 ca, p = J.obj kvs ∧
      (jLookup kvs "Source").getD (J.obj []) = J.obj s2 ∧
      (jLookup s2 "Bureau").getD (J.obj []) = J.obj b2 ∧
      (jLookup kvs "CreditAddress").getD (J.obj []) = J.obj ca ∧
      strIfTruthyKey ca "houseNumber" = true ∧ strIfTruthyKey ca "direction" = true ∧
      strIfTruthyKey ca "streetName" = true ∧ strIfTruthyKey ca "streetType" = true := by
  rw [wfPrevAddr_eq] at h
  have h1 := ((Bool.and_eq_true _ _).mp h).1
  have h2 := ((Bool.and_eq_true _ _).mp h).2
  obtain ⟨kvs, rfl⟩ := srcBureauOk_obj h1
  obtain ⟨s2, b2, hs, hb⟩ := srcBureauOk_dest h1
  have h2b : (match (jLookup kvs "CreditAddress").getD (J.obj []) with
      | J.obj ca =>
          strIfTruthyKey ca "houseNumber" && strIfTruthyKey ca "direction" &&
          strIfTruthyKey ca "streetName" && strIfTruthyKey ca "streetType"
      | _ => false) = true := h2
  cases hca : (jLookup kvs "CreditAddress").getD (J.obj []) with
  | obj ca =>
      rw [hca] at h2b
      have h2c : (strIfTruthyKey ca "houseNumber" && strIfTruthyKey ca "direction" &&
          strIfTruthyKey ca "streetName" && strIfTruthyKey ca "streetType") = true := h2b
      refine ⟨kvs, s2, b2, ca, rfl, hs, hb, hca, ?_, ?_, ?_, ?_⟩
      · exact ((Bool.and_eq_true _ _).mp ((Bool.and_eq_true _ _).mp
          ((Bool.and_eq_true _ _).mp h2c).1).1).1
      · exact ((Bool.and_eq_true _ _).mp ((Bool.and_eq_true _ _).mp
          ((Bool.and_eq_true _ _).mp h2c).1).1).2
      · exact ((Bool.and_eq_true _ _).mp ((Bool.and_eq_true _ _).mp h2c).1).2
      · exact ((Bool.and_eq_true _ _).mp h2c).2
  | null =>
      rw [hca] at h2b
      have h2c : false = true := h2b
      exact Bool.noConfusion h2c
  | bool b =>
      rw [hca] at h2b
      have h2c : false = true := h2b
      exact Bool.noConfusion h2c
  | num q =>
      rw [hca] at h2b
      have h2c : false = true := h2b
      exact Bool.noConfusion h2c
  | str s =>
      rw [hca] at h2b
      have h2c : false = true := h2b
      exact Bool.noConfusion h2c
  | arr l =>
      rw [hca] at h2b
      have h2c : false = true := h2b
      exact Bool.noConfusion h2c

theorem prevAddrEntry_ok {p : J} (h : wfPrevAddr p = true) :
    ∃ v, prevAddrEntry p = .ok v := by
  obtain ⟨kvs, s2, b2, ca, rfl, hs, hb, hca, h1, h2, h3, h4⟩ := wfPrevAddr_dest h
  unfold prevAddrEntry
  refine isOk_bind (J.obj ca) (pyGetD_eq hca) ?_
  refine isOk_bind (J.obj s2) (pyGetD_eq hs) ?_
  refine isOk_bind (J.obj b2) (pyGetD_eq hb) ?_
  refine isOk_bind _ rfl ?_
  refine isOk_bind _ rfl ?_
  refine isOk_bind _ rfl ?_
  by_cases hcu : truthy ((jLookup ca "unparsedStreet").getD J.null) = true
  · simp only [hcu]
    exact ⟨_, rfl⟩
  · have hcu2 : truthy ((jLookup ca "unparsedStreet").getD J.null) = false := by
      rwa [Bool.not_eq_true] at hcu
    simp only [hcu2]
    refine isOk_bind _ rfl ?_
    refine isOk_bind _ rfl ?_
    refine isOk_bind _ rfl ?_
    refine isOk_bind _ rfl ?_
    have hparts : ∀ x ∈ [(jLookup ca "houseNumber").getD J.null,
        (jLookup ca "direction").getD J.null,
        (jLookup ca "streetName").getD J.null,
        (jLookup ca "streetType").getD J.null], strIfTruthy x = true := by
      intro x hx
      simp only [List.mem_cons, List.not_mem_nil, or_false] at hx
      rcases hx with rfl | rfl | rfl | rfl
      · exact strIfTruthyKey_null h1
      · exact strIfTruthyKey_null h2
      · exact strIfTruthyKey_null h3
      · exact strIfTruthyKey_null h4
    obtain ⟨sj, hj⟩ := pyJoinTruthy_ok " "
      [(jLookup ca "houseNumber").getD J.null,
       (jLookup ca "direction").getD J.null,
       (jLookup ca "streetName").getD J.null,
       (jLookup ca "streetType").getD J.null] hparts
    refine isOk_bind sj hj ?_
    exact ⟨_, rfl⟩

theorem wfAddrObj_dest {v : J} (h : wfAddrObj v = true) :
    ∃ akvs, v = J.obj akvs ∧
      wfCreditAddr ((jLookup akvs "CreditAddress").getD (J.obj [])) = true := by
  cases v with
  | obj akvs => exact ⟨akvs, rfl, h⟩
  | null => simp [wfAddrObj] at h
  | bool b => simp [wfAddrObj] at h
  | num q => simp [wfAddrObj] at h
  | str s => simp [wfAddrObj] at h
  | arr l => simp [wfAddrObj] at h

theorem addrBody_ok {cak : List (String × J)}
    (hu : strIfTruthy ((jLookup cak "unparsedStreet").getD J.null) = true)
    (hc1 : strIfPresent cak "city" = true)
    (hc2 : strIfPresent cak "stateCode" = true)
    (hc3 : strIfPresent cak "postalCode" = true)
    (hk1 : strIfTruthyKey cak "houseNumber" = true)
    (hk2 : strIfTruthyKey cak "direction" = true)
    (hk3 : strIfTruthyKey cak "streetName" = true)
    (hk4 : strIfTruthyKey cak "streetType" = true) :
    ∃ v, (pyGet (J.obj cak) "unparsedStreet" >>= fun ups =>
      if truthy ups then do
        let sRaw ← pyGetD (J.obj cak) "unparsedStreet" (J.str "")
        let street ← pyStripE sRaw
        let cRaw ← pyGetD (J.obj cak) "city" (J.str "")
        let city ← pyStripE cRaw
        let stRaw ← pyGetD (J.obj cak) "stateCode" (J.str "")
        let state ← pyStripE stRaw
        let pRaw ← pyGetD (J.obj cak) "postalCode" (J.str "")
        let postal ← pyStripE pRaw
        pure (joinAddr street city state postal)
      else do
        let hn ← pyGetD (J.obj cak) "houseNumber" (J.str "")
        let di ← pyGetD (J.obj cak) "direction" (J.str "")
        let sn ← pyGetD (J.obj cak) "streetName" (J.str "")
        let st ← pyGetD (J.obj cak) "streetType" (J.str "")
        let street ← pyJoinTruthy " " [hn, di, sn, st]
        let cRaw ← pyGetD (J.obj cak) "city" (J.str "")
        let city ← pyStripE cRaw
        let stRaw ← pyGetD (J.obj cak) "stateCode" (J.str "")
        let state ← pyStripE stRaw
        let pRaw ← pyGetD (J.obj cak) "postalCode" (J.str "")
        let postal ← pyStripE pRaw
        pure (joinAddr street city state postal)) = .ok v := by
  refine isOk_bind _ rfl ?_
  obtain ⟨c1, hc1v⟩ := strIfPresent_val hc1
  obtain ⟨c2, hc2v⟩ := strIfPresent_val hc2
  obtain ⟨c3, hc3v⟩ := strIfPresent_val hc3
  by_cases hcu : truthy ((jLookup cak "unparsedStreet").getD J.null) = true
  · simp only [hcu]
    obtain ⟨s0, hs0⟩ := strIfTruthy_present hu hcu
    refine isOk_bind (J.str s0) (pyGetD_eq hs0) ?_
    refine isOk_bind _ rfl ?_
    refine isOk_bind (J.str c1) (pyGetD_eq hc1v) ?_
    refine isOk_bind _ rfl ?_
    refine isOk_bind (J.str c2) (pyGetD_eq hc2v) ?_
    refine isOk_bind _ rfl ?_
    refine isOk_bind (J.str c3) (pyGetD_eq hc3v) ?_
    refine isOk_bind _ rfl ?_
    exact ⟨_, rfl⟩
  · have hcu2 : truthy ((jLookup cak "unparsedStreet").getD J.null) = false := by
      rwa [Bool.not_eq_true] at hcu
    simp only [hcu2]
    refine isOk_bind _ rfl ?_
    refine isOk_bind _ rfl ?_
    refine isOk_bind _ rfl ?_
    refine isOk_bind _ rfl ?_
    have hparts : ∀ x ∈ [(jLookup cak "houseNumber").getD (J.str ""),
        (jLookup cak "direction").getD (J.str ""),
        (jLookup cak "streetName").getD (J.str ""),
        (jLookup cak "streetType").getD (J.str "")], strIfTruthy x = true := by
      intro x hx
      simp only [List.mem_cons, List.not_mem_nil, or_false] at hx
      rcases hx with rfl | rfl | rfl | rfl
      · exact hk1
      · exact hk2
      · exact hk3
      · exact hk4
    obtain ⟨sj, hj⟩ := pyJoinTruthy_ok " "
      [(jLookup cak "houseNumber").getD (J.str ""),
       (jLookup cak "direction").getD (J.str ""),
       (jLookup cak "streetName").getD (J.str ""),
       (jLookup cak "streetType").getD (J.str "")] hparts
    refine isOk_bind sj hj ?_
    refine isOk_bind (J.str c1) (pyGetD_eq hc1v) ?_
    refine isOk_bind _ rfl ?_
    refine isOk_bind (J.str c2) (pyGetD_eq hc2v) ?_
    refine isOk_bind _ rfl ?_
    refine isOk_bind (J.str c3) (pyGetD_eq hc3v) ?_
    refine isOk_bind _ rfl ?_
    exact ⟨_, rfl⟩

theorem extractAddress_ok {kvs : Obj}
    (h : wfAddrList ((jLookup kvs "BorrowerAddress").getD (J.arr [])) = true) :
    ∃ v, extractAddress (J.obj kvs) = .ok v := by
  unfold extractAddress
  refine isOk_bind _ rfl ?_
  cases hA : (jLookup kvs "BorrowerAddress").getD (J.arr []) with
  | obj a =>
      rw [hA] at h
      have hd : wfCreditAddr ((jLookup a "CreditAddress").getD (J.obj [])) = true := h
      obtain ⟨cak, hcak, hu, hc1, hc2, hc3, hk1, hk2, hk3, hk4⟩ := wfCreditAddr_dest hd
      refine isOk_bind (J.obj a) rfl ?_
      refine isOk_bind (J.obj cak) (pyGetD_eq hcak) ?_
      exact addrBody_ok hu hc1 hc2 hc3 hk1 hk2 hk3 hk4
  | arr l =>
      cases l with
      | nil => exact ⟨J.null, rfl⟩
      | cons h1 t =>
          rw [hA] at h
          have hobj : wfAddrObj h1 = true := h
          obtain ⟨akvs, h1eq, hd⟩ := wfAddrObj_dest hobj
          subst h1eq
          obtain ⟨cak, hcak, hu, hc1, hc2, hc3, hk1, hk2, hk3, hk4⟩ := wfCreditAddr_dest hd
          refine isOk_bind (J.obj akvs) rfl ?_
          refine isOk_bind (J.obj cak) (pyGetD_eq hcak) ?_
          exact addrBody_ok hu hc1 hc2 hc3 hk1 hk2 hk3 hk4
  | null => exact ⟨J.null, rfl⟩
  | bool b =>
      rw [hA] at h
      have h2 : (!truthy (J.bool b)) = true := h
      rw [Bool.not_eq_true'] at h2
      refine ⟨J.null, ?_⟩
      simp [isObjB, h2, pure, Except.pure]
  | num q =>
      rw [hA] at h
      have h2 : (!truthy (J.num q)) = true := h
      rw [Bool.not_eq_true'] at h2
      refine ⟨J.null, ?_⟩
      simp [isObjB, h2, pure, Except.pure]
  | str s =>
      rw [hA] at h
      have h2 : (!truthy (J.str s)) = true := h
      rw [Bool.not_eq_true'] at h2
      refine ⟨J.null, ?_⟩
      simp [isObjB, h2, pure, Except.pure]

theorem extractBirthDate_ok {kvs : Obj}
    (h : wfBirthList ((jLookup kvs "Birth").getD (J.arr [])) = true) :
    ∃ v, extractBirthDate (J.obj kvs) = .ok v := by
  unfold extractBirthDate
  refine isOk_bind _ rfl ?_
  cases hA : (jLookup kvs "Birth").getD (J.arr []) with
  | obj a => exact ⟨_, rfl⟩
  | arr l =>
      cases l with
      | nil => exact ⟨J.null, rfl⟩
      | cons h1 t =>
          rw [hA] at h
          have hobj : isObjB h1 = true := h
          obtain ⟨akvs, rfl⟩ := isObjB_obj hobj
          exact ⟨_, rfl⟩
  | null => exact ⟨J.null, rfl⟩
  | bool b =>
      rw [hA] at h
      have h2 : (!truthy (J.bool b)) = true := h
      rw [Bool.not_eq_true'] at h2
      refine ⟨J.null, ?_⟩
      simp [isObjB, h2, pure, Except.pure]
  | num q =>
      rw [hA] at h
      have h2 : (!truthy (J.num q)) = true := h
      rw [Bool.not_eq_true'] at h2
      refine ⟨J.null, ?_⟩
      simp [isObjB, h2, pure, Except.pure]
  | str s =>
      rw [hA] at h
      have h2 : (!truthy (J.str s)) = true := h
      rw [Bool.not_eq_true'] at h2
      refine ⟨J.null, ?_⟩
      simp [isObjB, h2, pure, Except.pure]

theorem wfNameData_dest {nd : J} (h : wfNameData nd = true) :
    ∃ kvs, nd = J.obj kvs ∧ strIfTruthyKey kvs "first" = true ∧
      strIfTruthyKey kvs "middle" = true ∧ strIfTruthyKey kvs "last" = true := by
  cases nd with
  | obj kvs =>
      have h2 : (strIfTruthyKey kvs "first" && strIfTruthyKey kvs "middle" &&
          strIfTruthyKey kvs "last") = true := h
      exact ⟨kvs, rfl, ((Bool.and_eq_true _ _).mp ((Bool.and_eq_true _ _).mp h2).1).1,
        ((Bool.and_eq_true _ _).mp ((Bool.and_eq_true _ _).mp h2).1).2,
        ((Bool.and_eq_true _ _).mp h2).2⟩
  | null => simp [wfNameData] at h
  | bool b => simp [wfNameData] at h
  | num q => simp [wfNameData] at h
  | str s => simp [wfNameData] at h
  | arr l => simp [wfNameData] at h

theorem wfNameItem_dest {v : J} (h : wfNameItem v = true) :
    ∃ kvs, v = J.obj kvs ∧ isObjB ((jLookup kvs "NameType").getD (J.obj [])) = true ∧
      wfNameData ((jLookup kvs "Name").getD (J.obj [])) = true := by
  cases v with
  | obj kvs =>
      have h2 : (isObjB ((jLookup kvs "NameType").getD (J.obj [])) &&
          wfNameData ((jLookup kvs "Name").getD (J.obj []))) = true := h
      exact ⟨kvs, rfl, ((Bool.and_eq_true _ _).mp h2).1, ((Bool.and_eq_true _ _).mp h2).2⟩
  | null => simp [wfNameItem] at h
  | bool b => simp [wfNameItem] at h
  | num q => simp [wfNameItem] at h
  | str s => simp [wfNameItem] at h
  | arr l => simp [wfNameItem] at h

theorem nameFromNameData_ok {nd : J} (h : wfNameData nd = true) :
    ∃ s, nameFromNameData nd = .ok (J.str s) := by
  obtain ⟨kvs, rfl, h1, h2, h3⟩ := wfNameData_dest h
  by_cases hm : truthy ((jLookup kvs "middle").getD (J.str "")) = true
  · obtain ⟨sj, hj⟩ := pyJoinTruthy_ok " "
      [(jLookup kvs "first").getD (J.str ""), (jLookup kvs "middle").getD (J.str ""),
       (jLookup kvs "last").getD (J.str "")] (by
        intro x hx
        simp only [List.mem_cons, List.not_mem_nil, or_false] at hx
        rcases hx with rfl | rfl | rfl
        exacts [h1, h2, h3])
    refine ⟨pyTrim sj, ?_⟩
    show (pyJoinTruthy " "
        (if truthy ((jLookup kvs "middle").getD (J.str "")) then
          [(jLookup kvs "first").getD (J.str ""), (jLookup kvs "middle").getD (J.str ""),
           (jLookup kvs "last").getD (J.str "")]
         else [(jLookup kvs "first").getD (J.str ""), (jLookup kvs "last").getD (J.str "")]) >>=
      fun s => pure (J.str (pyTrim s))) = .ok (J.str (pyTrim sj))
    rw [if_pos hm, hj, except_bind_ok]
    rfl
  · obtain ⟨sj, hj⟩ := pyJoinTruthy_ok " "
      [(jLookup kvs "first").getD (J.str ""), (jLookup kvs "last").getD (J.str "")] (by
        intro x hx
        simp only [List.mem_cons, List.not_mem_nil, or_false] at hx
        rcases hx with rfl | rfl
        exacts [h1, h3])
    refine ⟨pyTrim sj, ?_⟩
    show (pyJoinTruthy " "
        (if truthy ((jLookup kvs "middle").getD (J.str "")) then
          [(jLookup kvs "first").getD (J.str ""), (jLookup kvs "middle").getD (J.str ""),
           (jLookup kvs "last").getD (J.str "")]
         else [(jLookup kvs "first").getD (J.str ""), (jLookup kvs "last").getD (J.str "")]) >>=
      fun s => pure (J.str (pyTrim s))) = .ok (J.str (pyTrim sj))
    rw [if_neg hm, hj, except_bind_ok]
    rfl

theorem nameFromNameData2_ok {nd : J} (h : wfNameData nd = true) :
    ∃ s, nameFromNameData2 nd = .ok (J.str s) := by
  obtain ⟨kvs, rfl, h1, h2, h3⟩ := wfNameData_dest h
  obtain ⟨sj, hj⟩ := pyJoinTruthy_ok " "
    [(jLookup kvs "first").getD (J.str ""), (jLookup kvs "middle").getD (J.str ""),
     (jLookup kvs "last").getD (J.str "")] (by
      intro x hx
      simp only [List.mem_cons, List.not_mem_nil, or_false] at hx
      rcases hx with rfl | rfl | rfl
      exacts [h1, h2, h3])
  refine ⟨pyTrim sj, ?_⟩
  show (pyJoinTruthy " "
      [(jLookup kvs "first").getD (J.str ""), (jLookup kvs "middle").getD (J.str ""),
       (jLookup kvs "last").getD (J.str "")] >>=
    fun s => pure (J.str (pyTrim s))) = .ok (J.str (pyTrim sj))
  rw [hj, except_bind_ok]
  rfl

theorem nameFromArr_ok : ∀ (l : List J) (orig : J),
    (∀ x ∈ l, (match x with
      | J.obj ikvs => (!truthy ((jLookup ikvs "Name").getD (J.obj [])) ||
          wfNameData ((jLookup ikvs "Name").getD (J.obj [])))
      | _ => true) = true) →
    ∃ v, nameFromArr l orig = .ok v := by
  intro l
  induction l with
  | nil => exact fun orig _ => ⟨orig, rfl⟩
  | cons item rest ih =>
      intro orig h
      have hrest := fun x hx => h x (List.mem_cons_of_mem _ hx)
      cases item with
      | obj ikvs =>
          have hit : (!truthy ((jLookup ikvs "Name").getD (J.obj [])) ||
              wfNameData ((jLookup ikvs "Name").getD (J.obj []))) = true :=
            h _ (List.mem_cons_self _ _)
          simp only [nameFromArr]
          by_cases htn : truthy ((jLookup ikvs "Name").getD (J.obj [])) = true
          · simp only [htn, if_true]
            rw [htn] at hit
            simp only [Bool.not_true, Bool.false_or] at hit
            obtain ⟨s, hs⟩ := nameFromNameData2_ok hit
            exact ⟨J.str s, by simp only [hs]⟩
          · have htnf : truthy ((jLookup ikvs "Name").getD (J.obj [])) = false := by
              rwa [Bool.not_eq_true] at htn
            simp only [htnf, Bool.false_eq_true, if_false]
            exact ih orig hrest
      | null => exact ih orig hrest
      | bool b => exact ih orig hrest
      | num q => exact ih orig hrest
      | str s => exact ih orig hrest
      | arr l2 => exact ih orig hrest

theorem findPrimaryName_ok : ∀ (l : List J), (∀ x ∈ l, wfNameItem x = true) →
    ∃ o, findPrimaryName l = .ok o ∧ ∀ p, o = some p → p ∈ l := by
  intro l
  induction l with
  | nil => exact fun _ => ⟨none, rfl, fun p hp => nomatch hp⟩
  | cons nobj rest ih =>
      intro h
      obtain ⟨kvs, rfl, hnt, hnd⟩ := wfNameItem_dest (h _ (List.mem_cons_self _ _))
      obtain ⟨ntk, hntk⟩ := isObjB_obj hnt
      by_cases hp : pyEq ((jLookup ntk "abbreviation").getD J.null) (J.str "Primary") = true
      · refine ⟨some (J.obj kvs), ?_, fun p hp2 => by
          rw [Option.some.injEq] at hp2
          rw [← hp2]
          exact List.mem_cons_self _ _⟩
        simp only [findPrimaryName, Bind.bind, Except.bind,
          show pyGetD (J.obj kvs) "NameType" (J.obj []) =
            Except.ok ((jLookup kvs "NameType").getD (J.obj [])) from rfl,
          hntk,
          show pyGet (J.obj ntk) "abbreviation" =
            Except.ok ((jLookup ntk "abbreviation").getD J.null) from rfl,
          hp, if_true]
      · have hpf : pyEq ((jLookup ntk "abbreviation").getD J.null) (J.str "Primary")
            = false := by rwa [Bool.not_eq_true] at hp
        obtain ⟨o, ho, hmem⟩ := ih (fun x hx => h x (List.mem_cons_of_mem _ hx))
        refine ⟨o, ?_, fun p hp2 => List.mem_cons_of_mem _ (hmem p hp2)⟩
        simp only [findPrimaryName, Bind.bind, Except.bind,
          show pyGetD (J.obj kvs) "NameType" (J.obj []) =
            Except.ok ((jLookup kvs "NameType").getD (J.obj [])) from rfl,
          hntk,
          show pyGet (J.obj ntk) "abbreviation" =
            Except.ok ((jLookup ntk "abbreviation").getD J.null) from rfl,
          hpf, Bool.false_eq_true, if_false]
        exact ho

theorem nameStage3_ok (kvs : Obj) (name2 : J)
    (hg2 : (∃ s, name2 = J.str s) ∨ truthy name2 = false) :
    ∃ v, (do
      let name3 ←
        if truthy name2 then pure name2
        else do
          let fn1 ← pyGet (J.obj kvs) "firstName"
          let fn2 ← pyGet (J.obj kvs) "FirstName"
          let first_name := pyOr fn1 fn2
          let ln1 ← pyGet (J.obj kvs) "lastName"
          let ln2 ← pyGet (J.obj kvs) "LastName"
          let last_name := pyOr ln1 ln2
          if truthy first_name && truthy last_name then
            pure (J.str (pyStr first_name ++ " " ++ pyStr last_name))
          else pure name2
      match name3 with
      | J.arr l => nameFromArr l name3
      | _ => pure name3 : Except PyErr J) = .ok v := by
  by_cases ht2 : truthy name2 = true
  · simp only [ht2, Bind.bind, Except.bind, pure, Except.pure]
    rcases hg2 with ⟨s, rfl⟩ | hf
    · exact ⟨J.str s, rfl⟩
    · rw [ht2] at hf
      exact Bool.noConfusion hf
  · have ht2f : truthy name2 = false := by rwa [Bool.not_eq_true] at ht2
    simp only [ht2f, Bind.bind, Except.bind, pure, Except.pure, pyGet, pyGetD]
    by_cases hfl : (truthy (pyOr ((jLookup kvs "firstName").getD J.null)
          ((jLookup kvs "FirstName").getD J.null)) &&
        truthy (pyOr ((jLookup kvs "lastName").getD J.null)
          ((jLookup kvs "LastName").getD J.null))) = true
    · simp only [hfl]
      exact ⟨_, rfl⟩
    · have hfl2 : (truthy (pyOr ((jLookup kvs "firstName").getD J.null)
            ((jLookup kvs "FirstName").getD J.null)) &&
          truthy (pyOr ((jLookup kvs "lastName").getD J.null)
            ((jLookup kvs "LastName").getD J.null))) = false := by
        rwa [Bool.not_eq_true] at hfl
      simp only [hfl2]
      cases name2 with
      | arr l =>
          cases l with
          | nil => exact ⟨J.arr [], rfl⟩
          | cons x xs => simp [truthy] at ht2f
      | null => exact ⟨_, rfl⟩
      | bool b => exact ⟨_, rfl⟩
      | num q => exact ⟨_, rfl⟩
      | str s => exact ⟨_, rfl⟩
      | obj l => exact ⟨_, rfl⟩

theorem nameStage2_ok (kvs : Obj) (name1 names : J)
    (hg1 : (∃ s, name1 = J.str s) ∨ truthy name1 = false)
    (hc2 : (match names with
      | J.arr l => l.all wfNameItem
      | _ => true) = true) :
    ∃ v, (do
      let name2 ←
        if truthy name1 then pure name1
        else
          match names with
          | J.arr (first_item :: _) =>
              match first_item with
              | J.obj kvs2 => do
                  let name_data := (jLookup kvs2 "Name").getD (J.obj [])
                  if truthy name_data then nameFromNameData2 name_data else pure name1
              | _ => pure name1
          | _ => pure name1
      let name3 ←
        if truthy name2 then pure name2
        else do
          let fn1 ← pyGet (J.obj kvs) "firstName"
          let fn2 ← pyGet (J.obj kvs) "FirstName"
          let first_name := pyOr fn1 fn2
          let ln1 ← pyGet (J.obj kvs) "lastName"
          let ln2 ← pyGet (J.obj kvs) "LastName"
          let last_name := pyOr ln1 ln2
          if truthy first_name && truthy last_name then
            pure (J.str (pyStr first_name ++ " " ++ pyStr last_name))
          else pure name2
      match name3 with
      | J.arr l => nameFromArr l name3
      | _ => pure name3 : Except PyErr J) = .ok v := by
  by_cases ht1 : truthy name1 = true
  · rw [ht1]
    exact nameStage3_ok kvs name1 hg1
  · have ht1f : truthy name1 = false := by rwa [Bool.not_eq_true] at ht1
    rw [ht1f]
    cases names with
    | arr l =>
        cases l with
        | nil => exact nameStage3_ok kvs name1 hg1
        | cons h1 t =>
            have hall : ((h1 :: t).all wfNameItem) = true := hc2
            obtain ⟨h1k, h1eq, hnt1, hnd1⟩ :=
              wfNameItem_dest (List.all_eq_true.mp hall h1 (List.mem_cons_self _ _))
            subst h1eq
            by_cases htnd : truthy ((jLookup h1k "Name").getD (J.obj [])) = true
            · obtain ⟨s2, hs2⟩ := nameFromNameData2_ok hnd1
              simp only [htnd, if_true, Bind.bind, Except.bind,
                show pyGetD (J.obj h1k) "Name" (J.obj []) =
                  Except.ok ((jLookup h1k "Name").getD (J.obj [])) from rfl, hs2]
              exact nameStage3_ok kvs (J.str s2) (Or.inl (Exists.intro s2 rfl))
            · have htndf : truthy ((jLookup h1k "Name").getD (J.obj [])) = false := by
                rwa [Bool.not_eq_true] at htnd
              simp only [htndf, Bool.false_eq_true, if_false]
              exact nameStage3_ok kvs name1 hg1
    | null => exact nameStage3_ok kvs name1 hg1
    | bool b => exact nameStage3_ok kvs name1 hg1
    | num q => exact nameStage3_ok kvs name1 hg1
    | str s => exact nameStage3_ok kvs name1 hg1
    | obj l => exact nameStage3_ok kvs name1 hg1

theorem extractName_ok {kvs : Obj} (h : wfBorrowerNames kvs = true) :
    ∃ v, extractName (J.obj kvs) = .ok v := by
  have hsplit : ((match (jLookup kvs "BorrowerName").getD J.null with
      | J.arr l => l.all (fun item =>
          match item with
          | J.obj ikvs =>
              (!truthy ((jLookup ikvs "Name").getD (J.obj [])) ||
               wfNameData ((jLookup ikvs "Name").getD (J.obj [])))
          | _ => true)
      | _ => true) &&
    (match (jLookup kvs "Name").getD (J.arr []) with
      | J.arr l => l.all wfNameItem
      | _ => true)) = true := h
  have hc1 := ((Bool.and_eq_true _ _).mp hsplit).1
  have hc2 := ((Bool.and_eq_true _ _).mp hsplit).2
  unfold extractName
  refine isOk_bind _ rfl ?_
  refine isOk_bind _ rfl ?_
  by_cases ht0 : truthy ((jLookup kvs "BorrowerName").getD J.null) = true
  · simp only [ht0, if_true, Bind.bind, Except.bind, pure, Except.pure]
    cases hN0 : (jLookup kvs "BorrowerName").getD J.null with
    | arr l =>
        rw [hN0] at hc1
        have hall : (l.all (fun item =>
            match item with
            | J.obj ikvs =>
                (!truthy ((jLookup ikvs "Name").getD (J.obj [])) ||
                 wfNameData ((jLookup ikvs "Name").getD (J.obj [])))
            | _ => true)) = true := hc1
        obtain ⟨v, hv⟩ := nameFromArr_ok l (J.arr l) (List.all_eq_true.mp hall)
        exact ⟨v, hv⟩
    | null => exact ⟨_, rfl⟩
    | bool b => exact ⟨_, rfl⟩
    | num q => exact ⟨_, rfl⟩
    | str s => exact ⟨_, rfl⟩
    | obj l => exact ⟨_, rfl⟩
  · have ht0f : truthy ((jLookup kvs "BorrowerName").getD J.null) = false := by
      rwa [Bool.not_eq_true] at ht0
    rw [ht0f]
    cases hNS : (jLookup kvs "Name").getD (J.arr []) with
    | arr l =>
        cases l with
        | nil => exact nameStage2_ok kvs _ (J.arr []) (Or.inr ht0f) rfl
        | cons h1 t =>
            have hc2x := hc2
            rw [hNS] at hc2x
            have hall2 : ((h1 :: t).all wfNameItem) = true := hc2x
            have hallm := List.all_eq_true.mp hall2
            obtain ⟨o, ho, hmem⟩ := findPrimaryName_ok (h1 :: t) hallm
            simp only [ho, Bind.bind, Except.bind]
            cases o with
            | none =>
                obtain ⟨h1k, h1eq, hnth, hndh⟩ :=
                  wfNameItem_dest (hallm h1 (List.mem_cons_self _ _))
                subst h1eq
                by_cases hth : truthy (J.obj h1k) = true
                · obtain ⟨s1, hs1⟩ := nameFromNameData_ok hndh
                  simp only [show truthy J.null = false from rfl, Bool.false_eq_true,
                    if_false, hth, if_true, Bind.bind, Except.bind,
                    show pyGetD (J.obj h1k) "Name" (J.obj []) =
                      Except.ok ((jLookup h1k "Name").getD (J.obj [])) from rfl, hs1]
                  exact nameStage2_ok kvs (J.str s1) (J.arr (J.obj h1k :: t))
                    (Or.inl (Exists.intro s1 rfl)) hall2
                · have hthf : truthy (J.obj h1k) = false := by
                    rwa [Bool.not_eq_true] at hth
                  simp only [show truthy J.null = false from rfl, Bool.false_eq_true,
                    if_false, hthf]
                  exact nameStage2_ok kvs _ (J.arr (J.obj h1k :: t)) (Or.inr ht0f) hall2
            | some p =>
                obtain ⟨pk, pkeq, hntp, hndp⟩ := wfNameItem_dest (hallm p (hmem p rfl))
                subst pkeq
                by_cases htp : truthy (J.obj pk) = true
                · obtain ⟨s1, hs1⟩ := nameFromNameData_ok hndp
                  simp only [htp, if_true, Bind.bind, Except.bind,
                    show pyGetD (J.obj pk) "Name" (J.obj []) =
                      Except.ok ((jLookup pk "Name").getD (J.obj [])) from rfl, hs1]
                  exact nameStage2_ok kvs (J.str s1) (J.arr (h1 :: t))
                    (Or.inl (Exists.intro s1 rfl)) hall2
                · have htpf : truthy (J.obj pk) = false := by
                    rwa [Bool.not_eq_true] at htp
                  obtain ⟨h1k, h1eq, hnth, hndh⟩ :=
                    wfNameItem_dest (hallm h1 (List.mem_cons_self _ _))
                  subst h1eq
                  by_cases hth : truthy (J.obj h1k) = true
                  · obtain ⟨s1, hs1⟩ := nameFromNameData_ok hndh
                    simp only [htpf, Bool.false_eq_true, if_false, hth, if_true,
                      Bind.bind, Except.bind,
                      show pyGetD (J.obj h1k) "Name" (J.obj []) =
                        Except.ok ((jLookup h1k "Name").getD (J.obj [])) from rfl, hs1]
                    exact nameStage2_ok kvs (J.str s1) (J.arr (J.obj h1k :: t))
                      (Or.inl (Exists.intro s1 rfl)) hall2
                  · have hthf : truthy (J.obj h1k) = false := by
                      rwa [Bool.not_eq_true] at hth
                    simp only [htpf, Bool.false_eq_true, if_false, hthf]
                    exact nameStage2_ok kvs _ (J.arr (J.obj h1k :: t)) (Or.inr ht0f) hall2
    | null => exact nameStage2_ok kvs _ J.null (Or.inr ht0f) rfl
    | bool b => exact nameStage2_ok kvs _ (J.bool b) (Or.inr ht0f) rfl
    | num q => exact nameStage2_ok kvs _ (J.num q) (Or.inr ht0f) rfl
    | str s => exact nameStage2_ok kvs _ (J.str s) (Or.inr ht0f) rfl
    | obj l => exact nameStage2_ok kvs _ (J.obj l) (Or.inr ht0f) rfl

theorem extractSsn_ok {kvs : Obj}
    (h : objIfTruthy ((jLookup kvs "SocialPartition").getD J.null) = true) :
    ∃ v, extractSsn (J.obj kvs) = .ok v := by
  unfold extractSsn
  refine isOk_bind _ rfl ?_
  refine ite_ok ⟨_, rfl⟩ ?_
  refine isOk_bind _ rfl ?_
  refine ite_ok ⟨_, rfl⟩ ?_
  refine isOk_bind _ rfl ?_
  show ∃ y, pyGet (pyOr ((jLookup kvs "SocialPartition").getD J.null) (J.obj []))
      "Social" = .ok y
  obtain ⟨k2, hk2⟩ := objIfTruthy_pyOr h
  rw [hk2]
  exact ⟨_, rfl⟩

theorem prevAddrLoop_ok : ∀ l acc, (∀ x ∈ l, wfPrevAddr x = true) →
    ∃ r, prevAddrLoop l acc = .ok r := by
  intro l
  induction l with
  | nil => exact fun acc _ => ⟨acc, rfl⟩
  | cons p rest ih =>
      intro acc h
      obtain ⟨e, he⟩ := prevAddrEntry_ok (h p (List.mem_cons_self _ _))
      obtain ⟨r, hr⟩ := ih (acc ++ [e]) (fun x hx => h x (List.mem_cons_of_mem _ hx))
      refine ⟨r, ?_⟩
      simp only [prevAddrLoop, Bind.bind, Except.bind, he, hr]

theorem wfBorrower_dest {kvs : Obj} (ht : truthy (J.obj kvs) = true)
    (h : wfBorrower (J.obj kvs) = true) :
    wfBorrowerNames kvs = true ∧
    objIfTruthy ((jLookup kvs "SocialPartition").getD J.null) = true ∧
    wfAddrList ((jLookup kvs "BorrowerAddress").getD (J.arr [])) = true ∧
    wfBirthList ((jLookup kvs "Birth").getD (J.arr [])) = true ∧
    wfArrOrObjAll wfPrevAddr ((jLookup kvs "PreviousAddress").getD (J.arr [])) = true := by
  unfold wfBorrower at h
  rw [if_pos ht] at h
  have h2 : (wfBorrowerNames kvs &&
      objIfTruthy ((jLookup kvs "SocialPartition").getD J.null) &&
      wfAddrList ((jLookup kvs "BorrowerAddress").getD (J.arr [])) &&
      wfBirthList ((jLookup kvs "Birth").getD (J.arr [])) &&
      wfArrOrObjAll wfPrevAddr ((jLookup kvs "PreviousAddress").getD (J.arr [])) &&
      wfArrOrObjAll srcBureauOk ((jLookup kvs "Inquiry").getD (J.arr [])) &&
      wfArrOrObjAll srcBureauOk ((jLookup kvs "Employer").getD (J.arr []))) = true := h
  simp only [Bool.and_eq_true] at h2
  exact ⟨h2.1.1.1.1.1.1, h2.1.1.1.1.1.2, h2.1.1.1.1.2, h2.1.1.1.2, h2.1.1.2⟩

theorem personalInfoSection_ok {kvs : Obj} (ht : truthy (J.obj kvs) = true)
    (h : wfBorrower (J.obj kvs) = true) :
    ∃ v, personalInfoSection (J.obj kvs) = .ok v := by
  obtain ⟨hn, hsp, had, hbd, hpa⟩ := wfBorrower_dest ht h
  obtain ⟨v1, h1⟩ := extractName_ok hn
  obtain ⟨v2, h2⟩ := extractSsn_ok hsp
  obtain ⟨v3, h3⟩ := extractAddress_ok had
  obtain ⟨v4, h4⟩ := extractBirthDate_ok hbd
  obtain ⟨l5, h5, hall5⟩ := wrapIter_all hpa
  obtain ⟨r6, h6⟩ := prevAddrLoop_ok l5 [] hall5
  simp only [personalInfoSection, Bind.bind, Except.bind, h1, h2, h3, h4,
    pyGetD, h5, h6]
  exact ⟨_, rfl⟩

theorem pinfoStep_ok {ckvs : Obj} {br : J} (h : wfBorrower br = true) :
    ∃ v, pinfoStep (J.obj ckvs) br = .ok v := by
  show ∃ v, (if truthy br then personalInfoSection br else pure (J.obj [])) = .ok v
  by_cases ht : truthy br = true
  · rw [if_pos ht]
    cases br with
    | obj kvs => exact personalInfoSection_ok ht h
    | null => simp [truthy] at ht
    | bool b2 =>
        unfold wfBorrower at h
        rw [if_pos ht] at h
        simp at h
    | num q =>
        unfold wfBorrower at h
        rw [if_pos ht] at h
        simp at h
    | str s =>
        unfold wfBorrower at h
        rw [if_pos ht] at h
        simp at h
    | arr l =>
        unfold wfBorrower at h
        rw [if_pos ht] at h
        simp at h
  · rw [if_neg ht]
    exact ⟨_, rfl⟩

theorem scoreBureauKey_ok (s : String) : ∃ k, scoreBureauKey (J.str s) = .ok k := by
  unfold scoreBureauKey
  refine isOk_bind _ rfl ?_
  refine ite_ok ⟨_, rfl⟩ ?_
  refine isOk_bind _ rfl ?_
  refine ite_ok ⟨_, rfl⟩ ?_
  refine isOk_bind _ rfl ?_
  exact ite_ok ⟨_, rfl⟩ ⟨_, rfl⟩

theorem wfScoreComp_dest {c : J} (h : wfScoreComp c = true) :
    ∃ kvs, c = J.obj kvs ∧
      strIfTruthy ((jLookup kvs "Type").getD J.null) = true ∧
      objIfTruthy ((jLookup kvs "CreditScoreType").getD J.null) = true := by
  cases c with
  | obj kvs =>
      have h2 : (strIfTruthy ((jLookup kvs "Type").getD J.null) &&
          objIfTruthy ((jLookup kvs "CreditScoreType").getD J.null)) = true := h
      exact ⟨kvs, rfl, ((Bool.and_eq_true _ _).mp h2).1, ((Bool.and_eq_true _ _).mp h2).2⟩
  | null => simp [wfScoreComp] at h
  | bool b => simp [wfScoreComp] at h
  | num q => simp [wfScoreComp] at h
  | str s => simp [wfScoreComp] at h
  | arr l => simp [wfScoreComp] at h

theorem scoresCompLoop_ok : ∀ l sc, (∀ x ∈ l, wfScoreComp x = true) →
    ∃ r, scoresCompLoop l sc = .ok r := by
  intro l
  induction l with
  | nil => exact fun sc _ => ⟨sc, rfl⟩
  | cons c rest ih =>
      intro sc h
      obtain ⟨kvs, rfl, hT, hC⟩ := wfScoreComp_dest (h c (List.mem_cons_self _ _))
      have hrest := fun x hx => h x (List.mem_cons_of_mem _ hx)
      obtain ⟨k2, hk2⟩ := objIfTruthy_pyOr hC
      simp only [scoresCompLoop]
      refine isOk_bind _ rfl ?_
      refine isOk_bind _ rfl ?_
      rw [hk2]
      refine isOk_bind _ rfl ?_
      by_cases ht1 : truthy ((jLookup k2 "riskScore").getD J.null) = true
      · simp only [ht1, if_true]
        refine isOk_bind _ rfl ?_
        by_cases hg : (truthy ((jLookup k2 "riskScore").getD J.null) &&
            truthy ((jLookup kvs "Type").getD J.null)) = true
        · simp only [hg, if_true]
          obtain ⟨s, hs⟩ := strIfTruthy_str hT ((Bool.and_eq_true _ _).mp hg).2
          rw [hs]
          obtain ⟨k, hk⟩ := scoreBureauKey_ok s
          refine isOk_bind _ hk ?_
          cases k with
          | some key => exact ih _ hrest
          | none => exact ih sc hrest
        · have hgf : (truthy ((jLookup k2 "riskScore").getD J.null) &&
              truthy ((jLookup kvs "Type").getD J.null)) = false := by
            rwa [Bool.not_eq_true] at hg
          simp only [hgf, Bool.false_eq_true, if_false]
          exact ih sc hrest
      · have ht1f : truthy ((jLookup k2 "riskScore").getD J.null) = false := by
          rwa [Bool.not_eq_true] at ht1
        simp only [ht1f, Bool.false_eq_true, if_false]
        refine isOk_bind _ rfl ?_
        by_cases hg : (truthy ((jLookup k2 "score").getD J.null) &&
            truthy ((jLookup kvs "Type").getD J.null)) = true
        · simp only [hg, if_true]
          obtain ⟨s, hs⟩ := strIfTruthy_str hT ((Bool.and_eq_true _ _).mp hg).2
          rw [hs]
          obtain ⟨k, hk⟩ := scoreBureauKey_ok s
          refine isOk_bind _ hk ?_
          cases k with
          | some key => exact ih _ hrest
          | none => exact ih sc hrest
        · have hgf : (truthy ((jLookup k2 "score").getD J.null) &&
              truthy ((jLookup kvs "Type").getD J.null)) = false := by
            rwa [Bool.not_eq_true] at hg
          simp only [hgf, Bool.false_eq_true, if_false]
          exact ih sc hrest

theorem wfComps_to_score {v : J} (h : wfComps v = true) :
    wfArrOrObjAll wfScoreComp v = true := by
  cases v with
  | obj kvs =>
      have h2 : (wfScoreComp (J.obj kvs) && wfMergeComp (J.obj kvs)) = true := h
      exact ((Bool.and_eq_true _ _).mp h2).1
  | arr l =>
      have h2 := List.all_eq_true.mp h
      exact List.all_eq_true.mpr (fun x hx => ((Bool.and_eq_true _ _).mp (h2 x hx)).1)
  | null => simp [wfComps] at h
  | bool b => simp [wfComps] at h
  | num q => simp [wfComps] at h
  | str s => simp [wfComps] at h

theorem scoresBundlePass_ok {kvs : Obj} (sc : Obj) (h : wfBundleArea kvs = true) :
    ∃ r, scoresBundlePass kvs sc = .ok r := by
  simp only [wfBundleArea] at h
  have h1 := ((Bool.and_eq_true _ _).mp h).1
  have h2 := ((Bool.and_eq_true _ _).mp h).2
  have h2a : ∀ b2, (jLookup kvs "BundleComponents").getD J.null = J.obj b2 →
      truthy ((jLookup kvs "BundleComponents").getD J.null) = true →
      wfArrOrObjAll wfScoreComp ((jLookup b2 "BundleComponent").getD (J.arr [])) = true := by
    intro b2 hb _
    rw [hb] at h2
    exact wfComps_to_score h2
  obtain ⟨c0, l, hc0, hw, hall⟩ := pyOrGet_wrap h1 h2a
  obtain ⟨r, hr⟩ := scoresCompLoop_ok l sc hall
  refine ⟨r, ?_⟩
  simp only [scoresBundlePass, hc0, hw, hr, Bind.bind, Except.bind]

theorem scoresStep_ok {kvs : Obj} (rrs br : J) (scores : Obj)
    (h : wfBundleArea kvs = true) :
    ∃ r, scoresStep (J.obj kvs) rrs br scores = .ok r := by
  obtain ⟨s1, hs1⟩ := scoresBundlePass_ok scores h
  simp only [scoresStep, Bind.bind, Except.bind, hs1]
  exact ⟨_, rfl⟩

theorem wfTrade_obj {v : J} (h : wfTrade v = true) : ∃ kvs, v = J.obj kvs := by
  cases v with
  | obj kvs => exact ⟨kvs, rfl⟩
  | null => simp [wfTrade] at h
  | bool b => simp [wfTrade] at h
  | num q => simp [wfTrade] at h
  | str s => simp [wfTrade] at h
  | arr l => simp [wfTrade] at h

theorem wfTrade_dest {kvs : Obj} (h : wfTrade (J.obj kvs) = true) :
    objIfTruthy ((jLookup kvs "institution").getD J.null) = true ∧
    objIfTruthy ((jLookup kvs "accountTypeObj").getD J.null) = true ∧
    (match (jLookup kvs "memberCodeAccount").getD J.null with
     | J.obj m2 => objIfTruthy ((jLookup m2 "creditorContact").getD J.null)
     | v => !truthy v) = true ∧
    objIfTruthy ((jLookup kvs "creditorContact").getD J.null) = true := by
  have h2 : (objIfTruthy ((jLookup kvs "institution").getD J.null) &&
      objIfTruthy ((jLookup kvs "accountTypeObj").getD J.null) &&
      (match (jLookup kvs "memberCodeAccount").getD J.null with
       | J.obj m2 => objIfTruthy ((jLookup m2 "creditorContact").getD J.null)
       | v => !truthy v) &&
      objIfTruthy ((jLookup kvs "creditorContact").getD J.null)) = true := h
  simp only [Bool.and_eq_true] at h2
  exact ⟨h2.1.1.1, h2.1.1.2, h2.1.2, h2.2⟩

theorem mcaCc_ok {mv : J}
    (h : (match mv with
      | J.obj m2 => objIfTruthy ((jLookup m2 "creditorContact").getD J.null)
      | v => !truthy v) = true) :
    ∃ ccv, pyGet (pyOr mv (J.obj [])) "creditorContact" = .ok ccv ∧
      objIfTruthy ccv = true := by
  by_cases ht : truthy mv = true
  · cases mv with
    | obj m2 =>
        refine ⟨(jLookup m2 "creditorContact").getD J.null, ?_, h⟩
        rw [pyOr, if_pos ht]
        rfl
    | null => simp [truthy] at ht
    | bool b => simp [ht] at h
    | num q => simp [ht] at h
    | str s2 => simp [ht] at h
    | arr l => simp [ht] at h
  · rw [Bool.not_eq_true] at ht
    refine ⟨J.null, ?_, rfl⟩
    rw [pyOr, if_neg (by simp [ht])]
    rfl

theorem resolveTrade_ok {kvs : Obj} (h : wfTrade (J.obj kvs) = true) :
    ∃ f, resolveTrade (J.obj kvs) = .ok f := by
  obtain ⟨hI, hA, hM, hC⟩ := wfTrade_dest h
  obtain ⟨k1, hk1⟩ := objIfTruthy_pyOr hI
  obtain ⟨k2, hk2⟩ := objIfTruthy_pyOr hA
  obtain ⟨ccv, hcc, hccO⟩ := mcaCc_ok hM
  obtain ⟨k3, hk3⟩ := objIfTruthy_pyOr hccO
  obtain ⟨k4, hk4⟩ := objIfTruthy_pyOr hC
  unfold resolveTrade
  refine isOk_bind _ rfl ?_
  rw [hk1]
  refine isOk_bind _ rfl ?_
  refine isOk_bind _ rfl ?_
  refine isOk_bind _ rfl ?_
  rw [hk2]
  refine isOk_bind _ rfl ?_
  refine isOk_bind _ rfl ?_
  refine isOk_bind _ rfl ?_
  refine isOk_bind _ hcc ?_
  rw [hk3]
  refine isOk_bind _ rfl ?_
  by_cases hb0 : truthy ((jLookup k3 "creditorContactSource").getD J.null) = true
  · simp only [hb0, if_true]
    refine isOk_bind _ rfl ?_
    simp only [hb0, if_true]
    refine isOk_bind _ rfl ?_
    exact ⟨_, rfl⟩
  · have hb0f : truthy ((jLookup k3 "creditorContactSource").getD J.null) = false := by
      rwa [Bool.not_eq_true] at hb0
    simp only [hb0f, Bool.false_eq_true, if_false]
    refine isOk_bind _ rfl ?_
    rw [hk4]
    refine isOk_bind _ rfl ?_
    by_cases hb1 : truthy ((jLookup k4 "creditorContactSource").getD J.null) = true
    · simp only [hb1, if_true]
      refine isOk_bind _ rfl ?_
      exact ⟨_, rfl⟩
    · have hb1f : truthy ((jLookup k4 "creditorContactSource").getD J.null) = false := by
        rwa [Bool.not_eq_true] at hb1
      simp only [hb1f, Bool.false_eq_true, if_false]
      exact ⟨_, rfl⟩

theorem tradesLoop_ok : ∀ l accts, (∀ x ∈ l, wfTrade x = true) →
    ∃ r, tradesLoop l accts = .ok r := by
  intro l
  induction l with
  | nil => exact fun accts _ => ⟨accts, rfl⟩
  | cons t rest ih =>
      intro accts h
      have ht := h t (List.mem_cons_self _ _)
      obtain ⟨kvs, rfl⟩ := wfTrade_obj ht
      obtain ⟨f, hf⟩ := resolveTrade_ok ht
      obtain ⟨r, hr⟩ := ih (accts ++ [mkTradeAcct f])
        (fun x hx => h x (List.mem_cons_of_mem _ hx))
      refine ⟨r, ?_⟩
      simp only [tradesLoop, Bind.bind, Except.bind, hf, hr]

theorem tradesSection_ok {raw : Obj} (h : wfTradesEndpoint raw = true) :
    ∃ r, tradesSection raw = .ok r := by
  simp only [wfTradesEndpoint] at h
  have h1 := ((Bool.and_eq_true _ _).mp h).1
  have h2 := ((Bool.and_eq_true _ _).mp h).2
  have h2a : ∀ kvs2, (jLookup raw "trades").getD J.null = J.obj kvs2 →
      truthy ((jLookup raw "trades").getD J.null) = true →
      wfArrOrObjAll wfTrade ((jLookup kvs2 "trades").getD (J.arr [])) = true := by
    intro kvs2 hkv _
    rw [hkv] at h2
    exact h2
  obtain ⟨c0, l, hc0, hw, hall⟩ := pyOrGet_wrap h1 h2a
  obtain ⟨r, hr⟩ := tradesLoop_ok l [] hall
  refine ⟨r, ?_⟩
  simp only [tradesSection, hc0, hw, hr, Bind.bind, Except.bind]

theorem resolveAccountStatus_ok {tkvs : Obj}
    (hac : isObjB ((jLookup tkvs "accountCondition").getD (J.obj [])) = true) :
    ∃ v, resolveAccountStatus (J.obj tkvs) = .ok v := by
  obtain ⟨ak, hak⟩ := isObjB_obj hac
  unfold resolveAccountStatus
  refine isOk_bind _ rfl ?_
  refine ite_ok ⟨_, rfl⟩ ?_
  refine isOk_bind _ rfl ?_
  rw [hak]
  exact ⟨_, rfl⟩

theorem resolvePartTradeline_ok (pk : Obj) {tkvs : Obj}
    (h1 : srcBureauOk (J.obj tkvs) = true)
    (h2 : isObjB ((jLookup tkvs "accountCondition").getD (J.obj [])) = true) :
    ∃ f, resolvePartTradeline (J.obj pk) (J.obj tkvs) = .ok f := by
  obtain ⟨s2, b2, hs, hb⟩ := srcBureauOk_dest h1
  obtain ⟨sv, hsv⟩ := resolveAccountStatus_ok h2
  unfold resolvePartTradeline
  refine isOk_bind _ rfl ?_
  rw [hs]
  refine isOk_bind _ rfl ?_
  rw [hb]
  refine isOk_bind _ rfl ?_
  refine isOk_bind _ rfl ?_
  refine isOk_bind _ rfl ?_
  refine isOk_bind _ rfl ?_
  refine isOk_bind _ rfl ?_
  refine isOk_bind _ rfl ?_
  refine isOk_bind _ rfl ?_
  refine isOk_bind _ rfl ?_
  refine isOk_bind _ hsv ?_
  exact ⟨_, rfl⟩

theorem wfPartTradeline_dest {tkvs : Obj} (h : wfPartTradeline (J.obj tkvs) = true) :
    srcBureauOk (J.obj tkvs) = true ∧
    isObjB ((jLookup tkvs "accountCondition").getD (J.obj [])) = true := by
  have h2 : (srcBureauOk (J.obj tkvs) &&
      isObjB ((jLookup tkvs "accountCondition").getD (J.obj []))) = true := h
  exact (Bool.and_eq_true _ _).mp h2

theorem partTradelineLoop_ok (pk : Obj) : ∀ l accts,
    (∀ x ∈ l, wfPartTradeline x = true) →
    ∃ r, partTradelineLoop (J.obj pk) l accts = .ok r := by
  intro l
  induction l with
  | nil => exact fun accts _ => ⟨accts, rfl⟩
  | cons t rest ih =>
      intro accts h
      have hrest := fun x hx => h x (List.mem_cons_of_mem _ hx)
      cases t with
      | obj tkvs =>
          obtain ⟨ha, hb⟩ := wfPartTradeline_dest (h _ (List.mem_cons_self _ _))
          obtain ⟨f, hf⟩ := resolvePartTradeline_ok pk ha hb
          obtain ⟨r, hr⟩ := ih
            (if !isDuplicate3 accts f.account_number f.creditor_name f.bureau_symbol &&
                truthy f.creditor_name && truthy f.account_number
             then accts ++ [mkPartitionAcct f] else accts) hrest
          refine ⟨r, ?_⟩
          simp only [partTradelineLoop, Bind.bind, Except.bind, hf, hr]
      | null => exact ih accts hrest
      | bool b => exact ih accts hrest
      | num q => exact ih accts hrest
      | str s2 => exact ih accts hrest
      | arr l2 => exact ih accts hrest

theorem wfPartItem_obj {v : J} (h : wfPartItem v = true) : ∃ kvs, v = J.obj kvs := by
  cases v with
  | obj kvs => exact ⟨kvs, rfl⟩
  | null => simp [wfPartItem] at h
  | bool b => simp [wfPartItem] at h
  | num q => simp [wfPartItem] at h
  | str s => simp [wfPartItem] at h
  | arr l => simp [wfPartItem] at h

theorem partitionItems_ok : ∀ l accts, (∀ x ∈ l, wfPartItem x = true) →
    ∃ r, partitionItems l accts = .ok r := by
  intro l
  induction l with
  | nil => exact fun accts _ => ⟨accts, rfl⟩
  | cons it rest ih =>
      intro accts h
      have hit := h it (List.mem_cons_self _ _)
      obtain ⟨ikvs, rfl⟩ := wfPartItem_obj hit
      have hall : ((tradelinesOf ((jLookup ikvs "Tradeline").getD (J.obj []))).all
          wfPartTradeline) = true := hit
      obtain ⟨r2, hr2⟩ := partTradelineLoop_ok ikvs
        (tradelinesOf ((jLookup ikvs "Tradeline").getD (J.obj []))) accts
        (List.all_eq_true.mp hall)
      obtain ⟨r, hr⟩ := ih r2 (fun x hx => h x (List.mem_cons_of_mem _ hx))
      refine ⟨r, ?_⟩
      simp only [partitionItems, Bind.bind, Except.bind, pyGetD, hr2, hr]

theorem tradeLinePartitionSection_ok {tl : J} (accts : List Obj)
    (h : wfTrueLink tl = true) :
    ∃ r, tradeLinePartitionSection tl accts = .ok r := by
  unfold tradeLinePartitionSection
  by_cases ht : truthy tl = true
  · rw [if_pos ht]
    unfold wfTrueLink at h
    rw [if_pos ht] at h
    cases tl with
    | obj kvs =>
        have h2 : (wfArrOrObjAll wfPartItem
            ((jLookup kvs "TradeLinePartition").getD (J.arr [])) &&
            wfArrOrObjAll wfInqItem
            ((jLookup kvs "InquiryPartition").getD (J.arr []))) = true := h
        obtain ⟨l, hw, hall⟩ := wrapIter_all ((Bool.and_eq_true _ _).mp h2).1
        obtain ⟨r, hr⟩ := partitionItems_ok l accts hall
        refine ⟨r, ?_⟩
        simp only [pyGetD, Bind.bind, Except.bind, hw, hr]
    | null => simp at h
    | bool b => simp at h
    | num q => simp at h
    | str s => simp at h
    | arr l => simp at h
  · rw [if_neg ht]
    exact ⟨accts, rfl⟩

theorem accountsStep_ok {raw : Obj} {tl : J} (hte : wfTradesEndpoint raw = true)
    (htl : wfTrueLink tl = true) :
    ∃ r, accountsStep raw tl = .ok r := by
  obtain ⟨a1, h1⟩ := tradesSection_ok hte
  obtain ⟨a2, h2⟩ := tradeLinePartitionSection_ok a1 htl
  simp only [accountsStep, Bind.bind, Except.bind, h1, h2]
  exact ⟨_, rfl⟩

theorem inquiriesStep_ok {raw : Obj} {tl br : J} (hs : wfSearchInq raw = true)
    (htl : wfTrueLink tl = true) (hwb : wfBorrower br = true) :
    ∃ r, inquiriesStep raw tl br = .ok r := by
  obtain ⟨i1, h1⟩ := inquiriesSearch_ok hs
  obtain ⟨i2, h2⟩ := @inquiryPartitionSection_ok tl i1 htl
  obtain ⟨i3, h3⟩ := @borrowerInquiries_ok br i2 hwb
  simp only [inquiriesStep, Bind.bind, Except.bind, h1, h2, h3]
  exact ⟨_, rfl⟩

theorem employersStep_ok {cr br : J} (hwb : wfBorrower br = true)
    (hef : wfEmployersFallback cr = true) :
    ∃ r, employersStep cr br = .ok r := by
  obtain ⟨e1, h1⟩ := borrowerEmployers_ok hwb
  obtain ⟨e2, h2⟩ := @employersFallback_ok cr e1 hef
  simp only [employersStep, Bind.bind, Except.bind, h1, h2]
  exact ⟨_, rfl⟩

/-- Claim C4, amended: `normalize_report` can raise on JSON-shaped input
(see `c4_cex`), but it returns a canonical report on every input satisfying
the structural shape conditions `Wf`: object-expected positions hold objects
or are absent/falsy, collection positions hold objects or lists of objects,
string-expected positions hold strings, and the resolved `true_link` and
borrower blocks are likewise well-shaped. -/
theorem c4_amended (raw scores : Obj) (h : Wf raw = true) :
    ∃ r, normalize_report raw scores = .ok r := by
  unfold Wf at h
  cases hcr : rawCr raw with
  | obj kvs =>
      rw [hcr] at h
      have h2 : (wfBundleArea kvs && wfTradesEndpoint raw && wfSearchInq raw &&
          wfEmployersFallback (J.obj kvs) &&
          (match resolvedTlBr raw with
           | .ok tlbr => wfTrueLink tlbr.1 && wfBorrower tlbr.2
           | .error _ => false)) = true := h
      simp only [Bool.and_eq_true] at h2
      obtain ⟨⟨⟨⟨hba, hte⟩, hsi⟩, hef⟩, hres⟩ := h2
      cases hrt : resolvedTlBr raw with
      | error e => rw [hrt] at hres; simp at hres
      | ok tlbr =>
          rw [hrt] at hres
          have h3 : (wfTrueLink tlbr.1 && wfBorrower tlbr.2) = true := hres
          have htl := ((Bool.and_eq_true _ _).mp h3).1
          have hwb := ((Bool.and_eq_true _ _).mp h3).2
          obtain ⟨p1, hp1⟩ := @pinfoStep_ok kvs tlbr.2 hwb
          obtain ⟨s1, hs1⟩ := @scoresStep_ok kvs (rawRrs raw) tlbr.2 scores hba
          obtain ⟨a3, ha3⟩ := accountsStep_ok hte htl
          obtain ⟨i3, hi3⟩ := inquiriesStep_ok hsi htl hwb
          obtain ⟨prs, hprs⟩ := publicRecordsSection_ok hsi
          obtain ⟨e2, he2⟩ := employersStep_ok hwb hef
          simp only [normalize_report, Bind.bind, Except.bind, hrt, hcr,
            hp1, hs1, ha3, hi3, hprs, he2]
          exact ⟨_, rfl⟩
  | null => rw [hcr] at h; simp at h
  | bool b => rw [hcr] at h; simp at h
  | num q => rw [hcr] at h; simp at h
  | str s => rw [hcr] at h; simp at h
  | arr l => rw [hcr] at h; simp at h

/-- Witness for `c4_amended`: a well-shaped document with trades, bundle
borrower (via the outer fallback) and search results satisfies `Wf` and
yields a report. -/
theorem c4_amended_witness :
    Wf c4wraw = true ∧ ∃ r, normalize_report c4wraw [] = .ok r :=
  ⟨rfl, c4_amended c4wraw [] rfl⟩

end SmartCredit
